import Mathlib

/-! Energy-mode arbiter, event scheduler and I2C transaction start.

A shallow embedding of `sleep_routines.c`, `scheduler.c` and of `i2c_start`
(`i2c.c`).  File-level C variables become explicit state that every function
takes and returns.  `EFM_ASSERT` is a halting assertion: a function that
reaches a failed assertion ends in `Outcome.assert_failed`, carrying the state
at the moment of the halt.
-/

namespace BleFw

/-! ## Results of a call -/

/-- How a call ends: it returns, it halts in a failed `EFM_ASSERT`, or it is
still inside a busy-wait loop when the iteration budget is used up.  Each
constructor carries the state reached. -/
inductive Outcome (σ : Type) where
  | ret (s : σ)
  | assert_failed (s : σ)
  | out_of_fuel (s : σ)
  deriving DecidableEq, Repr

/-- Whether the call halted in a failed assertion. -/
def Outcome.asserted {σ : Type} : Outcome σ → Bool
  | .assert_failed _ => true
  | _ => false

/-- Whether the call returned to its caller. -/
def Outcome.returned {σ : Type} : Outcome σ → Bool
  | .ret _ => true
  | _ => false

/-- The state carried by an outcome. -/
def Outcome.state {σ : Type} : Outcome σ → σ
  | .ret s => s
  | .assert_failed s => s
  | .out_of_fuel s => s

/-! ## Machine integers -/

/-- Result of 32-bit two's-complement `int` arithmetic: the value of `x`
reduced into `[-2^31, 2^31)`. -/
def wrap_int32 (x : Int) : Int := (x + 2147483648) % 4294967296 - 2147483648

/-- Largest value of a C `int` on the target. -/
def INT_MAX : Int := 2147483647

/-- Smallest value of a C `int` on the target. -/
def INT_MIN : Int := -2147483648

/-- Number of values of a `uint32_t`. -/
def UINT32_MOD : Nat := 4294967296

/-! ## sleep_routines.c -/

/-- Modelled from the spec: `sleep_routines.h` is not among the sources.  The
table is "a fixed-size array indexed by sleep depth (shallowest to deepest)";
the comments of `sleep_routines.c` give its size ("all the energy modes there
are, 5") and the range of a depth ("a value from 0-4"). -/
def MAX_ENERGY_MODES : Nat := 5

/-- Modelled from the spec: depth index of energy mode 0 (shallowest), from the
absent `sleep_routines.h`. -/
def EM0 : Nat := 0

/-- Modelled from the spec: depth index of energy mode 1, from the absent
`sleep_routines.h`. -/
def EM1 : Nat := 1

/-- Modelled from the spec: depth index of energy mode 2, from the absent
`sleep_routines.h`. -/
def EM2 : Nat := 2

/-- Modelled from the spec: depth index of energy mode 3, from the absent
`sleep_routines.h` (`leuart.h` uses the literal 3 for the same table). -/
def EM3 : Nat := 3

/-- Modelled from the spec: depth index of energy mode 4 (deepest), from the
absent `sleep_routines.h`. -/
def EM4 : Nat := 4

/-- The array `static int lowest_energy_mode[MAX_ENERGY_MODES]`. -/
abbrev EnergyTable := List Int

/-- The element `lowest_energy_mode[i]`. -/
def count_at (t : EnergyTable) (i : Nat) : Int := t.getD i 0

/-- The table is the C array: it has exactly `MAX_ENERGY_MODES` entries. -/
def EnergyTable.wf (t : EnergyTable) : Prop := t.length = MAX_ENERGY_MODES

instance (t : EnergyTable) : Decidable t.wf := by
  unfold EnergyTable.wf; exact inferInstance

/-- The low-power instruction issued by `enter_sleep`. -/
inductive EMU_call where
  | EMU_EnterEM1
  | EMU_EnterEM2 (restore : Bool)
  | EMU_EnterEM3 (restore : Bool)
  deriving DecidableEq, Repr

/-- The energy mode an EMU call enters. -/
def EMU_call.mode : EMU_call → Nat
  | .EMU_EnterEM1 => EM1
  | .EMU_EnterEM2 _ => EM2
  | .EMU_EnterEM3 _ => EM3

/-- `enter_sleep`: the if/else chain over the counts at EM0..EM3; the result is
the EMU call made, `none` when the function returns without one. -/
def enter_sleep (t : EnergyTable) : Option EMU_call :=
  if count_at t EM0 > 0 then none
  else if count_at t EM1 > 0 then none
  else if count_at t EM2 > 0 then some .EMU_EnterEM1
  else if count_at t EM3 > 0 then some (.EMU_EnterEM2 true)
  else some (.EMU_EnterEM3 true)

/-- The `for` loop of `current_block_energy_mode` with `remaining` iterations
left before `i` reaches `MAX_ENERGY_MODES`. -/
def current_block_energy_mode_loop (t : EnergyTable) : (remaining : Nat) → (i : Nat) → Nat
  | 0, _ => MAX_ENERGY_MODES - 1
  | r + 1, i => if count_at t i ≠ 0 then i else current_block_energy_mode_loop t r (i + 1)

/-- `current_block_energy_mode`: scan from index 0. -/
def current_block_energy_mode (t : EnergyTable) : Nat :=
  current_block_energy_mode_loop t MAX_ENERGY_MODES 0

/-- `sleep_unblock_mode(EM)`: decrement the entry, then assert it is `>= 0`. -/
def sleep_unblock_mode (t : EnergyTable) (EM : Nat) : Outcome EnergyTable :=
  let t1 := t.set EM (wrap_int32 (count_at t EM - 1))
  if count_at t1 EM ≥ 0 then .ret t1 else .assert_failed t1

/-- `sleep_block_mode(EM)`: increment the entry, then assert it is `< 5`. -/
def sleep_block_mode (t : EnergyTable) (EM : Nat) : Outcome EnergyTable :=
  let t1 := t.set EM (wrap_int32 (count_at t EM + 1))
  if count_at t1 EM < 5 then .ret t1 else .assert_failed t1

/-- The `for` loop of `sleep_open` with `remaining` iterations left, at index `j`. -/
def sleep_open_loop : (remaining : Nat) → (j : Nat) → EnergyTable → EnergyTable
  | 0, _, t => t
  | r + 1, j, t => sleep_open_loop r (j + 1) (t.set j 0)

/-- `sleep_open`: write 0 to every entry. -/
def sleep_open (t : EnergyTable) : EnergyTable :=
  sleep_open_loop MAX_ENERGY_MODES 0 t

/-- Every entry of the table lies in `0..4`. -/
def counts_bounded (t : EnergyTable) : Prop := ∀ i, 0 ≤ count_at t i ∧ count_at t i ≤ 4

/-- One call made by a client of the arbiter. -/
inductive SleepCall where
  | block (d : Nat)
  | unblock (d : Nat)
  deriving DecidableEq, Repr

/-- The depth a call names. -/
def SleepCall.depth : SleepCall → Nat
  | .block d => d
  | .unblock d => d

/-- Perform one call on the table. -/
def SleepCall.apply (t : EnergyTable) : SleepCall → Outcome EnergyTable
  | .block d => sleep_block_mode t d
  | .unblock d => sleep_unblock_mode t d

/-- Perform a sequence of calls in order; a failed assertion halts the run. -/
def run_sleep_calls : EnergyTable → List SleepCall → Outcome EnergyTable
  | t, [] => .ret t
  | t, c :: cs =>
    match c.apply t with
    | .ret t1 => run_sleep_calls t1 cs
    | other => other

/-! ## scheduler.c -/

/-- Bitwise complement `~x` of a `uint32_t`. -/
def bit_not32 (x : Nat) : Nat := UINT32_MOD - 1 - x % UINT32_MOD

/-- `scheduler_open`: the new value of `event_scheduled`. -/
def scheduler_open (_event_scheduled : Nat) : Nat := 0

/-- `add_scheduled_event(event)`: `event_scheduled |= event`. -/
def add_scheduled_event (event_scheduled event : Nat) : Nat :=
  (event_scheduled ||| event) % UINT32_MOD

/-- `remove_scheduled_event(event)`: `event_scheduled = event_scheduled & ~event`. -/
def remove_scheduled_event (event_scheduled event : Nat) : Nat :=
  (event_scheduled &&& bit_not32 event) % UINT32_MOD

/-- `get_scheduled_events`: the value returned, paired with `event_scheduled`
as the call leaves it. -/
def get_scheduled_events (event_scheduled : Nat) : Nat × Nat :=
  (event_scheduled, event_scheduled)

/-! ## i2c.c -/

/-- A value of type `I2C_TypeDef *`: the base address of `I2C0`, of `I2C1`, or
any other address. -/
inductive I2C_TypeDef where
  | I2C0
  | I2C1
  | other (base : Nat)
  deriving DecidableEq, Repr

/-- The enum `DEFINED_STATES` of `i2c.h`. -/
inductive DEFINED_STATES where
  | init_process
  | read_data
  | stop_data
  | write_data
  deriving DecidableEq, Repr

/-- The integer value of an enumerator (declaration order, from 0). -/
def DEFINED_STATES.toNat : DEFINED_STATES → Nat
  | .init_process => 0
  | .read_data => 1
  | .stop_data => 2
  | .write_data => 3

/-- `READ_OP` of `i2c.h`. -/
def READ_OP : Nat := 1

/-- `WRITE_OP` of `i2c.h`. -/
def WRITE_OP : Nat := 0

/-- The struct `I2C_STATE_MACHINE` of `i2c.h`; `num_data` is the address of the
caller's `uint32_t` cell. -/
structure I2C_STATE_MACHINE where
  i2c_state : I2C_TypeDef
  counter_var : Nat
  receive_counter : Nat
  curr_state : DEFINED_STATES
  not_available : Bool
  dev_address : Nat
  register_address : Nat
  read_write_op : Nat
  num_data : Nat
  number_bytes : Nat
  callback_i2c : Nat
  deriving DecidableEq, Repr

/-- A command bit written to an I2C `CMD` register. -/
inductive I2C_CMD where
  | START
  | STOP
  | ACK
  | NACK
  | ABORT
  | CLEARTX
  deriving DecidableEq, Repr

/-- One write to a register of an I2C peripheral. -/
inductive HwWrite where
  | CMD (i2c : I2C_TypeDef) (c : I2C_CMD)
  | TXDATA (i2c : I2C_TypeDef) (v : Nat)
  deriving DecidableEq, Repr

/-- The two constants of the vendor header `em_i2c.h` that `i2c_start` uses in
its assertion; the header is not part of the repository, so they are
parameters of the model. -/
structure EmI2cConsts where
  _I2C_STATE_STATE_MASK : Nat
  I2C_STATE_STATE_IDLE : Nat
  deriving DecidableEq, Repr

/-- Modelled from the spec: `I2C_EM_BLOCK` is defined in none of the sources;
it is "the bus's sleep depth", and the comment of `i2c_msstop_sm` names it
("It will unblock the energy mode EM2"). -/
def I2C_EM_BLOCK : Nat := EM2

/-- The file-level state the I2C driver works on: the arbiter's table, the
scheduler's mask, the two descriptors and `left_shift_val` of `i2c.c`, the
`uint32_t` cells that `num_data` may point to, and the register writes made so
far (oldest first). -/
structure System where
  lowest_energy_mode : EnergyTable
  event_scheduled : Nat
  i2c_state_machine_vals_I2C0 : I2C_STATE_MACHINE
  i2c_state_machine_vals_I2C1 : I2C_STATE_MACHINE
  left_shift_val : Nat
  mem : List Nat
  hw : List HwWrite
  deriving DecidableEq, Repr

/-- Which of the two descriptors a pointer selects. -/
inductive Bus where
  | bus0
  | bus1
  deriving DecidableEq, Repr

/-- The `if (i2c == I2C0) ... else if (i2c == I2C1) ... else` of `i2c_start`;
`none` is the branch `EFM_ASSERT(false)`. -/
def select_sm : I2C_TypeDef → Option Bus
  | .I2C0 => some .bus0
  | .I2C1 => some .bus1
  | .other _ => none

/-- Read the descriptor of a bus. -/
def System.sm (s : System) : Bus → I2C_STATE_MACHINE
  | .bus0 => s.i2c_state_machine_vals_I2C0
  | .bus1 => s.i2c_state_machine_vals_I2C1

/-- Overwrite the descriptor of a bus. -/
def System.set_sm (s : System) (b : Bus) (d : I2C_STATE_MACHINE) : System :=
  match b with
  | .bus0 => { s with i2c_state_machine_vals_I2C0 := d }
  | .bus1 => { s with i2c_state_machine_vals_I2C1 := d }

/-- The loop `while(sm->not_available);`.  Its body is empty, so the flag it
tests is the same in every iteration; the result is `true` when the loop is
left within `fuel` further iterations. -/
def wait_while_not_available : (fuel : Nat) → (not_available : Bool) → Bool
  | _, false => true
  | 0, true => false
  | f + 1, true => wait_while_not_available f true

/-- `i2c_start`.  In order: select the descriptor (halt on a foreign pointer),
busy-wait on `not_available`, assert on `curr_state`, block `I2C_EM_BLOCK`,
fill the descriptor, write `I2C_CMD_START` and the address byte. -/
def i2c_start (k : EmI2cConsts) (fuel : Nat) (s : System) (i2c : I2C_TypeDef)
    (device_add register_add read_write callback data number_bytes : Nat) : Outcome System :=
  match select_sm i2c with
  | none => .assert_failed s
  | some b =>
    if wait_while_not_available fuel (s.sm b).not_available = false then .out_of_fuel s
    else if ((s.sm b).curr_state.toNat &&& k._I2C_STATE_STATE_MASK) ≠ k.I2C_STATE_STATE_IDLE then
      .assert_failed s
    else
      match sleep_block_mode s.lowest_energy_mode I2C_EM_BLOCK with
      | .assert_failed t => .assert_failed { s with lowest_energy_mode := t }
      | .out_of_fuel t => .out_of_fuel { s with lowest_energy_mode := t }
      | .ret t =>
        let s1 : System := { s with lowest_energy_mode := t }
        let d : I2C_STATE_MACHINE :=
          { i2c_state := i2c
            not_available := true
            curr_state := .init_process
            dev_address := device_add
            register_address := register_add
            read_write_op := read_write
            num_data := data
            number_bytes := number_bytes
            callback_i2c := callback
            counter_var := 1
            receive_counter := 0 }
        let s2 := s1.set_sm b d
        .ret { s2 with hw := s2.hw ++ [.CMD i2c .START,
                                       .TXDATA i2c (((device_add <<< 1) ||| WRITE_OP) % UINT32_MOD)] }

/-- The values the vendor header gives the two constants on the EFR32 parts
(`0xE0` and `0`); used for concrete evaluations only. -/
def efr32_consts : EmI2cConsts :=
  { _I2C_STATE_STATE_MASK := 224, I2C_STATE_STATE_IDLE := 0 }

/-- An idle descriptor, as in zero-initialised static storage. -/
def idle_sm : I2C_STATE_MACHINE :=
  { i2c_state := .other 0, counter_var := 0, receive_counter := 0, curr_state := .init_process,
    not_available := false, dev_address := 0, register_address := 0, read_write_op := 0,
    num_data := 0, number_bytes := 0, callback_i2c := 0 }

/-- A system with both buses idle and depth EM3 blocked once (as `app.c` does
at start-up). -/
def idle_system : System :=
  { lowest_energy_mode := [0, 0, 0, 1, 0]
    event_scheduled := 0
    i2c_state_machine_vals_I2C0 := idle_sm
    i2c_state_machine_vals_I2C1 := idle_sm
    left_shift_val := 0
    mem := [0, 0]
    hw := [] }

/-- A system in which a one-byte read on `I2C1` is in flight (the state
`i2c_start` leaves behind on `idle_system`): the descriptor of `I2C1` is busy. -/
def busy_system : System :=
  { lowest_energy_mode := [0, 0, 1, 1, 0]
    event_scheduled := 0
    i2c_state_machine_vals_I2C0 := idle_sm
    i2c_state_machine_vals_I2C1 :=
      { i2c_state := .I2C1, counter_var := 1, receive_counter := 0, curr_state := .init_process,
        not_available := true, dev_address := 85, register_address := 17, read_write_op := 1,
        num_data := 0, number_bytes := 1, callback_i2c := 8 }
    left_shift_val := 0
    mem := [0, 0]
    hw := [.CMD .I2C1 .START, .TXDATA .I2C1 170] }

/-- `BIT_SHIFT_EIGHT` of `i2c.h`. -/
def BIT_SHIFT_EIGHT : Nat := 8

/-- The value of `x - 1` in `uint32_t` arithmetic. -/
def dec32 (x : Nat) : Nat := (x + UINT32_MOD - 1) % UINT32_MOD

/-- The value of `x + 1` in `uint32_t` arithmetic. -/
def inc32 (x : Nat) : Nat := (x + 1) % UINT32_MOD

/-- The value of `x << n` in `uint32_t` arithmetic.  C defines it for `n < 32`;
for larger `n` the model keeps the bits of the mathematical shift that fit. -/
def shl32 (x n : Nat) : Nat := (x <<< n) % UINT32_MOD

/-- The cell `*p`. -/
def System.mem_read (s : System) (p : Nat) : Nat := s.mem.getD p 0

/-- The assignment `*p = v`. -/
def System.mem_write (s : System) (p v : Nat) : System := { s with mem := s.mem.set p v }

/-- Append one register write to the trace. -/
def System.hw_write (s : System) (w : HwWrite) : System := { s with hw := s.hw ++ [w] }

/-- The assignment of a new table to `lowest_energy_mode`. -/
def System.set_lowest_energy_mode (s : System) (t : EnergyTable) : System :=
  { s with lowest_energy_mode := t }

/-- The assignment `event_scheduled = m`. -/
def System.set_event_scheduled (s : System) (m : Nat) : System := { s with event_scheduled := m }

/-- The assignment `left_shift_val = v`. -/
def System.set_left_shift_val (s : System) (v : Nat) : System := { s with left_shift_val := v }

/-- `i2c_ack_sm(i2c_sm)`, with `i2c_sm` the descriptor of bus `b`.  The `default`
label of the `switch` cannot be reached: the four enumerators have a `case`. -/
def i2c_ack_sm (s : System) (b : Bus) : Outcome System :=
  let d := s.sm b
  match d.curr_state with
  | .init_process =>
    if d.counter_var = 0 then
      let s1 := s.hw_write (.TXDATA d.i2c_state (shl32 d.dev_address 1 ||| WRITE_OP))
      .ret (s1.set_sm b { d with counter_var := inc32 d.counter_var, curr_state := .init_process })
    else if d.counter_var = 1 then
      let s1 := s.hw_write (.TXDATA d.i2c_state d.register_address)
      let d1 := { d with counter_var := inc32 d.counter_var, curr_state := .init_process }
      if d.read_write_op = 0 then
        let s2 := s1.hw_write
          (.TXDATA d.i2c_state (shl32 (s.mem_read d.num_data) ((s.left_shift_val * 8) % UINT32_MOD)))
        .ret (s2.set_sm b { d1 with curr_state := .write_data,
                                    number_bytes := dec32 d.number_bytes })
      else .ret (s1.set_sm b d1)
    else if d.counter_var = 2 then
      let s1 := s.hw_write (.CMD d.i2c_state .START)
      let s2 := s1.hw_write (.TXDATA d.i2c_state (shl32 d.dev_address 1 ||| READ_OP))
      .ret (s2.set_sm b { d with counter_var := inc32 d.counter_var, curr_state := .init_process })
    else if d.counter_var = 3 then
      .ret (s.set_sm b { d with curr_state := .read_data })
    else .ret s
  | .read_data => .ret s
  | .stop_data => .ret s
  | .write_data =>
    if d.number_bytes > 0 then
      let s1 := s.hw_write
        (.TXDATA d.i2c_state (shl32 (s.mem_read d.num_data) ((s.left_shift_val * 8) % UINT32_MOD)))
      let s2 := s1.set_left_shift_val (inc32 s.left_shift_val)
      .ret (s2.set_sm b { d with number_bytes := dec32 d.number_bytes, curr_state := .write_data })
    else if d.number_bytes = 0 then
      let s1 := s.hw_write (.CMD d.i2c_state .STOP)
      .ret (s1.set_sm b { d with curr_state := .stop_data })
    else .ret s

/-- The new value of `*num_data` in `i2c_receive_sm`: byte slot `n` of `v` is
cleared (`&= ~(0xff << (8*n))`) and then filled from `RXDATA`
(`|= RXDATA << (8*n)`). -/
def store_rx_byte (v n rxdata : Nat) : Nat :=
  (v &&& bit_not32 (shl32 255 ((BIT_SHIFT_EIGHT * n) % UINT32_MOD)))
    ||| shl32 rxdata ((BIT_SHIFT_EIGHT * n) % UINT32_MOD)

/-- `i2c_receive_sm(i2c_sm)`, with `i2c_sm` the descriptor of bus `b` and
`rxdata` the value read from the `RXDATA` register. -/
def i2c_receive_sm (s : System) (b : Bus) (rxdata : Nat) : Outcome System :=
  let d := s.sm b
  match d.curr_state with
  | .read_data =>
    let n := dec32 d.number_bytes
    let s1 := s.mem_write d.num_data (store_rx_byte (s.mem_read d.num_data) n rxdata)
    if n = 0 then
      let s2 := (s1.hw_write (.CMD d.i2c_state .NACK)).hw_write (.CMD d.i2c_state .STOP)
      .ret (s2.set_sm b { d with number_bytes := n, curr_state := .stop_data })
    else
      let s2 := s1.hw_write (.CMD d.i2c_state .ACK)
      .ret (s2.set_sm b { d with number_bytes := n, curr_state := .read_data })
  | .init_process => .assert_failed s
  | .stop_data => .assert_failed s
  | .write_data => .assert_failed s

/-- `i2c_msstop_sm(i2c_sm)`, with `i2c_sm` the descriptor of bus `b`. -/
def i2c_msstop_sm (s : System) (b : Bus) : Outcome System :=
  let d := s.sm b
  match d.curr_state with
  | .stop_data =>
    match sleep_unblock_mode s.lowest_energy_mode I2C_EM_BLOCK with
    | .assert_failed t => .assert_failed (s.set_lowest_energy_mode t)
    | .out_of_fuel t => .out_of_fuel (s.set_lowest_energy_mode t)
    | .ret t =>
      let s1 := s.set_lowest_energy_mode t
      let s2 := s1.set_sm b { d with not_available := false }
      .ret (s2.set_event_scheduled (add_scheduled_event s2.event_scheduled d.callback_i2c))
  | .init_process => .assert_failed s
  | .read_data => .assert_failed s
  | .write_data => .assert_failed s

/-- One interrupt cause of an I2C peripheral, as the IRQ handler dispatches it;
`RXDATAV` carries the byte the `RXDATA` register holds. -/
inductive I2C_Signal where
  | ACK
  | RXDATAV (rxdata : Nat)
  | MSTOP
  deriving DecidableEq, Repr

/-- The state-machine function the IRQ handler of bus `b` calls for a signal. -/
def i2c_signal (s : System) (b : Bus) : I2C_Signal → Outcome System
  | .ACK => i2c_ack_sm s b
  | .RXDATAV rxdata => i2c_receive_sm s b rxdata
  | .MSTOP => i2c_msstop_sm s b

/-- Deliver a sequence of signals to bus `b`, one interrupt each; a failed
assertion halts the run. -/
def run_signals (s : System) (b : Bus) : List I2C_Signal → Outcome System
  | [] => .ret s
  | x :: xs =>
    match i2c_signal s b x with
    | .ret s1 => run_signals s1 b xs
    | other => other

/-- The values written to `TXDATA` registers, oldest first. -/
def tx_writes : List HwWrite → List Nat
  | [] => []
  | .TXDATA _ v :: ws => v :: tx_writes ws
  | .CMD _ _ :: ws => tx_writes ws

/-- The commands written to `CMD` registers, oldest first. -/
def cmd_writes : List HwWrite → List I2C_CMD
  | [] => []
  | .TXDATA _ _ :: ws => cmd_writes ws
  | .CMD _ c :: ws => c :: cmd_writes ws

/-- Byte slot `k` of a 32-bit value (slot 0 is the least significant byte). -/
def byte_slot (x k : Nat) : Nat := (x >>> (8 * k)) % 256

/-- The buffer after the receive-data events of a read of `n` bytes, from the
value `v`, in the order the bytes arrive. -/
def store_rx_bytes (v : Nat) : (n : Nat) → List Nat → Nat
  | _, [] => v
  | n, x :: xs => store_rx_bytes (store_rx_byte v (dec32 n) x) (dec32 n) xs

/-- The big-endian integer formed by a list of bytes. -/
def big_endian (bs : List Nat) : Nat := bs.foldl (fun acc x => acc * 256 + x) 0

/-- The values `i2c_ack_sm` writes to `TXDATA` in the `write_data` phase while
`n` bytes remain, from the buffer value `v` and `left_shift_val = lsv`. -/
def write_data_payload (v : Nat) : (lsv : Nat) → (n : Nat) → List Nat
  | _, 0 => []
  | lsv, n + 1 => shl32 v ((lsv * 8) % UINT32_MOD) :: write_data_payload v (inc32 lsv) n

/-- The descriptor `i2c_start` leaves in place. -/
def started_sm (i2c : I2C_TypeDef)
    (device_add register_add read_write callback data number_bytes : Nat) : I2C_STATE_MACHINE :=
  { i2c_state := i2c, counter_var := 1, receive_counter := 0, curr_state := .init_process,
    not_available := true, dev_address := device_add, register_address := register_add,
    read_write_op := read_write, num_data := data, number_bytes := number_bytes,
    callback_i2c := callback }

/-- The state `i2c_start` leaves behind on an idle bus `b`: the count of
`I2C_EM_BLOCK` one higher, the descriptor filled, `START` and the address byte
written. -/
def started_system (s : System) (i2c : I2C_TypeDef) (b : Bus)
    (device_add register_add read_write callback data number_bytes : Nat) : System :=
  let t := s.lowest_energy_mode.set I2C_EM_BLOCK (count_at s.lowest_energy_mode I2C_EM_BLOCK + 1)
  let s1 : System := { s with lowest_energy_mode := t }
  let s2 := s1.set_sm b
    (started_sm i2c device_add register_add read_write callback data number_bytes)
  (s2.hw_write (.CMD i2c .START)).hw_write
    (.TXDATA i2c (((device_add <<< 1) ||| WRITE_OP) % UINT32_MOD))

/-- The idle system with the value `0x1234` in the cell at address 0. -/
def write_example_system : System := { idle_system with mem := [4660, 0] }

/-- The system after a one-byte read was started on `I2C1` in
`write_example_system` (buffer at address 0, holding `0x1234`). -/
def read_started_system : System :=
  started_system write_example_system .I2C1 .bus1 85 17 READ_OP 8 0 1

/-- The system `read_started_system` after the three handshake acknowledges and
the receive-data event for the byte `0x56`: the descriptor of `I2C1` is in the
phase `stop_data`. -/
def stop_phase_system : System :=
  (run_signals read_started_system .bus1 [.ACK, .ACK, .ACK, .RXDATAV 86]).state

/-- `is_busy()`: the busy flag of the descriptor of `I2C1`. -/
def is_busy (s : System) : Bool := s.i2c_state_machine_vals_I2C1.not_available

/-- The system after `i2c_start` for a write of 0 bytes on `I2C1` in
`write_example_system`. -/
def zero_byte_write_system : System :=
  started_system write_example_system .I2C1 .bus1 85 10 WRITE_OP 8 0 0

/-- The system `write_example_system` after a complete two-byte write on `I2C1`
(start, three acknowledges, master-stop): both buses idle again, the buffer
still `0x1234`. -/
def after_two_byte_write_system : System :=
  (run_signals (started_system write_example_system .I2C1 .bus1 85 10 WRITE_OP 8 0 2) .bus1
    [.ACK, .ACK, .ACK, .MSTOP]).state

/-- What `sleep_routines.c` does to the interrupt state and to the array
`lowest_energy_mode`, in program order: `CORE_ENTER_CRITICAL()`,
`CORE_EXIT_CRITICAL()`, a read or a write of `lowest_energy_mode[i]`, an EMU
call. -/
inductive CoreEvent where
  | ENTER_CRITICAL
  | EXIT_CRITICAL
  | TABLE_READ (i : Nat)
  | TABLE_WRITE (i : Nat)
  | EMU (c : EMU_call)
  deriving DecidableEq, Repr

/-- `enter_sleep` with the events it performs: `CORE_ENTER_CRITICAL()`, the reads
of the if/else chain, the EMU call; every branch ends in `return`, so the
`CORE_EXIT_CRITICAL()` after the chain is not executed. -/
def enter_sleep_traced (t : EnergyTable) : Option EMU_call × List CoreEvent :=
  if count_at t EM0 > 0 then (none, [.ENTER_CRITICAL, .TABLE_READ EM0])
  else if count_at t EM1 > 0 then (none, [.ENTER_CRITICAL, .TABLE_READ EM0, .TABLE_READ EM1])
  else if count_at t EM2 > 0 then
    (some .EMU_EnterEM1,
      [.ENTER_CRITICAL, .TABLE_READ EM0, .TABLE_READ EM1, .TABLE_READ EM2, .EMU .EMU_EnterEM1])
  else if count_at t EM3 > 0 then
    (some (.EMU_EnterEM2 true),
      [.ENTER_CRITICAL, .TABLE_READ EM0, .TABLE_READ EM1, .TABLE_READ EM2, .TABLE_READ EM3,
        .EMU (.EMU_EnterEM2 true)])
  else
    (some (.EMU_EnterEM3 true),
      [.ENTER_CRITICAL, .TABLE_READ EM0, .TABLE_READ EM1, .TABLE_READ EM2, .TABLE_READ EM3,
        .EMU (.EMU_EnterEM3 true)])

/-- The loop of `current_block_energy_mode` with the reads it performs. -/
def current_block_energy_mode_traced_loop (t : EnergyTable) :
    (remaining : Nat) → (i : Nat) → Nat × List CoreEvent
  | 0, _ => (MAX_ENERGY_MODES - 1, [])
  | r + 1, i =>
    if count_at t i ≠ 0 then (i, [.TABLE_READ i])
    else
      ((current_block_energy_mode_traced_loop t r (i + 1)).1,
        .TABLE_READ i :: (current_block_energy_mode_traced_loop t r (i + 1)).2)

/-- `current_block_energy_mode` with the reads it performs; the function has no
`CORE_ENTER_CRITICAL()`. -/
def current_block_energy_mode_traced (t : EnergyTable) : Nat × List CoreEvent :=
  current_block_energy_mode_traced_loop t MAX_ENERGY_MODES 0

/-- `sleep_block_mode(EM)` with the events it performs: the increment between
`CORE_ENTER_CRITICAL()` and `CORE_EXIT_CRITICAL()`, then the read of
`EFM_ASSERT(lowest_energy_mode[EM] < 5)`. -/
def sleep_block_mode_traced (t : EnergyTable) (EM : Nat) :
    Outcome EnergyTable × List CoreEvent :=
  (sleep_block_mode t EM,
    [.ENTER_CRITICAL, .TABLE_READ EM, .TABLE_WRITE EM, .EXIT_CRITICAL, .TABLE_READ EM])

/-- `sleep_unblock_mode(EM)` with the events it performs: the decrement between
`CORE_ENTER_CRITICAL()` and `CORE_EXIT_CRITICAL()`, then the read of
`EFM_ASSERT(lowest_energy_mode[EM] >= 0)`. -/
def sleep_unblock_mode_traced (t : EnergyTable) (EM : Nat) :
    Outcome EnergyTable × List CoreEvent :=
  (sleep_unblock_mode t EM,
    [.ENTER_CRITICAL, .TABLE_READ EM, .TABLE_WRITE EM, .EXIT_CRITICAL, .TABLE_READ EM])

/-- The number of critical sections entered and not exited after the events,
starting from `d`. -/
def critical_depth : Nat → List CoreEvent → Nat
  | d, [] => d
  | d, .ENTER_CRITICAL :: es => critical_depth (d + 1) es
  | d, .EXIT_CRITICAL :: es => critical_depth (d - 1) es
  | d, .TABLE_READ _ :: es => critical_depth d es
  | d, .TABLE_WRITE _ :: es => critical_depth d es
  | d, .EMU _ :: es => critical_depth d es

/-- Every read and write of the table among the events happens with a critical
section entered (`d` sections are entered at the start). -/
def accesses_guarded : Nat → List CoreEvent → Bool
  | _, [] => true
  | d, .ENTER_CRITICAL :: es => accesses_guarded (d + 1) es
  | d, .EXIT_CRITICAL :: es => accesses_guarded (d - 1) es
  | d, .TABLE_READ _ :: es => decide (0 < d) && accesses_guarded d es
  | d, .TABLE_WRITE _ :: es => decide (0 < d) && accesses_guarded d es
  | d, .EMU _ :: es => accesses_guarded d es

/-- An event is a read of the table. -/
def CoreEvent.isRead : CoreEvent → Bool
  | .TABLE_READ _ => true
  | _ => false

/-- The other bus. -/
def Bus.other : Bus → Bus
  | .bus0 => .bus1
  | .bus1 => .bus0

/-! ## LEUART driver (`leuart.h`, `leuart.c`) -/

/-- `LEUART_TX_EM` of `leuart.h`. -/
def LEUART_TX_EM : Nat := 3

/-- `LEUART_RX_EM` of `leuart.h`. -/
def LEUART_RX_EM : Nat := 2

/-- `LEUART_TX_CBB` of `leuart.h`. -/
def LEUART_TX_CBB : Nat := 0x20

/-- `LEUART_RX_CBB` of `leuart.h`. -/
def LEUART_RX_CBB : Nat := 0x40

/-- `NO_DATA` of `leuart.h`. -/
def NO_DATA : Nat := 0

/-- The size of the arrays `data_string` and `data_string_rx`. -/
def LEUART_BUFFER_SIZE : Nat := 50

/-- `DEFINED_STATES_LEUART`: the phases of the transmit state machine. -/
inductive DEFINED_STATES_LEUART where
  | INITIALIZATION_STATE
  | TRANSMISSION_STATE
  | STOP_STATE
  deriving DecidableEq, Repr

/-- `DEFINED_STATES_LEUART_READ`: the phases of the receive state machine. -/
inductive DEFINED_STATES_LEUART_READ where
  | INIT_READ
  | RECEIVE_DATA
  | STOP_READ
  deriving DecidableEq, Repr

/-- A pointer of type `LEUART_TypeDef *`: the peripheral `LEUART0` or another
address. -/
inductive LEUART_TypeDef where
  | LEUART0
  | other (base : Nat)
  deriving DecidableEq, Repr

/-- `LEUART0_STATE_MACHINE`; `data_string` is the array `char data_string[50]`,
a `char` being a byte `0..255`. -/
structure LEUART0_STATE_MACHINE where
  leuart_state : LEUART_TypeDef
  not_available : Bool
  cb_tx : Nat
  count_char : Nat
  data_string_length : Nat
  data_string : List Nat
  current_state : DEFINED_STATES_LEUART
  deriving DecidableEq, Repr

/-- `LEUART0_STATE_MACHINE_READ`; `data_string_rx` is the array
`char data_string_rx[50]`. -/
structure LEUART0_STATE_MACHINE_READ where
  leuart_state_read : LEUART_TypeDef
  not_available_read : Bool
  cb_rx : Nat
  data_string_rx : List Nat
  read_counter : Nat
  current_state_read : DEFINED_STATES_LEUART_READ
  deriving DecidableEq, Repr

/-- The interrupts of the register `IEN` the driver enables and disables. -/
inductive LEUART_IEN_bit where
  | TXBL
  | TXC
  | STARTF
  | SIGF
  | RXDATAV
  deriving DecidableEq, Repr

/-- The register `IEN` of `LEUART0`, one Boolean for each interrupt the driver
touches (the masks `LEUART_IEN_*` of the vendor header are distinct bits). -/
structure LEUART_IEN where
  TXBL : Bool
  TXC : Bool
  STARTF : Bool
  SIGF : Bool
  RXDATAV : Bool
  deriving DecidableEq, Repr

/-- The value of one bit of `IEN`. -/
def LEUART_IEN.get (r : LEUART_IEN) : LEUART_IEN_bit → Bool
  | .TXBL => r.TXBL
  | .TXC => r.TXC
  | .STARTF => r.STARTF
  | .SIGF => r.SIGF
  | .RXDATAV => r.RXDATAV

/-- The register `IEN` with one bit given the value `v`: `IEN |= bit` for
`v = true`, `IEN &= ~bit` (also `LEUART_IntDisable`) for `v = false`. -/
def LEUART_IEN.update (r : LEUART_IEN) (bit : LEUART_IEN_bit) (v : Bool) : LEUART_IEN :=
  match bit with
  | .TXBL => { r with TXBL := v }
  | .TXC => { r with TXC := v }
  | .STARTF => { r with STARTF := v }
  | .SIGF => { r with SIGF := v }
  | .RXDATAV => { r with RXDATAV := v }

/-- A command bit written to the register `CMD` of a LEUART. -/
inductive LEUART_CMD where
  | RXBLOCKEN
  | RXBLOCKDIS
  deriving DecidableEq, Repr

/-- One write to the register `TXDATA` or `CMD` of a LEUART. -/
inductive LeuartWrite where
  | TXDATA (leuart : LEUART_TypeDef) (v : Nat)
  | CMD (leuart : LEUART_TypeDef) (c : LEUART_CMD)
  deriving DecidableEq, Repr

/-- The state the LEUART driver works on: the table of the arbiter, the mask of
the scheduler, the two private descriptors of `leuart.c`, the register `IEN` of
`LEUART0` and the trace of the writes to `TXDATA` and `CMD`. -/
structure LeuartSystem where
  lowest_energy_mode : EnergyTable
  event_scheduled : Nat
  leuart0_state_machine_vals : LEUART0_STATE_MACHINE
  leuart0_read_vals : LEUART0_STATE_MACHINE_READ
  ien : LEUART_IEN
  hw : List LeuartWrite
  deriving DecidableEq, Repr

/-- The assignment of a new value to `leuart0_state_machine_vals`. -/
def LeuartSystem.set_tx (s : LeuartSystem) (d : LEUART0_STATE_MACHINE) : LeuartSystem :=
  { s with leuart0_state_machine_vals := d }

/-- The assignment of a new value to `leuart0_read_vals`. -/
def LeuartSystem.set_rx (s : LeuartSystem) (d : LEUART0_STATE_MACHINE_READ) : LeuartSystem :=
  { s with leuart0_read_vals := d }

/-- A write of one bit of `leuart->IEN`.  Only the register of `LEUART0` is part
of the state; a write through another pointer leaves the state as it is. -/
def LeuartSystem.ien_write (s : LeuartSystem) (leuart : LEUART_TypeDef)
    (bit : LEUART_IEN_bit) (v : Bool) : LeuartSystem :=
  match leuart with
  | .LEUART0 => { s with ien := s.ien.update bit v }
  | .other _ => s

/-- A write to `TXDATA` or `CMD`, appended to the trace. -/
def LeuartSystem.hw_write (s : LeuartSystem) (w : LeuartWrite) : LeuartSystem :=
  { s with hw := s.hw ++ [w] }

/-- The assignment of a new table to `lowest_energy_mode`. -/
def LeuartSystem.set_lowest_energy_mode (s : LeuartSystem) (t : EnergyTable) : LeuartSystem :=
  { s with lowest_energy_mode := t }

/-- The assignment `event_scheduled = m`. -/
def LeuartSystem.set_event_scheduled (s : LeuartSystem) (m : Nat) : LeuartSystem :=
  { s with event_scheduled := m }

/-- The characters of the C string stored in `bytes`: the bytes before the
first 0 (before the end of the list when it holds no 0). -/
def c_string (bytes : List Nat) : List Nat := bytes.takeWhile (fun c => c != 0)

/-- `strlen`. -/
def strlen (bytes : List Nat) : Nat := (c_string bytes).length

/-- The bytes `cs` stored in consecutive cells of `dst` from index `i`; a cell
past the end of `dst` is outside the array and is not part of the state. -/
def store_chars : (dst : List Nat) → (i : Nat) → (cs : List Nat) → List Nat
  | dst, _, [] => dst
  | dst, i, c :: cs => store_chars (dst.set i c) (i + 1) cs

/-- `strcpy(dst, src)`: the characters of `src` and the terminating 0 are
stored from index 0 of `dst`. -/
def strcpy (dst src : List Nat) : List Nat := store_chars dst 0 (c_string src ++ [0])

/-- `leuart_start(leuart, string, string_len)`.  In order: select the
descriptor (halt on a pointer other than `LEUART0`), busy-wait on
`not_available`, block `LEUART_TX_EM`, fill the descriptor (`strcpy` into
`data_string`), clear the bit TXC and set the bit TXBL of `IEN`. -/
def leuart_start (fuel : Nat) (s : LeuartSystem) (leuart : LEUART_TypeDef)
    (string : List Nat) (string_len : Nat) : Outcome LeuartSystem :=
  match leuart with
  | .other _ => .assert_failed s
  | .LEUART0 =>
    if wait_while_not_available fuel s.leuart0_state_machine_vals.not_available = false then
      .out_of_fuel s
    else
      match sleep_block_mode s.lowest_energy_mode LEUART_TX_EM with
      | .assert_failed t => .assert_failed (s.set_lowest_energy_mode t)
      | .out_of_fuel t => .out_of_fuel (s.set_lowest_energy_mode t)
      | .ret t =>
        let s1 := s.set_lowest_energy_mode t
        let d : LEUART0_STATE_MACHINE :=
          { s1.leuart0_state_machine_vals with
            not_available := true
            leuart_state := leuart
            data_string_length := string_len
            count_char := NO_DATA
            data_string := strcpy s1.leuart0_state_machine_vals.data_string string
            cb_tx := LEUART_TX_CBB
            current_state := .TRANSMISSION_STATE }
        let s2 := s1.set_tx d
        .ret ((s2.ien_write d.leuart_state .TXC false).ien_write d.leuart_state .TXBL true)

/-- `leuart_txbel(sm)`, with `sm` the descriptor `leuart0_state_machine_vals`.
A read of `data_string` at an index past the array gives 0 here. -/
def leuart_txbel (s : LeuartSystem) : Outcome LeuartSystem :=
  let sm := s.leuart0_state_machine_vals
  match sm.current_state with
  | .TRANSMISSION_STATE =>
    if sm.data_string_length > 0 then
      let s1 := s.hw_write (.TXDATA sm.leuart_state (sm.data_string.getD sm.count_char 0))
      .ret (s1.set_tx
        { sm with
          count_char := inc32 sm.count_char
          data_string_length := dec32 sm.data_string_length
          current_state := .TRANSMISSION_STATE })
    else if sm.data_string_length = NO_DATA then
      let s1 := s.ien_write sm.leuart_state .TXBL false
      let s2 := s1.ien_write sm.leuart_state .TXC true
      let s3 := s2.set_tx { sm with current_state := .STOP_STATE }
      let s4 := s3.ien_write sm.leuart_state .TXC true
      .ret (s4.ien_write sm.leuart_state .TXBL false)
    else .ret s
  | .STOP_STATE => .ret s
  | .INITIALIZATION_STATE => .assert_failed s

/-- `leuart_txc(sm)`, with `sm` the descriptor `leuart0_state_machine_vals`. -/
def leuart_txc (s : LeuartSystem) : Outcome LeuartSystem :=
  let sm := s.leuart0_state_machine_vals
  match sm.current_state with
  | .TRANSMISSION_STATE => .ret s
  | .STOP_STATE =>
    match sleep_unblock_mode s.lowest_energy_mode LEUART_TX_EM with
    | .assert_failed t => .assert_failed (s.set_lowest_energy_mode t)
    | .out_of_fuel t => .out_of_fuel (s.set_lowest_energy_mode t)
    | .ret t =>
      let s1 := s.set_lowest_energy_mode t
      let s2 := s1.set_tx { sm with not_available := false }
      let s3 := s2.set_event_scheduled (add_scheduled_event s2.event_scheduled LEUART_TX_CBB)
      .ret (s3.ien_write sm.leuart_state .TXC false)
  | .INITIALIZATION_STATE => .assert_failed s

/-- `leuart_startframe(sm_read)`, with `sm_read` the descriptor
`leuart0_read_vals`. -/
def leuart_startframe (s : LeuartSystem) : Outcome LeuartSystem :=
  let sm := s.leuart0_read_vals
  match sm.current_state_read with
  | .INIT_READ =>
    let s1 := s.set_rx { sm with current_state_read := .RECEIVE_DATA }
    let s2 := s1.ien_write sm.leuart_state_read .SIGF true
    let s3 := s2.hw_write (.CMD sm.leuart_state_read .RXBLOCKDIS)
    let s4 := s3.ien_write sm.leuart_state_read .RXDATAV true
    .ret (s4.set_rx { s4.leuart0_read_vals with read_counter := 0 })
  | .RECEIVE_DATA => .assert_failed s
  | .STOP_READ => .assert_failed s

/-- `leuart_rxdatav(sm_read)`; `rxdata` is the value read from the register
`RXDATA`, stored as a `char`. -/
def leuart_rxdatav (s : LeuartSystem) (rxdata : Nat) : Outcome LeuartSystem :=
  let sm := s.leuart0_read_vals
  match sm.current_state_read with
  | .RECEIVE_DATA =>
    .ret (s.set_rx
      { sm with
        data_string_rx := sm.data_string_rx.set sm.read_counter (rxdata % 256)
        read_counter := inc32 sm.read_counter })
  | .INIT_READ => .assert_failed s
  | .STOP_READ => .assert_failed s

/-- The loop `while(leuart->SYNCBUSY);` when the register reads non-zero
`syncbusy` times: true when the loop is left within `fuel` iterations. -/
def wait_syncbusy : (fuel : Nat) → (syncbusy : Nat) → Bool
  | _, 0 => true
  | 0, _ + 1 => false
  | f + 1, n + 1 => wait_syncbusy f n

/-- `leuart_sigframe(sm_read)`; `syncbusy` is the number of times the register
`SYNCBUSY` reads non-zero after the write to `CMD`. -/
def leuart_sigframe (fuel : Nat) (s : LeuartSystem) (syncbusy : Nat) : Outcome LeuartSystem :=
  let sm := s.leuart0_read_vals
  match sm.current_state_read with
  | .RECEIVE_DATA =>
    let s1 := s.hw_write (.CMD sm.leuart_state_read .RXBLOCKEN)
    if wait_syncbusy fuel syncbusy = false then .out_of_fuel s1
    else
      let s2 := s1.set_rx
        { sm with
          data_string_rx := sm.data_string_rx.set sm.read_counter 0
          read_counter := inc32 sm.read_counter
          current_state_read := .INIT_READ }
      .ret (s2.set_event_scheduled (add_scheduled_event s2.event_scheduled 0x40))
  | .INIT_READ => .assert_failed s
  | .STOP_READ => .assert_failed s

/-- `leuart_tx_busy()`. -/
def leuart_tx_busy (s : LeuartSystem) : Bool := s.leuart0_state_machine_vals.not_available

/-- An interrupt of `LEUART0` as `LEUART0_IRQHandler` dispatches it; a
data-valid interrupt carries the value of `RXDATA`, an end-of-frame interrupt
the number of busy reads of `SYNCBUSY`. -/
inductive LEUART_Signal where
  | TXBL
  | TXC
  | STARTF
  | RXDATAV (rxdata : Nat)
  | SIGF (syncbusy : Nat)
  deriving DecidableEq, Repr

/-- The function `LEUART0_IRQHandler` calls for an interrupt. -/
def leuart_signal (fuel : Nat) (s : LeuartSystem) : LEUART_Signal → Outcome LeuartSystem
  | .TXBL => leuart_txbel s
  | .TXC => leuart_txc s
  | .STARTF => leuart_startframe s
  | .RXDATAV rxdata => leuart_rxdatav s rxdata
  | .SIGF syncbusy => leuart_sigframe fuel s syncbusy

/-- A sequence of interrupts, one after the other; the run stops at the first
call that does not return. -/
def run_leuart (fuel : Nat) : LeuartSystem → List LEUART_Signal → Outcome LeuartSystem
  | s, [] => .ret s
  | s, x :: xs =>
    match leuart_signal fuel s x with
    | .ret s1 => run_leuart fuel s1 xs
    | .assert_failed s1 => .assert_failed s1
    | .out_of_fuel s1 => .out_of_fuel s1

/-- The system `leuart_start(LEUART0, string, string_len)` returns to from `s`
when it passes its busy-wait loop and the assertion of `sleep_block_mode`. -/
def leuart_started_system (s : LeuartSystem) (string : List Nat) (string_len : Nat) :
    LeuartSystem :=
  { s with
    lowest_energy_mode :=
      s.lowest_energy_mode.set LEUART_TX_EM (count_at s.lowest_energy_mode LEUART_TX_EM + 1)
    leuart0_state_machine_vals :=
      { leuart_state := .LEUART0
        not_available := true
        cb_tx := LEUART_TX_CBB
        count_char := 0
        data_string_length := string_len
        data_string := strcpy s.leuart0_state_machine_vals.data_string string
        current_state := .TRANSMISSION_STATE }
    ien := (s.ien.update .TXC false).update .TXBL true }

/-- The system after `k` characters of `data_string` were sent from `s`: the
writes to `TXDATA` appended to the trace, the index advanced and the remaining
length reduced by `k`. -/
def tx_sent_system (s : LeuartSystem) (k : Nat) : LeuartSystem :=
  { s with
    hw := s.hw ++ (List.range k).map (fun i =>
      LeuartWrite.TXDATA s.leuart0_state_machine_vals.leuart_state
        (s.leuart0_state_machine_vals.data_string.getD
          (s.leuart0_state_machine_vals.count_char + i) 0))
    leuart0_state_machine_vals :=
      { s.leuart0_state_machine_vals with
        count_char := s.leuart0_state_machine_vals.count_char + k
        data_string_length := s.leuart0_state_machine_vals.data_string_length - k } }

/-- The system after the buffer-level interrupt that finds no character left:
TXBL disabled, TXC enabled, phase `STOP_STATE`. -/
def tx_stopping_system (s : LeuartSystem) : LeuartSystem :=
  ((s.ien_write s.leuart0_state_machine_vals.leuart_state .TXBL false).ien_write
      s.leuart0_state_machine_vals.leuart_state .TXC true).set_tx
    { s.leuart0_state_machine_vals with current_state := .STOP_STATE }

/-- The system after the transmit-complete interrupt taken in `STOP_STATE` with
the count of `LEUART_TX_EM` positive. -/
def tx_done_system (s : LeuartSystem) : LeuartSystem :=
  { s with
    lowest_energy_mode :=
      s.lowest_energy_mode.set LEUART_TX_EM (count_at s.lowest_energy_mode LEUART_TX_EM - 1)
    leuart0_state_machine_vals := { s.leuart0_state_machine_vals with not_available := false }
    event_scheduled := add_scheduled_event s.event_scheduled LEUART_TX_CBB
    ien := (s.ien_write s.leuart0_state_machine_vals.leuart_state .TXC false).ien }

/-- The system after the bytes `bs` were received from `s` in the phase
`RECEIVE_DATA`. -/
def rx_received_system (s : LeuartSystem) (bs : List Nat) : LeuartSystem :=
  s.set_rx
    { s.leuart0_read_vals with
      data_string_rx := store_chars s.leuart0_read_vals.data_string_rx
        s.leuart0_read_vals.read_counter (bs.map (fun b => b % 256))
      read_counter := s.leuart0_read_vals.read_counter + bs.length }

/-- The system after the start-of-frame interrupt taken in `INIT_READ`. -/
def rx_opened_system (s : LeuartSystem) : LeuartSystem :=
  let p := s.leuart0_read_vals.leuart_state_read
  let s1 := s.set_rx { s.leuart0_read_vals with current_state_read := .RECEIVE_DATA }
  let s4 := (((s1.ien_write p .SIGF true).hw_write (.CMD p .RXBLOCKDIS)).ien_write p
    .RXDATAV true)
  s4.set_rx { s4.leuart0_read_vals with read_counter := 0 }

/-- The system after the end-of-frame interrupt taken in `RECEIVE_DATA`, the
synchronisation wait passed and the counter below its maximum. -/
def rx_closed_system (s : LeuartSystem) : LeuartSystem :=
  { s with
    hw := s.hw ++ [.CMD s.leuart0_read_vals.leuart_state_read .RXBLOCKEN]
    leuart0_read_vals :=
      { s.leuart0_read_vals with
        data_string_rx := s.leuart0_read_vals.data_string_rx.set
          s.leuart0_read_vals.read_counter 0
        read_counter := s.leuart0_read_vals.read_counter + 1
        current_state_read := .INIT_READ }
    event_scheduled := add_scheduled_event s.event_scheduled 0x40 }

/-- `return_read_val(ret_read)`: `strcpy` from `data_string_rx` into the array
`ret_read` points to; the result is that array after the call. -/
def return_read_val (s : LeuartSystem) (ret_read : List Nat) : List Nat :=
  strcpy ret_read s.leuart0_read_vals.data_string_rx

/-- The interrupts of one received frame: start-of-frame, one data-valid
interrupt for each byte, end-of-frame. -/
def frame_signals (bs : List Nat) (syncbusy : Nat) : List LEUART_Signal :=
  [.STARTF] ++ bs.map .RXDATAV ++ [.SIGF syncbusy]

/-- The index at which `leuart_txbel` reads `data_string` when called in state
`s`: `count_char`, in the phase `TRANSMISSION_STATE` with characters left;
`none` when the call reads no character. -/
def txbel_read_index (s : LeuartSystem) : Option Nat :=
  match s.leuart0_state_machine_vals.current_state with
  | .TRANSMISSION_STATE =>
    if s.leuart0_state_machine_vals.data_string_length > 0 then
      some s.leuart0_state_machine_vals.count_char
    else none
  | .STOP_STATE => none
  | .INITIALIZATION_STATE => none

/-- The index at which the function called for an interrupt writes
`data_string_rx`: `read_counter`, for a data-valid interrupt and for an
end-of-frame interrupt (once its wait has ended) in the phase `RECEIVE_DATA`;
`none` when the call writes no cell. -/
def rx_write_index (fuel : Nat) (s : LeuartSystem) : LEUART_Signal → Option Nat
  | .RXDATAV _ =>
    match s.leuart0_read_vals.current_state_read with
    | .RECEIVE_DATA => some s.leuart0_read_vals.read_counter
    | .INIT_READ => none
    | .STOP_READ => none
  | .SIGF syncbusy =>
    match s.leuart0_read_vals.current_state_read with
    | .RECEIVE_DATA =>
      if wait_syncbusy fuel syncbusy = false then none
      else some s.leuart0_read_vals.read_counter
    | .INIT_READ => none
    | .STOP_READ => none
  | .TXBL => none
  | .TXC => none
  | .STARTF => none

/-- The indices at which a sequence of interrupts writes `data_string_rx`, in
order. -/
def rx_write_indices (fuel : Nat) : LeuartSystem → List LEUART_Signal → List Nat
  | _, [] => []
  | s, x :: xs =>
    (rx_write_index fuel s x).toList ++
      match leuart_signal fuel s x with
      | .ret s1 => rx_write_indices fuel s1 xs
      | .assert_failed _ => []
      | .out_of_fuel _ => []

/-- The conversion of an `int` value to `uint32_t`. -/
def to_uint32 (x : Int) : Nat := (x % 4294967296).toNat

/-- The expression
`((s_string[3] - 0x30)*100)+((s_string[4] - 0x30)*10)+(s_string[5] - 0x30)` of
`scheduled_rx_cb`, computed in `int`. -/
def rx_digits_value (s_string : List Nat) : Int :=
  ((s_string.getD 3 0 : Int) - 0x30) * 100 + ((s_string.getD 4 0 : Int) - 0x30) * 10
    + ((s_string.getD 5 0 : Int) - 0x30)

/-- `scheduled_rx_cb`: the value it passes to `compare_set` as the `int`
parameter `increment_decrement`.  `s_string` is the content of the local array
`char s_string[50]` before `return_read_val` fills it; `85`, `43` and `45` are
the characters `U`, `+` and `-`; `change_speed` is a `uint32_t`. -/
def scheduled_rx_cb (s : LeuartSystem) (s_string : List Nat) : Int :=
  let str := return_read_val s s_string
  let change_speed : Nat :=
    if str.getD 1 0 = 85 then
      if str.getD 2 0 = 43 then to_uint32 (rx_digits_value str)
      else if str.getD 2 0 = 45 then
        (to_uint32 (rx_digits_value str) * to_uint32 (-1)) % UINT32_MOD
      else 0
    else 0
  wrap_int32 change_speed

/-- The transmit descriptor before the first `leuart_start`: the
zero-initialised static of `leuart.c` (null peripheral pointer, phase
`INITIALIZATION_STATE`). -/
def idle_tx_sm : LEUART0_STATE_MACHINE :=
  { leuart_state := .other 0
    not_available := false
    cb_tx := 0
    count_char := 0
    data_string_length := 0
    data_string := List.replicate 50 0
    current_state := .INITIALIZATION_STATE }

/-- The receive descriptor as `leuart_open` leaves it: peripheral `LEUART0`,
phase `INIT_READ`, counter 0. -/
def idle_rx_sm : LEUART0_STATE_MACHINE_READ :=
  { leuart_state_read := .LEUART0
    not_available_read := false
    cb_rx := 0
    data_string_rx := List.replicate 50 0
    read_counter := 0
    current_state_read := .INIT_READ }

/-- The system after `sleep_open`, `scheduler_open` and `leuart_open`: no depth
blocked, no event pending, the start-of-frame interrupt enabled. -/
def idle_leuart_system : LeuartSystem :=
  { lowest_energy_mode := [0, 0, 0, 0, 0]
    event_scheduled := 0
    leuart0_state_machine_vals := idle_tx_sm
    leuart0_read_vals := idle_rx_sm
    ien := { TXBL := false, TXC := false, STARTF := true, SIGF := false, RXDATAV := false }
    hw := [] }

/-- The system `idle_leuart_system` after `leuart_start(LEUART0, "Hi", 2)`, as
`leuart_start` returns it. -/
def tx_started_system : LeuartSystem :=
  (leuart_start 0 idle_leuart_system .LEUART0 [72, 105, 0] 2).state

/-- The system `tx_started_system` after three buffer-level interrupts: the two
characters are out and the phase is `STOP_STATE`. -/
def tx_stop_system : LeuartSystem :=
  (run_leuart 0 tx_started_system [.TXBL, .TXBL, .TXBL]).state

/-! ## Lemmas on the table -/

theorem count_at_set_same (t : EnergyTable) (i : Nat) (v : Int) (h : i < t.length) :
    count_at (t.set i v) i = v := by
  simp [count_at, List.getD_eq_getElem?_getD, List.getElem?_set, h]

theorem count_at_set_other (t : EnergyTable) (i j : Nat) (v : Int) (h : j ≠ i) :
    count_at (t.set i v) j = count_at t j := by
  have h1 : i ≠ j := fun e => h e.symm
  simp [count_at, List.getD_eq_getElem?_getD, List.getElem?_set, h1]

theorem wrap_int32_of_range (x : Int) (h1 : INT_MIN ≤ x) (h2 : x ≤ INT_MAX) :
    wrap_int32 x = x := by
  unfold INT_MIN at h1
  unfold INT_MAX at h2
  unfold wrap_int32
  omega

theorem sleep_open_eq (t0 : EnergyTable) (h : t0.wf) : sleep_open t0 = [0, 0, 0, 0, 0] := by
  unfold EnergyTable.wf MAX_ENERGY_MODES at h
  match t0, h with
  | [_, _, _, _, _], _ => rfl

theorem sleep_block_mode_eq (t : EnergyTable) (d : Nat)
    (hmin : INT_MIN ≤ count_at t d) (hmax : count_at t d < INT_MAX) :
    sleep_block_mode t d =
      if count_at (t.set d (count_at t d + 1)) d < 5 then .ret (t.set d (count_at t d + 1))
      else .assert_failed (t.set d (count_at t d + 1)) := by
  have hw : wrap_int32 (count_at t d + 1) = count_at t d + 1 :=
    wrap_int32_of_range _ (by omega) (by omega)
  simp only [sleep_block_mode, hw]

theorem sleep_unblock_mode_eq (t : EnergyTable) (d : Nat)
    (hmin : INT_MIN < count_at t d) (hmax : count_at t d ≤ INT_MAX) :
    sleep_unblock_mode t d =
      if count_at (t.set d (count_at t d - 1)) d ≥ 0 then .ret (t.set d (count_at t d - 1))
      else .assert_failed (t.set d (count_at t d - 1)) := by
  have hw : wrap_int32 (count_at t d - 1) = count_at t d - 1 :=
    wrap_int32_of_range _ (by omega) (by omega)
  simp only [sleep_unblock_mode, hw]

theorem counts_bounded_range (t : EnergyTable) (h : counts_bounded t) (d : Nat) :
    INT_MIN < count_at t d ∧ count_at t d < INT_MAX := by
  have := h d
  unfold INT_MIN INT_MAX
  omega

theorem apply_ret_step (t t1 : EnergyTable) (c : SleepCall) (hb : counts_bounded t)
    (hd : c.depth < t.length) (h : c.apply t = .ret t1) :
    t1.length = t.length ∧ counts_bounded t1 ∧
      ∀ d, count_at t1 d = count_at t d
        + (if c = .block d then 1 else 0) - (if c = .unblock d then 1 else 0) := by
  have hr := counts_bounded_range t hb c.depth
  cases c with
  | block e =>
    simp only [SleepCall.depth] at hd hr
    simp only [SleepCall.apply] at h
    rw [sleep_block_mode_eq t e (le_of_lt hr.1) hr.2] at h
    rw [count_at_set_same t e _ hd] at h
    split at h
    · rename_i hlt
      cases h
      refine ⟨by simp, ?_, ?_⟩
      · intro i
        by_cases hi : i = e
        · subst hi
          rw [count_at_set_same t i _ hd]
          have := hb i
          omega
        · rw [count_at_set_other t e i _ hi]
          exact hb i
      · intro d
        by_cases hi : d = e
        · subst hi
          rw [count_at_set_same t d _ hd]
          simp
        · rw [count_at_set_other t e d _ hi]
          have hne : e ≠ d := fun x => hi x.symm
          simp [hne]
    · cases h
  | unblock e =>
    simp only [SleepCall.depth] at hd hr
    simp only [SleepCall.apply] at h
    rw [sleep_unblock_mode_eq t e hr.1 (le_of_lt hr.2)] at h
    rw [count_at_set_same t e _ hd] at h
    split at h
    · rename_i hge
      cases h
      refine ⟨by simp, ?_, ?_⟩
      · intro i
        by_cases hi : i = e
        · subst hi
          rw [count_at_set_same t i _ hd]
          have := hb i
          omega
        · rw [count_at_set_other t e i _ hi]
          exact hb i
      · intro d
        by_cases hi : d = e
        · subst hi
          rw [count_at_set_same t d _ hd]
          simp
        · rw [count_at_set_other t e d _ hi]
          have hne : e ≠ d := fun x => hi x.symm
          simp [hne]
    · cases h

theorem run_sleep_calls_count (calls : List SleepCall) :
    ∀ (t t1 : EnergyTable), counts_bounded t →
      (∀ c ∈ calls, c.depth < t.length) → run_sleep_calls t calls = .ret t1 →
      counts_bounded t1 ∧ ∀ d, count_at t1 d = count_at t d
        + (calls.count (.block d) : Int) - (calls.count (.unblock d) : Int) := by
  induction calls with
  | nil =>
    intro t t1 hb _ h
    simp only [run_sleep_calls] at h
    cases h
    exact ⟨hb, by intro d; simp⟩
  | cons c cs ih =>
    intro t t1 hb hv h
    simp only [run_sleep_calls] at h
    cases hc : c.apply t with
    | ret t2 =>
      rw [hc] at h
      have hstep := apply_ret_step t t2 c hb (hv c (List.mem_cons_self _ _)) hc
      have hv2 : ∀ x ∈ cs, x.depth < t2.length := by
        intro x hx
        rw [hstep.1]
        exact hv x (List.mem_cons_of_mem _ hx)
      have hrest := ih t2 t1 hstep.2.1 hv2 h
      refine ⟨hrest.1, ?_⟩
      intro d
      rw [hrest.2 d, hstep.2.2 d, List.count_cons, List.count_cons]
      by_cases h1 : c = .block d <;> by_cases h2 : c = .unblock d <;>
        simp [h1, h2, beq_iff_eq] <;> omega
    | assert_failed t2 =>
      rw [hc] at h
      cases h
    | out_of_fuel t2 =>
      rw [hc] at h
      cases h

theorem current_block_energy_mode_loop_zero (t : EnergyTable) (r : Nat) :
    ∀ i, (∀ j, i ≤ j → j < i + r → count_at t j = 0) →
      current_block_energy_mode_loop t r i = MAX_ENERGY_MODES - 1 := by
  induction r with
  | zero => intro i _; rfl
  | succ r ih =>
    intro i h
    have hi : count_at t i = 0 := h i (le_refl i) (by omega)
    simp only [current_block_energy_mode_loop, hi, ne_eq, not_true_eq_false, if_false]
    exact ih (i + 1) (fun j h1 h2 => h j (by omega) (by omega))

theorem current_block_energy_mode_loop_first (t : EnergyTable) (r : Nat) :
    ∀ i k, i ≤ k → k < i + r → count_at t k ≠ 0 →
      (∀ j, i ≤ j → j < k → count_at t j = 0) →
      current_block_energy_mode_loop t r i = k := by
  induction r with
  | zero => intro i k h1 h2; omega
  | succ r ih =>
    intro i k h1 h2 hk hz
    by_cases hik : i = k
    · subst hik
      simp only [current_block_energy_mode_loop, ne_eq, hk, not_false_eq_true, if_true]
    · have hi : count_at t i = 0 := hz i (le_refl i) (by omega)
      simp only [current_block_energy_mode_loop, hi, ne_eq, not_true_eq_false, if_false]
      exact ih (i + 1) k (by omega) (by omega) hk (fun j h3 h4 => hz j (by omega) h4)

/-! ## The energy-mode arbiter -/

/-- C1: starting from `sleep_open`, after any sequence of `sleep_block_mode` /
`sleep_unblock_mode` calls on valid depths in which no assertion fails, the
count stored at each depth `d` is the number of `block(d)` calls minus the
number of `unblock(d)` calls, and it is not negative. -/
theorem block_count_eq_blocks_minus_unblocks (t0 : EnergyTable) (calls : List SleepCall)
    (d : Nat) (t : EnergyTable) (h0 : t0.wf)
    (hv : ∀ c ∈ calls, c.depth < MAX_ENERGY_MODES)
    (hrun : run_sleep_calls (sleep_open t0) calls = .ret t) :
    count_at t d = (calls.count (.block d) : Int) - (calls.count (.unblock d) : Int)
      ∧ 0 ≤ count_at t d := by
  rw [sleep_open_eq t0 h0] at hrun
  have hb : counts_bounded [0, 0, 0, 0, 0] := by
    intro i
    match i with
    | 0 | 1 | 2 | 3 | 4 => decide
    | _ + 5 => simp [count_at]
  have hv1 : ∀ c ∈ calls, c.depth < ([0, 0, 0, 0, 0] : EnergyTable).length := hv
  have h := run_sleep_calls_count calls _ t hb hv1 hrun
  have hz : count_at [0, 0, 0, 0, 0] d = 0 := by
    match d with
    | 0 | 1 | 2 | 3 | 4 => rfl
    | _ + 5 => simp [count_at]
  have hd := h.2 d
  rw [hz] at hd
  refine ⟨by omega, (h.1 d).1⟩

/-- Witness for C1: two blocks and one unblock of depth 2 and one block of depth
3, on a table that held arbitrary values before `sleep_open`. -/
theorem block_count_eq_blocks_minus_unblocks_witness :
    count_at [0, 0, 1, 1, 0] 2
        = (([SleepCall.block 2, .block 2, .unblock 2, .block 3].count (.block 2) : Nat) : Int)
          - (([SleepCall.block 2, .block 2, .unblock 2, .block 3].count (.unblock 2) : Nat) : Int)
      ∧ 0 ≤ count_at [0, 0, 1, 1, 0] 2 :=
  block_count_eq_blocks_minus_unblocks [7, -3, 2, 9, 1]
    [.block 2, .block 2, .unblock 2, .block 3] 2 [0, 0, 1, 1, 0]
    (by decide) (by decide) (by decide)

/-- C2: `current_block_energy_mode` returns the smallest depth index whose
count is nonzero, and `MAX_ENERGY_MODES - 1` when every count is zero. -/
theorem current_block_energy_mode_spec (t : EnergyTable) :
    (∀ k, k < MAX_ENERGY_MODES → count_at t k ≠ 0 → (∀ j, j < k → count_at t j = 0) →
        current_block_energy_mode t = k)
      ∧ ((∀ j, j < MAX_ENERGY_MODES → count_at t j = 0) →
        current_block_energy_mode t = MAX_ENERGY_MODES - 1) := by
  constructor
  · intro k hk hne hz
    exact current_block_energy_mode_loop_first t MAX_ENERGY_MODES 0 k (Nat.zero_le k)
      (by omega) hne (fun j _ h => hz j h)
  · intro hz
    exact current_block_energy_mode_loop_zero t MAX_ENERGY_MODES 0
      (fun j _ h => hz j (by omega))

/-- Witness for C2: in the table `[0, 0, 3, 0, 1]` the first nonzero count is at
depth 2, and the all-zero table gives depth 4. -/
theorem current_block_energy_mode_spec_witness :
    current_block_energy_mode [0, 0, 3, 0, 1] = 2
      ∧ current_block_energy_mode [0, 0, 0, 0, 0] = MAX_ENERGY_MODES - 1 :=
  ⟨(current_block_energy_mode_spec [0, 0, 3, 0, 1]).1 2 (by decide) (by decide)
      (by intro j hj; match j, hj with
        | 0, _ => rfl
        | 1, _ => rfl),
   (current_block_energy_mode_spec [0, 0, 0, 0, 0]).2
      (by intro j hj; match j, hj with
        | 0, _ => rfl
        | 1, _ => rfl
        | 2, _ => rfl
        | 3, _ => rfl
        | 4, _ => rfl)⟩

/-- C3: for a valid depth `d` (whose count can be incremented without `int`
overflow), `sleep_block_mode(d)` adds exactly one to the count at `d`, leaves
every other depth unchanged, and its assertion fails exactly when the new
count is not below 5. -/
theorem sleep_block_mode_spec (t : EnergyTable) (d : Nat) (ht : t.wf)
    (hd : d < MAX_ENERGY_MODES)
    (hmin : INT_MIN ≤ count_at t d) (hmax : count_at t d < INT_MAX) :
    count_at (sleep_block_mode t d).state d = count_at t d + 1
      ∧ (∀ j, j ≠ d → count_at (sleep_block_mode t d).state j = count_at t j)
      ∧ (sleep_block_mode t d).state.wf
      ∧ ((sleep_block_mode t d).asserted = true ↔ ¬ (count_at t d + 1 < 5))
      ∧ ((sleep_block_mode t d).returned = true ↔ count_at t d + 1 < 5) := by
  have hlen : d < t.length := by rw [ht]; exact hd
  rw [sleep_block_mode_eq t d hmin hmax, count_at_set_same t d _ hlen]
  by_cases h : count_at t d + 1 < 5
  · simp only [h, if_true, Outcome.state, Outcome.asserted, Outcome.returned]
    refine ⟨count_at_set_same t d _ hlen, fun j hj => count_at_set_other t d j _ hj, ?_, by simp⟩
    unfold EnergyTable.wf at *
    simpa using ht
  · simp only [h, if_false, Outcome.state, Outcome.asserted, Outcome.returned]
    refine ⟨count_at_set_same t d _ hlen, fun j hj => count_at_set_other t d j _ hj, ?_, by simp⟩
    unfold EnergyTable.wf at *
    simpa using ht

/-- Witness for C3: the fifth block of depth 2 trips the assertion. -/
theorem sleep_block_mode_spec_witness :
    count_at (sleep_block_mode [0, 0, 4, 1, 0] 2).state 2 = count_at [0, 0, 4, 1, 0] 2 + 1
      ∧ (∀ j, j ≠ 2 →
          count_at (sleep_block_mode [0, 0, 4, 1, 0] 2).state j = count_at [0, 0, 4, 1, 0] j)
      ∧ (sleep_block_mode [0, 0, 4, 1, 0] 2).state.wf
      ∧ ((sleep_block_mode [0, 0, 4, 1, 0] 2).asserted = true
          ↔ ¬ (count_at [0, 0, 4, 1, 0] 2 + 1 < 5))
      ∧ ((sleep_block_mode [0, 0, 4, 1, 0] 2).returned = true
          ↔ count_at [0, 0, 4, 1, 0] 2 + 1 < 5) :=
  sleep_block_mode_spec [0, 0, 4, 1, 0] 2 (by decide) (by decide) (by decide) (by decide)

/-- C4: for a valid depth `d` (whose count can be decremented without `int`
overflow), `sleep_unblock_mode(d)` subtracts exactly one from the count at `d`
and leaves every other depth unchanged; its assertion fails exactly when the
decremented count is negative, which on a table with no negative count means
exactly when the count at `d` was 0 before the call. -/
theorem sleep_unblock_mode_spec (t : EnergyTable) (d : Nat) (ht : t.wf)
    (hd : d < MAX_ENERGY_MODES)
    (hmin : INT_MIN < count_at t d) (hmax : count_at t d ≤ INT_MAX) :
    count_at (sleep_unblock_mode t d).state d = count_at t d - 1
      ∧ (∀ j, j ≠ d → count_at (sleep_unblock_mode t d).state j = count_at t j)
      ∧ (sleep_unblock_mode t d).state.wf
      ∧ ((sleep_unblock_mode t d).asserted = true ↔ count_at t d - 1 < 0)
      ∧ ((sleep_unblock_mode t d).returned = true ↔ 0 ≤ count_at t d - 1)
      ∧ (0 ≤ count_at t d → ((sleep_unblock_mode t d).asserted = true ↔ count_at t d = 0)) := by
  have hlen : d < t.length := by rw [ht]; exact hd
  rw [sleep_unblock_mode_eq t d hmin hmax, count_at_set_same t d _ hlen]
  by_cases h : count_at t d - 1 ≥ 0
  · simp only [h, if_true, Outcome.state, Outcome.asserted, Outcome.returned]
    refine ⟨count_at_set_same t d _ hlen, fun j hj => count_at_set_other t d j _ hj, ?_,
      by simp; omega, by simp, ?_⟩
    · unfold EnergyTable.wf at *
      simpa using ht
    · intro _
      simp
      omega
  · simp only [h, if_false, Outcome.state, Outcome.asserted, Outcome.returned]
    refine ⟨count_at_set_same t d _ hlen, fun j hj => count_at_set_other t d j _ hj, ?_,
      by simp; omega, by simp, ?_⟩
    · unfold EnergyTable.wf at *
      simpa using ht
    · intro _
      simp
      omega

/-- Witness for C4: unblocking depth 3 when its count is 0 trips the assertion. -/
theorem sleep_unblock_mode_spec_witness :
    (sleep_unblock_mode [0, 0, 1, 0, 0] 3).asserted = true
      ∧ count_at (sleep_unblock_mode [0, 0, 1, 0, 0] 3).state 3 = -1
      ∧ count_at (sleep_unblock_mode [0, 0, 1, 0, 0] 3).state 2 = 1 :=
  have h := sleep_unblock_mode_spec [0, 0, 1, 0, 0] 3 (by decide) (by decide)
    (by decide) (by decide)
  ⟨(h.2.2.2.2.2 (by decide)).2 (by decide), h.1, h.2.1 2 (by decide)⟩

/-- C5: `enter_sleep` makes no EMU call when the count at EM0 or at EM1 is
positive; otherwise it enters EM1 when the count at EM2 is positive, EM2 when
the count at EM2 is not positive and the count at EM3 is, and EM3 when none of
the counts at EM0..EM3 is positive.  The mode it enters is shallower than every
depth whose count is positive. -/
theorem enter_sleep_spec (t : EnergyTable) :
    ((0 < count_at t EM0 ∨ 0 < count_at t EM1) → enter_sleep t = none)
      ∧ (¬ 0 < count_at t EM0 → ¬ 0 < count_at t EM1 →
          (0 < count_at t EM2 → enter_sleep t = some .EMU_EnterEM1)
          ∧ (¬ 0 < count_at t EM2 → 0 < count_at t EM3 →
              enter_sleep t = some (.EMU_EnterEM2 true))
          ∧ (¬ 0 < count_at t EM2 → ¬ 0 < count_at t EM3 →
              enter_sleep t = some (.EMU_EnterEM3 true)))
      ∧ (∀ c d, enter_sleep t = some c → 0 < count_at t d → c.mode < d) := by
  refine ⟨?_, ?_, ?_⟩
  · intro h
    unfold enter_sleep
    rcases h with h | h
    · simp [h]
    · by_cases h0 : count_at t EM0 > 0 <;> simp [h0, h]
  · intro h0 h1
    unfold enter_sleep
    refine ⟨?_, ?_, ?_⟩
    · intro h2
      simp [h0, h1, h2]
    · intro h2 h3
      simp [h0, h1, h2, h3]
    · intro h2 h3
      simp [h0, h1, h2, h3]
  · intro c d hc hpos
    unfold enter_sleep at hc
    have key : ∀ e, ¬ (count_at t e > 0) → d ≠ e := by
      intro e he hde
      subst hde
      exact he hpos
    split at hc
    · cases hc
    · rename_i h0
      split at hc
      · cases hc
      · rename_i h1
        have d0 := key EM0 h0
        have d1 := key EM1 h1
        unfold EM0 at d0
        unfold EM1 at d1
        split at hc
        · cases hc
          simp only [EMU_call.mode, EM1]
          omega
        · rename_i h2
          have d2 := key EM2 h2
          unfold EM2 at d2
          split at hc
          · cases hc
            simp only [EMU_call.mode, EM2]
            omega
          · rename_i h3
            have d3 := key EM3 h3
            unfold EM3 at d3
            cases hc
            simp only [EMU_call.mode, EM3]
            omega

/-- Witness for C5: with depths 3 and 4 blocked, `enter_sleep` enters EM2, which
is shallower than both. -/
theorem enter_sleep_spec_witness :
    enter_sleep [0, 0, 0, 1, 1] = some (.EMU_EnterEM2 true)
      ∧ EMU_call.mode (.EMU_EnterEM2 true) < 3 ∧ enter_sleep [1, 0, 0, 0, 0] = none :=
  have h := enter_sleep_spec [0, 0, 0, 1, 1]
  ⟨(h.2.1 (by decide) (by decide)).2.1 (by decide) (by decide),
   h.2.2 (.EMU_EnterEM2 true) 3 (by decide) (by decide),
   (enter_sleep_spec [1, 0, 0, 0, 0]).1 (Or.inl (by decide))⟩

/-! ## The event scheduler -/

theorem uint32_mod_eq : UINT32_MOD = 2 ^ 32 := by decide

theorem bit_not32_testBit (e : Nat) (he : e < UINT32_MOD) (i : Nat) :
    (bit_not32 e).testBit i = (decide (i < 32) && !e.testBit i) := by
  have h1 : bit_not32 e = 2 ^ 32 - (e + 1) := by
    unfold bit_not32
    rw [Nat.mod_eq_of_lt he, uint32_mod_eq]
    omega
  rw [h1]
  rw [uint32_mod_eq] at he
  exact Nat.testBit_two_pow_sub_succ he i

theorem testBit_high_false (m : Nat) (hm : m < UINT32_MOD) (i : Nat) (hi : ¬ i < 32) :
    m.testBit i = false := by
  rw [uint32_mod_eq] at hm
  apply Nat.testBit_lt_two_pow
  calc m < 2 ^ 32 := hm
    _ ≤ 2 ^ i := Nat.pow_le_pow_right (by decide) (by omega)

theorem add_scheduled_event_eq (m e : Nat) (hm : m < UINT32_MOD) (he : e < UINT32_MOD) :
    add_scheduled_event m e = m ||| e := by
  unfold add_scheduled_event
  apply Nat.mod_eq_of_lt
  rw [uint32_mod_eq] at *
  exact Nat.or_lt_two_pow hm he

theorem remove_scheduled_event_testBit (m e : Nat) (hm : m < UINT32_MOD)
    (he : e < UINT32_MOD) (i : Nat) :
    (remove_scheduled_event m e).testBit i = (m.testBit i && !e.testBit i) := by
  unfold remove_scheduled_event
  rw [uint32_mod_eq, Nat.testBit_mod_two_pow, Nat.testBit_and, bit_not32_testBit e he i]
  by_cases hi : i < 32
  · simp [hi]
  · simp [hi, testBit_high_false m hm i hi]

/-- C6: for 32-bit values `m` and `e`, after `add_scheduled_event(e)` on the mask
`m`, `get_scheduled_events` returns `m ||| e`, which contains every bit of `e`. -/
theorem add_then_get_includes_event (m e : Nat) (hm : m < UINT32_MOD) (he : e < UINT32_MOD) :
    (get_scheduled_events (add_scheduled_event m e)).1 = m ||| e
      ∧ (get_scheduled_events (add_scheduled_event m e)).1 &&& e = e
      ∧ ∀ i, e.testBit i = true →
          (get_scheduled_events (add_scheduled_event m e)).1.testBit i = true := by
  have h : (get_scheduled_events (add_scheduled_event m e)).1 = m ||| e :=
    add_scheduled_event_eq m e hm he
  rw [h]
  refine ⟨rfl, ?_, ?_⟩
  · apply Nat.eq_of_testBit_eq
    intro i
    rw [Nat.testBit_and, Nat.testBit_or]
    cases m.testBit i <;> cases e.testBit i <;> rfl
  · intro i hi
    rw [Nat.testBit_or, hi]
    simp

/-- Witness for C6: adding event `0x28` to the mask `0x0C`. -/
theorem add_then_get_includes_event_witness :
    (get_scheduled_events (add_scheduled_event 12 40)).1 = 12 ||| 40
      ∧ (get_scheduled_events (add_scheduled_event 12 40)).1 &&& 40 = 40
      ∧ ∀ i, Nat.testBit 40 i = true →
          (get_scheduled_events (add_scheduled_event 12 40)).1.testBit i = true :=
  add_then_get_includes_event 12 40 (by decide) (by decide)

/-- C7: for 32-bit values `m` and `e`, after `remove_scheduled_event(e)` on the
mask `m`, `get_scheduled_events` returns `m AND NOT e`: bit `i` of the result is
bit `i` of `m` and not bit `i` of `e`, so no bit of `e` is set and every bit
outside `e` is the bit of `m`. -/
theorem remove_then_get_excludes_event (m e : Nat) (hm : m < UINT32_MOD)
    (he : e < UINT32_MOD) :
    (∀ i, (get_scheduled_events (remove_scheduled_event m e)).1.testBit i
        = (m.testBit i && !e.testBit i))
      ∧ (get_scheduled_events (remove_scheduled_event m e)).1 &&& e = 0
      ∧ (∀ i, e.testBit i = false →
          (get_scheduled_events (remove_scheduled_event m e)).1.testBit i = m.testBit i)
      ∧ (get_scheduled_events (remove_scheduled_event m e)).1 = m &&& bit_not32 e := by
  simp only [get_scheduled_events]
  refine ⟨remove_scheduled_event_testBit m e hm he, ?_, ?_, ?_⟩
  · apply Nat.eq_of_testBit_eq
    intro i
    rw [Nat.testBit_and, remove_scheduled_event_testBit m e hm he, Nat.zero_testBit]
    cases m.testBit i <;> cases e.testBit i <;> rfl
  · intro i hi
    rw [remove_scheduled_event_testBit m e hm he, hi]
    simp
  · unfold remove_scheduled_event
    apply Nat.mod_eq_of_lt
    calc m &&& bit_not32 e ≤ m := Nat.and_le_left
      _ < UINT32_MOD := hm

/-- Witness for C7: removing event `0x28` from the mask `0x2C` leaves `0x04`. -/
theorem remove_then_get_excludes_event_witness :
    (get_scheduled_events (remove_scheduled_event 44 40)).1 &&& 40 = 0
      ∧ (get_scheduled_events (remove_scheduled_event 44 40)).1 = 44 &&& bit_not32 40 :=
  have h := remove_then_get_excludes_event 44 40 (by decide) (by decide)
  ⟨h.2.1, h.2.2.2⟩

/-- C8, counterexample: on the mask 1, which already holds event 1,
`add_scheduled_event(1)` followed by `remove_scheduled_event(1)` leaves the mask 0,
not the prior mask 1. -/
theorem add_then_remove_not_prior_mask :
    remove_scheduled_event (add_scheduled_event 1 1) 1 = 0
      ∧ remove_scheduled_event (add_scheduled_event 1 1) 1 ≠ 1 := by
  decide

/-- C8, amended: for 32-bit values `m` and `e`, `add_scheduled_event(e)` followed
by `remove_scheduled_event(e)` leaves the mask `m AND NOT e` (bit `i` of the
result is bit `i` of `m` and not bit `i` of `e`); the result is the prior mask
`m` exactly when `m` held no bit of `e` before. -/
theorem add_then_remove_spec (m e : Nat) (hm : m < UINT32_MOD) (he : e < UINT32_MOD) :
    (∀ i, (remove_scheduled_event (add_scheduled_event m e) e).testBit i
        = (m.testBit i && !e.testBit i))
      ∧ remove_scheduled_event (add_scheduled_event m e) e = remove_scheduled_event m e
      ∧ (remove_scheduled_event (add_scheduled_event m e) e = m ↔ m &&& e = 0) := by
  have hadd : add_scheduled_event m e < UINT32_MOD := by
    unfold add_scheduled_event
    exact Nat.mod_lt _ (by decide)
  have hbits : ∀ i, (remove_scheduled_event (add_scheduled_event m e) e).testBit i
      = (m.testBit i && !e.testBit i) := by
    intro i
    rw [remove_scheduled_event_testBit _ e hadd he, add_scheduled_event_eq m e hm he,
      Nat.testBit_or]
    cases m.testBit i <;> cases e.testBit i <;> rfl
  refine ⟨hbits, ?_, ?_⟩
  · apply Nat.eq_of_testBit_eq
    intro i
    rw [hbits i, remove_scheduled_event_testBit m e hm he]
  · constructor
    · intro h
      apply Nat.eq_of_testBit_eq
      intro i
      have hi := hbits i
      rw [h] at hi
      rw [Nat.testBit_and, Nat.zero_testBit]
      revert hi
      cases m.testBit i <;> cases e.testBit i <;> simp
    · intro h
      apply Nat.eq_of_testBit_eq
      intro i
      rw [hbits i]
      have hi : (m &&& e).testBit i = false := by rw [h, Nat.zero_testBit]
      rw [Nat.testBit_and] at hi
      revert hi
      cases m.testBit i <;> cases e.testBit i <;> simp

/-- Witness for C8 as amended: on the mask `0x04`, adding and removing the event
`0x28` gives back `0x04`. -/
theorem add_then_remove_spec_witness :
    remove_scheduled_event (add_scheduled_event 4 40) 40 = 4 :=
  (add_then_remove_spec 4 40 (by decide) (by decide)).2.2.2 (by decide)

/-- C9: whatever the prior mask, after `scheduler_open` the mask is empty and
`get_scheduled_events` returns 0; `get_scheduled_events` returns the mask and
leaves it as it was. -/
theorem scheduler_open_then_get (m : Nat) :
    scheduler_open m = 0
      ∧ (get_scheduled_events (scheduler_open m)).1 = 0
      ∧ (get_scheduled_events (scheduler_open m)).2 = 0
      ∧ ∀ x, (get_scheduled_events x).1 = x ∧ (get_scheduled_events x).2 = x :=
  ⟨rfl, rfl, rfl, fun _ => ⟨rfl, rfl⟩⟩

/-! ## Starting an I2C transaction -/

theorem wait_while_not_available_busy (fuel : Nat) :
    wait_while_not_available fuel true = false := by
  induction fuel with
  | zero => rfl
  | succ f ih => simpa [wait_while_not_available] using ih

theorem wait_while_not_available_idle (fuel : Nat) :
    wait_while_not_available fuel false = true := by
  cases fuel <;> rfl

theorem i2c_start_busy_eq (k : EmI2cConsts) (fuel : Nat) (s : System) (i2c : I2C_TypeDef)
    (b : Bus) (device_add register_add read_write callback data number_bytes : Nat)
    (hsel : select_sm i2c = some b) (hbusy : (s.sm b).not_available = true) :
    i2c_start k fuel s i2c device_add register_add read_write callback data number_bytes
      = .out_of_fuel s := by
  unfold i2c_start
  simp only [hsel, hbusy, wait_while_not_available_busy, if_true]

theorem busy_system_reached :
    i2c_start efr32_consts 0 idle_system .I2C1 85 17 READ_OP 8 0 1 = .ret busy_system := by
  decide

/-- C10, counterexample: with a read in flight on `I2C1`, a second `i2c_start`
on `I2C1` does not end in a failed assertion, whatever the number of loop
iterations it is given; it is still in its busy-wait loop. -/
theorem i2c_start_busy_no_assertion :
    (i2c_start efr32_consts 1000 busy_system .I2C1 85 17 READ_OP 8 0 1).asserted = false
      ∧ i2c_start efr32_consts 1000 busy_system .I2C1 85 17 READ_OP 8 0 1
          = .out_of_fuel busy_system
      ∧ ¬ ∃ fuel s1, i2c_start efr32_consts fuel busy_system .I2C1 85 17 READ_OP 8 0 1
          = .assert_failed s1 := by
  have h : ∀ fuel, i2c_start efr32_consts fuel busy_system .I2C1 85 17 READ_OP 8 0 1
      = .out_of_fuel busy_system :=
    fun fuel => i2c_start_busy_eq efr32_consts fuel busy_system .I2C1 .bus1 85 17 READ_OP 8 0 1
      rfl rfl
  refine ⟨by rw [h]; rfl, h 1000, ?_⟩
  rintro ⟨fuel, s1, hs⟩
  rw [h fuel] at hs
  cases hs

/-- C10, amended: `i2c_start` on a bus (`I2C0` or `I2C1`) whose descriptor is
busy fails no assertion.  It busy-waits on `not_available`: for every number of
loop iterations it is still in the loop, it has not returned, and the whole
state, the descriptors and the energy-mode table included, is as before the
call. -/
theorem i2c_start_busy_waits (k : EmI2cConsts) (fuel : Nat) (s : System) (i2c : I2C_TypeDef)
    (b : Bus) (device_add register_add read_write callback data number_bytes : Nat)
    (hsel : select_sm i2c = some b) (hbusy : (s.sm b).not_available = true) :
    i2c_start k fuel s i2c device_add register_add read_write callback data number_bytes
        = .out_of_fuel s
      ∧ (i2c_start k fuel s i2c device_add register_add read_write callback data
          number_bytes).asserted = false
      ∧ (i2c_start k fuel s i2c device_add register_add read_write callback data
          number_bytes).returned = false
      ∧ ((i2c_start k fuel s i2c device_add register_add read_write callback data
          number_bytes).state.sm b = s.sm b)
      ∧ (i2c_start k fuel s i2c device_add register_add read_write callback data
          number_bytes).state.lowest_energy_mode = s.lowest_energy_mode := by
  rw [i2c_start_busy_eq k fuel s i2c b device_add register_add read_write callback data
    number_bytes hsel hbusy]
  exact ⟨rfl, rfl, rfl, rfl, rfl⟩

/-- Witness for C10 as amended: a write started on `I2C1` while the read of
`busy_system` is in flight. -/
theorem i2c_start_busy_waits_witness :
    i2c_start efr32_consts 7 busy_system .I2C1 85 10 WRITE_OP 0 1 1 = .out_of_fuel busy_system :=
  (i2c_start_busy_waits efr32_consts 7 busy_system .I2C1 .bus1 85 10 WRITE_OP 0 1 1
    (by decide) (by decide)).1

/-! ## Lemmas on the system state -/

@[simp] theorem sm_set_sm (s : System) (b : Bus) (d : I2C_STATE_MACHINE) :
    (s.set_sm b d).sm b = d := by
  cases b <;> rfl

@[simp] theorem sm_set_sm_other (s : System) (b : Bus) (d : I2C_STATE_MACHINE) :
    (s.set_sm b d).sm b.other = s.sm b.other := by
  cases b <;> rfl

@[simp] theorem set_sm_set_sm (s : System) (b : Bus) (d e : I2C_STATE_MACHINE) :
    (s.set_sm b d).set_sm b e = s.set_sm b e := by
  cases b <;> rfl

@[simp] theorem set_sm_hw (s : System) (b : Bus) (d : I2C_STATE_MACHINE) :
    (s.set_sm b d).hw = s.hw := by
  cases b <;> rfl

@[simp] theorem set_sm_mem (s : System) (b : Bus) (d : I2C_STATE_MACHINE) :
    (s.set_sm b d).mem = s.mem := by
  cases b <;> rfl

@[simp] theorem set_sm_event_scheduled (s : System) (b : Bus) (d : I2C_STATE_MACHINE) :
    (s.set_sm b d).event_scheduled = s.event_scheduled := by
  cases b <;> rfl

@[simp] theorem set_sm_lowest_energy_mode (s : System) (b : Bus) (d : I2C_STATE_MACHINE) :
    (s.set_sm b d).lowest_energy_mode = s.lowest_energy_mode := by
  cases b <;> rfl

@[simp] theorem set_sm_left_shift_val (s : System) (b : Bus) (d : I2C_STATE_MACHINE) :
    (s.set_sm b d).left_shift_val = s.left_shift_val := by
  cases b <;> rfl

@[simp] theorem set_sm_mem_read (s : System) (b : Bus) (d : I2C_STATE_MACHINE) (p : Nat) :
    (s.set_sm b d).mem_read p = s.mem_read p := by
  cases b <;> rfl

@[simp] theorem hw_write_sm (s : System) (w : HwWrite) (b : Bus) :
    (s.hw_write w).sm b = s.sm b := by
  cases b <;> rfl

@[simp] theorem hw_write_hw (s : System) (w : HwWrite) : (s.hw_write w).hw = s.hw ++ [w] := rfl

@[simp] theorem hw_write_mem (s : System) (w : HwWrite) : (s.hw_write w).mem = s.mem := rfl

@[simp] theorem hw_write_mem_read (s : System) (w : HwWrite) (p : Nat) :
    (s.hw_write w).mem_read p = s.mem_read p := rfl

@[simp] theorem hw_write_event_scheduled (s : System) (w : HwWrite) :
    (s.hw_write w).event_scheduled = s.event_scheduled := rfl

@[simp] theorem hw_write_lowest_energy_mode (s : System) (w : HwWrite) :
    (s.hw_write w).lowest_energy_mode = s.lowest_energy_mode := rfl

@[simp] theorem hw_write_left_shift_val (s : System) (w : HwWrite) :
    (s.hw_write w).left_shift_val = s.left_shift_val := rfl

@[simp] theorem mem_write_sm (s : System) (p v : Nat) (b : Bus) :
    (s.mem_write p v).sm b = s.sm b := by
  cases b <;> rfl

@[simp] theorem mem_write_hw (s : System) (p v : Nat) : (s.mem_write p v).hw = s.hw := rfl

@[simp] theorem mem_write_mem (s : System) (p v : Nat) :
    (s.mem_write p v).mem = s.mem.set p v := rfl

@[simp] theorem mem_write_event_scheduled (s : System) (p v : Nat) :
    (s.mem_write p v).event_scheduled = s.event_scheduled := rfl

@[simp] theorem mem_write_lowest_energy_mode (s : System) (p v : Nat) :
    (s.mem_write p v).lowest_energy_mode = s.lowest_energy_mode := rfl

@[simp] theorem mem_write_left_shift_val (s : System) (p v : Nat) :
    (s.mem_write p v).left_shift_val = s.left_shift_val := rfl

@[simp] theorem set_left_shift_val_sm (s : System) (v : Nat) (b : Bus) :
    (s.set_left_shift_val v).sm b = s.sm b := by
  cases b <;> rfl

@[simp] theorem set_left_shift_val_hw (s : System) (v : Nat) :
    (s.set_left_shift_val v).hw = s.hw := rfl

@[simp] theorem set_left_shift_val_mem (s : System) (v : Nat) :
    (s.set_left_shift_val v).mem = s.mem := rfl

@[simp] theorem set_left_shift_val_mem_read (s : System) (v p : Nat) :
    (s.set_left_shift_val v).mem_read p = s.mem_read p := rfl

@[simp] theorem set_left_shift_val_event_scheduled (s : System) (v : Nat) :
    (s.set_left_shift_val v).event_scheduled = s.event_scheduled := rfl

@[simp] theorem set_left_shift_val_lowest_energy_mode (s : System) (v : Nat) :
    (s.set_left_shift_val v).lowest_energy_mode = s.lowest_energy_mode := rfl

@[simp] theorem set_left_shift_val_left_shift_val (s : System) (v : Nat) :
    (s.set_left_shift_val v).left_shift_val = v := rfl

@[simp] theorem set_lowest_energy_mode_sm (s : System) (t : EnergyTable) (b : Bus) :
    (s.set_lowest_energy_mode t).sm b = s.sm b := by
  cases b <;> rfl

@[simp] theorem set_lowest_energy_mode_hw (s : System) (t : EnergyTable) :
    (s.set_lowest_energy_mode t).hw = s.hw := rfl

@[simp] theorem set_lowest_energy_mode_mem (s : System) (t : EnergyTable) :
    (s.set_lowest_energy_mode t).mem = s.mem := rfl

@[simp] theorem set_lowest_energy_mode_event_scheduled (s : System) (t : EnergyTable) :
    (s.set_lowest_energy_mode t).event_scheduled = s.event_scheduled := rfl

@[simp] theorem set_lowest_energy_mode_lowest_energy_mode (s : System) (t : EnergyTable) :
    (s.set_lowest_energy_mode t).lowest_energy_mode = t := rfl

@[simp] theorem set_lowest_energy_mode_left_shift_val (s : System) (t : EnergyTable) :
    (s.set_lowest_energy_mode t).left_shift_val = s.left_shift_val := rfl

@[simp] theorem set_event_scheduled_sm (s : System) (m : Nat) (b : Bus) :
    (s.set_event_scheduled m).sm b = s.sm b := by
  cases b <;> rfl

@[simp] theorem set_event_scheduled_hw (s : System) (m : Nat) :
    (s.set_event_scheduled m).hw = s.hw := rfl

@[simp] theorem set_event_scheduled_mem (s : System) (m : Nat) :
    (s.set_event_scheduled m).mem = s.mem := rfl

@[simp] theorem set_event_scheduled_event_scheduled (s : System) (m : Nat) :
    (s.set_event_scheduled m).event_scheduled = m := rfl

@[simp] theorem set_event_scheduled_lowest_energy_mode (s : System) (m : Nat) :
    (s.set_event_scheduled m).lowest_energy_mode = s.lowest_energy_mode := rfl

@[simp] theorem set_event_scheduled_left_shift_val (s : System) (m : Nat) :
    (s.set_event_scheduled m).left_shift_val = s.left_shift_val := rfl

theorem mem_read_mem_write (s : System) (p v : Nat) (h : p < s.mem.length) :
    (s.mem_write p v).mem_read p = v := by
  simp [System.mem_read, System.mem_write, List.getD_eq_getElem?_getD, List.getElem?_set, h]

theorem run_signals_append (b : Bus) (xs ys : List I2C_Signal) :
    ∀ s, run_signals s b (xs ++ ys)
      = match run_signals s b xs with
        | .ret s1 => run_signals s1 b ys
        | other => other := by
  induction xs with
  | nil => intro s; rfl
  | cons x xs ih =>
    intro s
    simp only [List.cons_append, run_signals]
    cases h : i2c_signal s b x with
    | ret s1 => exact ih s1
    | assert_failed s1 => rfl
    | out_of_fuel s1 => rfl

theorem run_signals_append_ret (b : Bus) (xs ys : List I2C_Signal) (s s1 : System)
    (h : run_signals s b xs = .ret s1) :
    run_signals s b (xs ++ ys) = run_signals s1 b ys := by
  rw [run_signals_append, h]

theorem i2c_start_idle_eq (k : EmI2cConsts) (fuel : Nat) (s : System) (i2c : I2C_TypeDef)
    (b : Bus) (device_add register_add read_write callback data number_bytes : Nat)
    (hsel : select_sm i2c = some b) (hidle : (s.sm b).not_available = false)
    (hk : (s.sm b).curr_state.toNat &&& k._I2C_STATE_STATE_MASK = k.I2C_STATE_STATE_IDLE)
    (hwf : s.lowest_energy_mode.wf)
    (hmin : INT_MIN ≤ count_at s.lowest_energy_mode I2C_EM_BLOCK)
    (hceil : count_at s.lowest_energy_mode I2C_EM_BLOCK + 1 < 5) :
    i2c_start k fuel s i2c device_add register_add read_write callback data number_bytes
      = .ret (started_system s i2c b device_add register_add read_write callback data
          number_bytes) := by
  have hlen : I2C_EM_BLOCK < s.lowest_energy_mode.length := by
    rw [hwf]; decide
  have hmax : count_at s.lowest_energy_mode I2C_EM_BLOCK < INT_MAX := by
    unfold INT_MAX; omega
  have hblock := sleep_block_mode_eq s.lowest_energy_mode I2C_EM_BLOCK hmin hmax
  rw [count_at_set_same _ _ _ hlen, if_pos hceil] at hblock
  unfold i2c_start
  simp only [hsel, hidle, wait_while_not_available_idle, hk, hblock, ne_eq, not_true_eq_false,
    if_false, Bool.true_eq_false]
  cases b <;> simp [System.set_sm, System.hw_write, started_sm, started_system]

theorem i2c_start_ret (k : EmI2cConsts) (fuel : Nat) (s s0 : System) (i2c : I2C_TypeDef)
    (device_add register_add read_write callback data number_bytes : Nat)
    (h : i2c_start k fuel s i2c device_add register_add read_write callback data number_bytes
      = .ret s0) :
    ∃ b, select_sm i2c = some b ∧ (s.sm b).not_available = false
      ∧ s0.sm b = started_sm i2c device_add register_add read_write callback data number_bytes
      ∧ s0.sm b.other = s.sm b.other
      ∧ s0.hw = s.hw ++ [.CMD i2c .START,
          .TXDATA i2c (((device_add <<< 1) ||| WRITE_OP) % UINT32_MOD)]
      ∧ s0.mem = s.mem ∧ s0.event_scheduled = s.event_scheduled
      ∧ s0.left_shift_val = s.left_shift_val
      ∧ sleep_block_mode s.lowest_energy_mode I2C_EM_BLOCK = .ret s0.lowest_energy_mode := by
  unfold i2c_start at h
  cases hsel : select_sm i2c with
  | none =>
    rw [hsel] at h
    cases h
  | some b =>
    rw [hsel] at h
    simp only at h
    refine ⟨b, rfl, ?_⟩
    cases hna : (s.sm b).not_available with
    | true =>
      rw [hna, wait_while_not_available_busy] at h
      simp at h
    | false =>
      rw [hna, wait_while_not_available_idle] at h
      simp only [Bool.true_eq_false, if_false] at h
      split at h
      · cases h
      · cases hblk : sleep_block_mode s.lowest_energy_mode I2C_EM_BLOCK with
        | assert_failed t => rw [hblk] at h; cases h
        | out_of_fuel t => rw [hblk] at h; cases h
        | ret t =>
          rw [hblk] at h
          simp only [Outcome.ret.injEq] at h
          subst h
          cases b <;> simp [System.set_sm, System.sm, started_sm, Bus.other]

theorem dec32_succ (n : Nat) (h : n + 1 < UINT32_MOD) : dec32 (n + 1) = n := by
  unfold dec32 UINT32_MOD at *
  omega

theorem i2c_ack_sm_write_data_pos (b : Bus) (s : System)
    (hst : (s.sm b).curr_state = .write_data) (hpos : (s.sm b).number_bytes > 0) :
    i2c_ack_sm s b = .ret
      (((s.hw_write (.TXDATA (s.sm b).i2c_state
            (shl32 (s.mem_read (s.sm b).num_data)
              ((s.left_shift_val * 8) % UINT32_MOD)))).set_left_shift_val
          (inc32 s.left_shift_val)).set_sm b
        { s.sm b with number_bytes := dec32 (s.sm b).number_bytes,
                      curr_state := .write_data }) := by
  unfold i2c_ack_sm
  simp only [hst, hpos, if_true]

theorem i2c_ack_sm_write_data_zero (b : Bus) (s : System)
    (hst : (s.sm b).curr_state = .write_data) (hz : (s.sm b).number_bytes = 0) :
    i2c_ack_sm s b = .ret
      ((s.hw_write (.CMD (s.sm b).i2c_state .STOP)).set_sm b
        { s.sm b with curr_state := .stop_data }) := by
  unfold i2c_ack_sm
  simp only [hst, hz, gt_iff_lt, lt_self_iff_false, if_false, if_true]

theorem ack_write_data_run (b : Bus) :
    ∀ (n : Nat) (s : System), (s.sm b).curr_state = .write_data →
      (s.sm b).number_bytes = n → n < UINT32_MOD →
      ∃ s1, run_signals s b (List.replicate n .ACK) = .ret s1
        ∧ s1.hw = s.hw ++ (write_data_payload (s.mem_read (s.sm b).num_data)
            s.left_shift_val n).map (HwWrite.TXDATA (s.sm b).i2c_state)
        ∧ s1.sm b = { s.sm b with number_bytes := 0 }
        ∧ s1.sm b.other = s.sm b.other ∧ s1.mem = s.mem
        ∧ s1.event_scheduled = s.event_scheduled
        ∧ s1.lowest_energy_mode = s.lowest_energy_mode := by
  intro n
  induction n with
  | zero =>
    intro s _ hn _
    refine ⟨s, rfl, by simp [write_data_payload], ?_, rfl, rfl, rfl, rfl⟩
    rw [← hn]
  | succ n ih =>
    intro s hst hn hlt
    have hpos : (s.sm b).number_bytes > 0 := by omega
    have hack := i2c_ack_sm_write_data_pos b s hst hpos
    generalize hs2 : (((s.hw_write (.TXDATA (s.sm b).i2c_state
            (shl32 (s.mem_read (s.sm b).num_data)
              ((s.left_shift_val * 8) % UINT32_MOD)))).set_left_shift_val
          (inc32 s.left_shift_val)).set_sm b
        { s.sm b with number_bytes := dec32 (s.sm b).number_bytes,
                      curr_state := .write_data }) = s2 at hack
    have e1 : s2.sm b = { s.sm b with number_bytes := n, curr_state := .write_data } := by
      rw [← hs2, sm_set_sm, hn, dec32_succ n hlt]
    have e2 : s2.hw = s.hw ++ [.TXDATA (s.sm b).i2c_state
        (shl32 (s.mem_read (s.sm b).num_data) ((s.left_shift_val * 8) % UINT32_MOD))] := by
      rw [← hs2]; simp
    have e3 : s2.left_shift_val = inc32 s.left_shift_val := by rw [← hs2]; simp
    have e4 : s2.mem = s.mem := by rw [← hs2]; simp
    have e5 : s2.event_scheduled = s.event_scheduled := by rw [← hs2]; simp
    have e6 : s2.lowest_energy_mode = s.lowest_energy_mode := by rw [← hs2]; simp
    have e7 : s2.sm b.other = s.sm b.other := by rw [← hs2]; simp
    obtain ⟨s1, hrun, hhw, hsm, hoth, hmem, hev, htab⟩ := ih s2
      (by rw [e1]) (by rw [e1]) (by omega)
    refine ⟨s1, ?_, ?_, ?_, ?_, ?_, ?_, ?_⟩
    · simp only [List.replicate_succ, run_signals, i2c_signal, hack]
      exact hrun
    · rw [hhw, e2, e1, e3]
      simp [write_data_payload, System.mem_read, e4]
    · rw [hsm, e1]
      simp [hst]
    · rw [hoth, e7]
    · rw [hmem, e4]
    · rw [hev, e5]
    · rw [htab, e6]

theorem ack_idle_phase_run (b : Bus) (s : System)
    (h : (s.sm b).curr_state = .read_data ∨ (s.sm b).curr_state = .stop_data) :
    ∀ m, run_signals s b (List.replicate m .ACK) = .ret s := by
  have hack : i2c_ack_sm s b = .ret s := by
    unfold i2c_ack_sm
    rcases h with h | h <;> simp only [h]
  intro m
  induction m with
  | zero => rfl
  | succ m ih =>
    simp only [List.replicate_succ, run_signals, i2c_signal, hack]
    exact ih

theorem i2c_ack_sm_init_write (b : Bus) (s : System)
    (hst : (s.sm b).curr_state = .init_process) (hc : (s.sm b).counter_var = 1)
    (hrw : (s.sm b).read_write_op = 0) :
    i2c_ack_sm s b = .ret
      (((s.hw_write (.TXDATA (s.sm b).i2c_state (s.sm b).register_address)).hw_write
          (.TXDATA (s.sm b).i2c_state
            (shl32 (s.mem_read (s.sm b).num_data) ((s.left_shift_val * 8) % UINT32_MOD)))).set_sm b
        { s.sm b with counter_var := 2, curr_state := .write_data,
                      number_bytes := dec32 (s.sm b).number_bytes }) := by
  unfold i2c_ack_sm
  simp only [hst, hc, hrw, if_true, one_ne_zero, if_false]
  rfl

theorem write_transaction_run (b : Bus) (s0 : System) (i2c : I2C_TypeDef)
    (device_add register_add callback data n : Nat)
    (hsm : s0.sm b = started_sm i2c device_add register_add WRITE_OP callback data n)
    (h1 : 1 ≤ n) (hlt : n < UINT32_MOD) :
    ∃ s1 s2, run_signals s0 b (List.replicate n .ACK) = .ret s1
      ∧ s1.hw = s0.hw ++ [.TXDATA i2c register_add]
          ++ (shl32 (s0.mem_read data) ((s0.left_shift_val * 8) % UINT32_MOD)
              :: write_data_payload (s0.mem_read data) s0.left_shift_val (n - 1)).map
                (HwWrite.TXDATA i2c)
      ∧ s1.sm b = { started_sm i2c device_add register_add WRITE_OP callback data n with
                      counter_var := 2, curr_state := .write_data, number_bytes := 0 }
      ∧ run_signals s0 b (List.replicate (n + 1) .ACK) = .ret s2
      ∧ s2 = (s1.hw_write (.CMD i2c .STOP)).set_sm b { s1.sm b with curr_state := .stop_data }
      ∧ s1.sm b.other = s0.sm b.other ∧ s1.mem = s0.mem
      ∧ s1.event_scheduled = s0.event_scheduled
      ∧ s1.lowest_energy_mode = s0.lowest_energy_mode := by
  obtain ⟨m, rfl⟩ : ∃ m, n = m + 1 := ⟨n - 1, by omega⟩
  have hack := i2c_ack_sm_init_write b s0 (by rw [hsm]; rfl) (by rw [hsm]; rfl)
    (by rw [hsm]; rfl)
  generalize hs : (((s0.hw_write (.TXDATA (s0.sm b).i2c_state (s0.sm b).register_address)).hw_write
          (.TXDATA (s0.sm b).i2c_state
            (shl32 (s0.mem_read (s0.sm b).num_data)
              ((s0.left_shift_val * 8) % UINT32_MOD)))).set_sm b
        { s0.sm b with counter_var := 2, curr_state := .write_data,
                       number_bytes := dec32 (s0.sm b).number_bytes }) = sa at hack
  have e1 : sa.sm b = { started_sm i2c device_add register_add WRITE_OP callback data (m + 1) with
      counter_var := 2, curr_state := .write_data, number_bytes := m } := by
    rw [← hs, sm_set_sm, hsm]
    simp [started_sm, dec32_succ m hlt]
  have e2 : sa.hw = s0.hw ++ [.TXDATA i2c register_add,
      .TXDATA i2c (shl32 (s0.mem_read data) ((s0.left_shift_val * 8) % UINT32_MOD))] := by
    rw [← hs, hsm]; simp [started_sm]
  have e3 : sa.left_shift_val = s0.left_shift_val := by rw [← hs]; simp
  have e4 : sa.mem = s0.mem := by rw [← hs]; simp
  have e5 : sa.event_scheduled = s0.event_scheduled := by rw [← hs]; simp
  have e6 : sa.lowest_energy_mode = s0.lowest_energy_mode := by rw [← hs]; simp
  have e7 : sa.sm b.other = s0.sm b.other := by rw [← hs]; simp
  obtain ⟨s1, hrun, hhw, hsm1, hoth, hmem, hev, htab⟩ := ack_write_data_run b m sa
    (by rw [e1]) (by rw [e1]) (by omega)
  have hrunN : run_signals s0 b (List.replicate (m + 1) .ACK) = .ret s1 := by
    simp only [List.replicate_succ, run_signals, i2c_signal, hack]
    exact hrun
  have hsm1' : s1.sm b = { started_sm i2c device_add register_add WRITE_OP callback data (m + 1)
      with counter_var := 2, curr_state := .write_data, number_bytes := 0 } := by
    rw [hsm1, e1]
  have hstop := i2c_ack_sm_write_data_zero b s1 (by rw [hsm1']) (by rw [hsm1'])
  refine ⟨s1, _, hrunN, ?_, hsm1', ?_, rfl, ?_, ?_, ?_, ?_⟩
  · rw [hhw, e2, e1, e3]
    simp [started_sm, System.mem_read, e4]
  · rw [List.replicate_succ', run_signals_append_ret b _ _ s0 s1 hrunN]
    simp only [run_signals, i2c_signal, hstop]
    rw [hsm1']
    rfl
  · rw [hoth, e7]
  · rw [hmem, e4]
  · rw [hev, e5]
  · rw [htab, e6]

theorem write_data_payload_length (v : Nat) : ∀ (n lsv : Nat),
    (write_data_payload v lsv n).length = n := by
  intro n
  induction n with
  | zero => intro lsv; rfl
  | succ n ih => intro lsv; simp [write_data_payload, ih]

theorem efr32_state_assert_passes (st : DEFINED_STATES) :
    st.toNat &&& efr32_consts._I2C_STATE_STATE_MASK = efr32_consts.I2C_STATE_STATE_IDLE := by
  cases st <;> decide

theorem i2c_ack_sm_init_read (b : Bus) (s : System)
    (hst : (s.sm b).curr_state = .init_process) (hc : (s.sm b).counter_var = 1)
    (hrw : (s.sm b).read_write_op ≠ 0) :
    i2c_ack_sm s b = .ret
      ((s.hw_write (.TXDATA (s.sm b).i2c_state (s.sm b).register_address)).set_sm b
        { s.sm b with counter_var := 2, curr_state := .init_process }) := by
  unfold i2c_ack_sm
  simp only [hst, hc, hrw, if_true, one_ne_zero, if_false]
  rfl

theorem i2c_ack_sm_init_restart (b : Bus) (s : System)
    (hst : (s.sm b).curr_state = .init_process) (hc : (s.sm b).counter_var = 2) :
    i2c_ack_sm s b = .ret
      (((s.hw_write (.CMD (s.sm b).i2c_state .START)).hw_write
          (.TXDATA (s.sm b).i2c_state (shl32 (s.sm b).dev_address 1 ||| READ_OP))).set_sm b
        { s.sm b with counter_var := 3, curr_state := .init_process }) := by
  unfold i2c_ack_sm
  simp only [hst, hc, if_true, if_false, OfNat.ofNat_ne_zero, OfNat.ofNat_ne_one]
  rfl

theorem i2c_ack_sm_init_to_read (b : Bus) (s : System)
    (hst : (s.sm b).curr_state = .init_process) (hc : (s.sm b).counter_var = 3) :
    i2c_ack_sm s b = .ret (s.set_sm b { s.sm b with curr_state := .read_data }) := by
  unfold i2c_ack_sm
  simp [hst, hc]

theorem read_handshake_run (b : Bus) (s0 : System) (i2c : I2C_TypeDef)
    (device_add register_add read_write callback data n : Nat)
    (hsm : s0.sm b = started_sm i2c device_add register_add read_write callback data n)
    (hrw : read_write ≠ 0) :
    ∃ sA sB sC, run_signals s0 b [.ACK] = .ret sA
      ∧ sA.hw = s0.hw ++ [.TXDATA i2c register_add]
      ∧ (sA.sm b).curr_state = .init_process
      ∧ run_signals s0 b [.ACK, .ACK] = .ret sB
      ∧ sB.hw = sA.hw ++ [.CMD i2c .START, .TXDATA i2c (shl32 device_add 1 ||| READ_OP)]
      ∧ (sB.sm b).curr_state = .init_process
      ∧ run_signals s0 b [.ACK, .ACK, .ACK] = .ret sC
      ∧ sC.hw = sB.hw
      ∧ sC.sm b = { started_sm i2c device_add register_add read_write callback data n with
                      counter_var := 3, curr_state := .read_data }
      ∧ sC.sm b.other = s0.sm b.other ∧ sC.mem = s0.mem
      ∧ sC.event_scheduled = s0.event_scheduled
      ∧ sC.lowest_energy_mode = s0.lowest_energy_mode
      ∧ sC.left_shift_val = s0.left_shift_val := by
  have hA := i2c_ack_sm_init_read b s0 (by rw [hsm]; rfl) (by rw [hsm]; rfl)
    (by rw [hsm]; exact hrw)
  generalize hsA : ((s0.hw_write (.TXDATA (s0.sm b).i2c_state (s0.sm b).register_address)).set_sm b
        { s0.sm b with counter_var := 2, curr_state := .init_process }) = sA at hA
  have a1 : sA.sm b = { started_sm i2c device_add register_add read_write callback data n with
      counter_var := 2 } := by
    rw [← hsA, sm_set_sm, hsm]; rfl
  have a2 : sA.hw = s0.hw ++ [.TXDATA i2c register_add] := by
    rw [← hsA, hsm]; simp [started_sm]
  have hB := i2c_ack_sm_init_restart b sA (by rw [a1]; rfl) (by rw [a1])
  generalize hsB : (((sA.hw_write (.CMD (sA.sm b).i2c_state .START)).hw_write
          (.TXDATA (sA.sm b).i2c_state (shl32 (sA.sm b).dev_address 1 ||| READ_OP))).set_sm b
        { sA.sm b with counter_var := 3, curr_state := .init_process }) = sB at hB
  have b1 : sB.sm b = { started_sm i2c device_add register_add read_write callback data n with
      counter_var := 3 } := by
    rw [← hsB, sm_set_sm, a1]; rfl
  have b2 : sB.hw = sA.hw ++ [.CMD i2c .START, .TXDATA i2c (shl32 device_add 1 ||| READ_OP)] := by
    rw [← hsB, a1]; simp [started_sm]
  have hC := i2c_ack_sm_init_to_read b sB (by rw [b1]; rfl) (by rw [b1])
  refine ⟨sA, sB, sB.set_sm b { sB.sm b with curr_state := .read_data }, ?_, a2,
    by rw [a1]; rfl, ?_, b2, by rw [b1]; rfl, ?_, ?_, ?_, ?_, ?_, ?_, ?_, ?_⟩
  · simp only [run_signals, i2c_signal, hA]
  · simp only [run_signals, i2c_signal, hA, hB]
  · simp only [run_signals, i2c_signal, hA, hB, hC]
  · simp
  · rw [sm_set_sm, b1]
  · rw [sm_set_sm_other, ← hsB, sm_set_sm_other, hw_write_sm, hw_write_sm, ← hsA,
      sm_set_sm_other, hw_write_sm]
  · rw [set_sm_mem, ← hsB]; simp [← hsA]
  · rw [set_sm_event_scheduled, ← hsB]; simp [← hsA]
  · rw [set_sm_lowest_energy_mode, ← hsB]; simp [← hsA]
  · rw [set_sm_left_shift_val, ← hsB]; simp [← hsA]

theorem i2c_receive_sm_more (b : Bus) (s : System) (rxdata : Nat)
    (hst : (s.sm b).curr_state = .read_data) (hn : dec32 (s.sm b).number_bytes ≠ 0) :
    i2c_receive_sm s b rxdata = .ret
      (((s.mem_write (s.sm b).num_data
            (store_rx_byte (s.mem_read (s.sm b).num_data) (dec32 (s.sm b).number_bytes)
              rxdata)).hw_write (.CMD (s.sm b).i2c_state .ACK)).set_sm b
        { s.sm b with number_bytes := dec32 (s.sm b).number_bytes, curr_state := .read_data }) := by
  unfold i2c_receive_sm
  simp only [hst, hn, if_false]

theorem i2c_receive_sm_last (b : Bus) (s : System) (rxdata : Nat)
    (hst : (s.sm b).curr_state = .read_data) (hn : dec32 (s.sm b).number_bytes = 0) :
    i2c_receive_sm s b rxdata = .ret
      ((((s.mem_write (s.sm b).num_data
            (store_rx_byte (s.mem_read (s.sm b).num_data) 0 rxdata)).hw_write
            (.CMD (s.sm b).i2c_state .NACK)).hw_write (.CMD (s.sm b).i2c_state .STOP)).set_sm b
        { s.sm b with number_bytes := 0, curr_state := .stop_data }) := by
  unfold i2c_receive_sm
  simp only [hst, hn, if_true]

theorem mem_read_mem_write_other (s : System) (p q v : Nat) (h : q ≠ p) :
    (s.mem_write p v).mem_read q = s.mem_read q := by
  have h1 : p ≠ q := fun e => h e.symm
  simp [System.mem_read, System.mem_write, List.getD_eq_getElem?_getD, List.getElem?_set, h1]

theorem dec32_of_pos (n : Nat) (h1 : 1 ≤ n) (h2 : n < UINT32_MOD) : dec32 n = n - 1 := by
  unfold dec32 UINT32_MOD at *
  omega

theorem receive_prefix_run (b : Bus) :
    ∀ (bs : List Nat) (s : System), (s.sm b).curr_state = .read_data →
      bs.length < (s.sm b).number_bytes → (s.sm b).number_bytes < UINT32_MOD →
      (s.sm b).num_data < s.mem.length →
      ∃ s1, run_signals s b (bs.map .RXDATAV) = .ret s1
        ∧ s1.hw = s.hw ++ List.replicate bs.length (.CMD (s.sm b).i2c_state .ACK)
        ∧ s1.sm b = { s.sm b with number_bytes := (s.sm b).number_bytes - bs.length,
                                  curr_state := .read_data }
        ∧ s1.mem_read (s.sm b).num_data
            = store_rx_bytes (s.mem_read (s.sm b).num_data) (s.sm b).number_bytes bs
        ∧ (∀ q, q ≠ (s.sm b).num_data → s1.mem_read q = s.mem_read q)
        ∧ s1.mem.length = s.mem.length
        ∧ s1.sm b.other = s.sm b.other
        ∧ s1.event_scheduled = s.event_scheduled
        ∧ s1.lowest_energy_mode = s.lowest_energy_mode
        ∧ s1.left_shift_val = s.left_shift_val := by
  intro bs
  induction bs with
  | nil =>
    intro s hst _ _ _
    refine ⟨s, rfl, by simp, ?_, rfl, fun _ _ => rfl, rfl, rfl, rfl, rfl, rfl⟩
    rw [← hst]
    simp
  | cons x rest ih =>
    intro s hst hlen hlt hp
    simp only [List.length_cons] at hlen
    have hd : dec32 (s.sm b).number_bytes = (s.sm b).number_bytes - 1 :=
      dec32_of_pos _ (by omega) hlt
    have hstep := i2c_receive_sm_more b s x hst (by rw [hd]; omega)
    generalize hs2 : (((s.mem_write (s.sm b).num_data
            (store_rx_byte (s.mem_read (s.sm b).num_data) (dec32 (s.sm b).number_bytes)
              x)).hw_write (.CMD (s.sm b).i2c_state .ACK)).set_sm b
        { s.sm b with number_bytes := dec32 (s.sm b).number_bytes,
                      curr_state := .read_data }) = s2 at hstep
    have e1 : s2.sm b =
        { s.sm b with number_bytes := dec32 (s.sm b).number_bytes, curr_state := .read_data } := by
      rw [← hs2, sm_set_sm]
    have e2 : s2.hw = s.hw ++ [.CMD (s.sm b).i2c_state .ACK] := by rw [← hs2]; simp
    have e3 : s2.mem_read (s.sm b).num_data
        = store_rx_byte (s.mem_read (s.sm b).num_data) (dec32 (s.sm b).number_bytes) x := by
      rw [← hs2]
      simp only [set_sm_mem_read, hw_write_mem_read]
      exact mem_read_mem_write s _ _ hp
    have e4 : ∀ q, q ≠ (s.sm b).num_data → s2.mem_read q = s.mem_read q := by
      intro q hq
      rw [← hs2]
      simp only [set_sm_mem_read, hw_write_mem_read]
      exact mem_read_mem_write_other s _ _ _ hq
    have e5 : s2.mem.length = s.mem.length := by rw [← hs2]; simp
    have e6 : s2.sm b.other = s.sm b.other := by rw [← hs2]; simp
    have e7 : s2.event_scheduled = s.event_scheduled := by rw [← hs2]; simp
    have e8 : s2.lowest_energy_mode = s.lowest_energy_mode := by rw [← hs2]; simp
    have e9 : s2.left_shift_val = s.left_shift_val := by rw [← hs2]; simp
    obtain ⟨s1, hrun, hhw, hsm, hmem, hoth, hl, ho, hev, htab, hlsv⟩ := ih s2
      (by rw [e1]) (by rw [e1]; simp only [hd]; omega) (by rw [e1]; simp only [hd]; omega)
      (by rw [e1, e5]; exact hp)
    refine ⟨s1, ?_, ?_, ?_, ?_, ?_, ?_, ?_, ?_, ?_, ?_⟩
    · simp only [List.map_cons, run_signals, i2c_signal, hstep]
      exact hrun
    · rw [hhw, e2, e1]
      simp [List.replicate_succ]
    · rw [hsm, e1]
      have hnum : (s.sm b).number_bytes - 1 - rest.length
          = (s.sm b).number_bytes - (rest.length + 1) := by omega
      simp only [hd, List.length_cons, hnum]
    · rw [e1] at hmem
      simp only at hmem
      rw [hmem, e3]
      rfl
    · intro q hq
      rw [e1] at hoth
      rw [hoth q hq, e4 q hq]
    · rw [hl, e5]
    · rw [ho, e6]
    · rw [hev, e7]
    · rw [htab, e8]
    · rw [hlsv, e9]

theorem receive_more_step (b : Bus) (s : System) (x : Nat)
    (hst : (s.sm b).curr_state = .read_data) (h2 : 2 ≤ (s.sm b).number_bytes)
    (hlt : (s.sm b).number_bytes < UINT32_MOD) (hp : (s.sm b).num_data < s.mem.length) :
    ∃ s2, i2c_receive_sm s b x = .ret s2
      ∧ s2.sm b = { s.sm b with number_bytes := (s.sm b).number_bytes - 1 }
      ∧ s2.hw = s.hw ++ [.CMD (s.sm b).i2c_state .ACK]
      ∧ s2.mem_read (s.sm b).num_data
          = store_rx_byte (s.mem_read (s.sm b).num_data) (dec32 (s.sm b).number_bytes) x
      ∧ (∀ q, q ≠ (s.sm b).num_data → s2.mem_read q = s.mem_read q)
      ∧ s2.mem.length = s.mem.length
      ∧ s2.sm b.other = s.sm b.other
      ∧ s2.event_scheduled = s.event_scheduled
      ∧ s2.lowest_energy_mode = s.lowest_energy_mode
      ∧ s2.left_shift_val = s.left_shift_val := by
  have hd : dec32 (s.sm b).number_bytes = (s.sm b).number_bytes - 1 :=
    dec32_of_pos _ (by omega) hlt
  refine ⟨_, i2c_receive_sm_more b s x hst (by rw [hd]; omega), ?_, by simp, ?_, ?_, by simp,
    by simp, by simp, by simp, by simp⟩
  · rw [sm_set_sm, hd, ← hst]
  · simp only [set_sm_mem_read, hw_write_mem_read]
    exact mem_read_mem_write s _ _ hp
  · intro q hq
    simp only [set_sm_mem_read, hw_write_mem_read]
    exact mem_read_mem_write_other s _ _ _ hq

theorem receive_last_step (b : Bus) (s : System) (x : Nat)
    (hst : (s.sm b).curr_state = .read_data) (h1 : (s.sm b).number_bytes = 1)
    (hp : (s.sm b).num_data < s.mem.length) :
    ∃ s2, i2c_receive_sm s b x = .ret s2
      ∧ s2.sm b = { s.sm b with number_bytes := 0, curr_state := .stop_data }
      ∧ s2.hw = s.hw ++ [.CMD (s.sm b).i2c_state .NACK, .CMD (s.sm b).i2c_state .STOP]
      ∧ s2.mem_read (s.sm b).num_data = store_rx_byte (s.mem_read (s.sm b).num_data) 0 x
      ∧ (∀ q, q ≠ (s.sm b).num_data → s2.mem_read q = s.mem_read q)
      ∧ s2.mem.length = s.mem.length
      ∧ s2.sm b.other = s.sm b.other
      ∧ s2.event_scheduled = s.event_scheduled
      ∧ s2.lowest_energy_mode = s.lowest_energy_mode
      ∧ s2.left_shift_val = s.left_shift_val := by
  have hd : dec32 (s.sm b).number_bytes = 0 := by rw [h1]; decide
  refine ⟨_, i2c_receive_sm_last b s x hst hd, by simp, by simp, ?_, ?_, by simp,
    by simp, by simp, by simp, by simp⟩
  · simp only [set_sm_mem_read, hw_write_mem_read]
    exact mem_read_mem_write s _ _ hp
  · intro q hq
    simp only [set_sm_mem_read, hw_write_mem_read]
    exact mem_read_mem_write_other s _ _ _ hq

theorem receive_full_run (b : Bus) :
    ∀ (bs : List Nat) (s : System), (s.sm b).curr_state = .read_data →
      (s.sm b).number_bytes = bs.length → 1 ≤ bs.length → bs.length < UINT32_MOD →
      (s.sm b).num_data < s.mem.length →
      ∃ s1, run_signals s b (bs.map .RXDATAV) = .ret s1
        ∧ s1.hw = s.hw ++ List.replicate (bs.length - 1) (.CMD (s.sm b).i2c_state .ACK)
            ++ [.CMD (s.sm b).i2c_state .NACK, .CMD (s.sm b).i2c_state .STOP]
        ∧ s1.sm b = { s.sm b with number_bytes := 0, curr_state := .stop_data }
        ∧ s1.mem_read (s.sm b).num_data
            = store_rx_bytes (s.mem_read (s.sm b).num_data) bs.length bs
        ∧ (∀ q, q ≠ (s.sm b).num_data → s1.mem_read q = s.mem_read q)
        ∧ s1.mem.length = s.mem.length
        ∧ s1.sm b.other = s.sm b.other
        ∧ s1.event_scheduled = s.event_scheduled
        ∧ s1.lowest_energy_mode = s.lowest_energy_mode
        ∧ s1.left_shift_val = s.left_shift_val := by
  intro bs
  induction bs with
  | nil => intro s _ _ h1 _ _; simp at h1
  | cons x rest ih =>
    intro s hst hn _ hlt hp
    cases rest with
    | nil =>
      obtain ⟨s2, hstep, e1, e2, e3, e4, e5, e6, e7, e8, e9⟩ :=
        receive_last_step b s x hst (by simpa using hn) hp
      refine ⟨s2, ?_, ?_, e1, ?_, e4, e5, e6, e7, e8, e9⟩
      · simp only [List.map_cons, List.map_nil, run_signals, i2c_signal, hstep]
      · rw [e2]; simp
      · rw [e3]
        have hd : dec32 1 = 0 := by decide
        simp only [List.length_singleton, store_rx_bytes, hd]
    | cons y ys =>
      simp only [List.length_cons] at hn hlt
      obtain ⟨s2, hstep, e1, e2, e3, e4, e5, e6, e7, e8, e9⟩ :=
        receive_more_step b s x hst (by omega) (by omega) hp
      have hnb : (s2.sm b).number_bytes = (y :: ys).length := by
        rw [e1]; simp only [List.length_cons]; omega
      obtain ⟨s1, hrun, hhw, hsm, hmem, hoth, hl, ho, hev, htab, hlsv⟩ := ih s2
        (by rw [e1]; exact hst) hnb (by simp) (by simp only [List.length_cons]; omega)
        (by rw [e1, e5]; exact hp)
      have hd : dec32 (s.sm b).number_bytes = (y :: ys).length := by
        rw [dec32_of_pos _ (by omega) (by omega), hn]; simp
      refine ⟨s1, ?_, ?_, ?_, ?_, ?_, ?_, ?_, ?_, ?_, ?_⟩
      · rw [List.map_cons]
        simp only [run_signals, i2c_signal, hstep]
        exact hrun
      · rw [hhw, e2, e1]
        simp [List.replicate_succ]
      · rw [hsm, e1]
      · rw [e1] at hmem
        simp only at hmem
        rw [hmem, e3, hd]
        have hd2 : dec32 (ys.length + 1 + 1) = ys.length + 1 := dec32_succ _ hlt
        simp only [store_rx_bytes, List.length_cons, hd2]
      · intro q hq
        rw [e1] at hoth
        rw [hoth q hq, e4 q hq]
      · rw [hl, e5]
      · rw [ho, e6]
      · rw [hev, e7]
      · rw [htab, e8]
      · rw [hlsv, e9]

theorem tx_writes_append : ∀ (xs ys : List HwWrite),
    tx_writes (xs ++ ys) = tx_writes xs ++ tx_writes ys := by
  intro xs
  induction xs with
  | nil => intro ys; rfl
  | cons x xs ih =>
    intro ys
    cases x with
    | CMD i c => simp [tx_writes, ih]
    | TXDATA i v => simp [tx_writes, ih]

theorem tx_writes_map_TXDATA (i2c : I2C_TypeDef) : ∀ (vs : List Nat),
    tx_writes (vs.map (HwWrite.TXDATA i2c)) = vs := by
  intro vs
  induction vs with
  | nil => rfl
  | cons v vs ih => simp [tx_writes, ih]

theorem tx_writes_replicate_CMD (i2c : I2C_TypeDef) (c : I2C_CMD) : ∀ (n : Nat),
    tx_writes (List.replicate n (HwWrite.CMD i2c c)) = [] := by
  intro n
  induction n with
  | zero => rfl
  | succ n ih => simp [List.replicate_succ, tx_writes, ih]

theorem i2c_ack_sm_frame (b : Bus) (s : System) :
    ∃ s1, i2c_ack_sm s b = .ret s1
      ∧ s1.event_scheduled = s.event_scheduled
      ∧ s1.lowest_energy_mode = s.lowest_energy_mode
      ∧ s1.mem = s.mem
      ∧ (s1.sm b).not_available = (s.sm b).not_available
      ∧ (s1.sm b).callback_i2c = (s.sm b).callback_i2c
      ∧ s1.sm b.other = s.sm b.other := by
  unfold i2c_ack_sm
  cases hst : (s.sm b).curr_state with
  | init_process =>
    simp only [hst]
    by_cases h0 : (s.sm b).counter_var = 0
    · rw [if_pos h0]
      exact ⟨_, rfl, by simp, by simp, by simp, by simp, by simp, by simp⟩
    · rw [if_neg h0]
      by_cases h1 : (s.sm b).counter_var = 1
      · rw [if_pos h1]
        by_cases hrw : (s.sm b).read_write_op = 0
        · rw [if_pos hrw]
          exact ⟨_, rfl, by simp, by simp, by simp, by simp, by simp, by simp⟩
        · rw [if_neg hrw]
          exact ⟨_, rfl, by simp, by simp, by simp, by simp, by simp, by simp⟩
      · rw [if_neg h1]
        by_cases h2 : (s.sm b).counter_var = 2
        · rw [if_pos h2]
          exact ⟨_, rfl, by simp, by simp, by simp, by simp, by simp, by simp⟩
        · rw [if_neg h2]
          by_cases h3 : (s.sm b).counter_var = 3
          · rw [if_pos h3]
            exact ⟨_, rfl, by simp, by simp, by simp, by simp, by simp, by simp⟩
          · rw [if_neg h3]
            exact ⟨s, rfl, rfl, rfl, rfl, rfl, rfl, rfl⟩
  | read_data =>
    simp only [hst]
    exact ⟨s, rfl, rfl, rfl, rfl, rfl, rfl, rfl⟩
  | stop_data =>
    simp only [hst]
    exact ⟨s, rfl, rfl, rfl, rfl, rfl, rfl, rfl⟩
  | write_data =>
    simp only [hst]
    by_cases hp : (s.sm b).number_bytes > 0
    · rw [if_pos hp]
      exact ⟨_, rfl, by simp, by simp, by simp, by simp, by simp, by simp⟩
    · rw [if_neg hp]
      by_cases hz : (s.sm b).number_bytes = 0
      · rw [if_pos hz]
        exact ⟨_, rfl, by simp, by simp, by simp, by simp, by simp, by simp⟩
      · rw [if_neg hz]
        exact ⟨s, rfl, rfl, rfl, rfl, rfl, rfl, rfl⟩

theorem i2c_receive_sm_frame (b : Bus) (s : System) (rxdata : Nat) :
    (i2c_receive_sm s b rxdata).state.event_scheduled = s.event_scheduled
      ∧ (i2c_receive_sm s b rxdata).state.lowest_energy_mode = s.lowest_energy_mode
      ∧ ((i2c_receive_sm s b rxdata).state.sm b).not_available = (s.sm b).not_available
      ∧ ((i2c_receive_sm s b rxdata).state.sm b).callback_i2c = (s.sm b).callback_i2c
      ∧ (i2c_receive_sm s b rxdata).state.sm b.other = s.sm b.other := by
  unfold i2c_receive_sm
  cases hst : (s.sm b).curr_state with
  | read_data =>
    simp only [hst]
    split <;> simp [Outcome.state]
  | init_process => simp [hst, Outcome.state]
  | stop_data => simp [hst, Outcome.state]
  | write_data => simp [hst, Outcome.state]

theorem i2c_receive_sm_wrong_phase (b : Bus) (s : System) (rxdata : Nat)
    (h : (s.sm b).curr_state ≠ .read_data) : i2c_receive_sm s b rxdata = .assert_failed s := by
  unfold i2c_receive_sm
  cases hst : (s.sm b).curr_state with
  | read_data => exact absurd hst h
  | init_process => simp only [hst]
  | stop_data => simp only [hst]
  | write_data => simp only [hst]

theorem i2c_msstop_sm_wrong_phase (b : Bus) (s : System)
    (h : (s.sm b).curr_state ≠ .stop_data) : i2c_msstop_sm s b = .assert_failed s := by
  unfold i2c_msstop_sm
  cases hst : (s.sm b).curr_state with
  | stop_data => exact absurd hst h
  | init_process => simp only [hst]
  | read_data => simp only [hst]
  | write_data => simp only [hst]

theorem i2c_msstop_sm_stop (b : Bus) (s : System) (hst : (s.sm b).curr_state = .stop_data)
    (hwf : s.lowest_energy_mode.wf) (h1 : 1 ≤ count_at s.lowest_energy_mode I2C_EM_BLOCK)
    (hmax : count_at s.lowest_energy_mode I2C_EM_BLOCK ≤ INT_MAX) :
    i2c_msstop_sm s b = .ret
      (((s.set_lowest_energy_mode (s.lowest_energy_mode.set I2C_EM_BLOCK
            (count_at s.lowest_energy_mode I2C_EM_BLOCK - 1))).set_sm b
          { s.sm b with not_available := false }).set_event_scheduled
        (add_scheduled_event s.event_scheduled (s.sm b).callback_i2c)) := by
  have hlen : I2C_EM_BLOCK < s.lowest_energy_mode.length := by
    rw [hwf]; decide
  have hmin : INT_MIN < count_at s.lowest_energy_mode I2C_EM_BLOCK := by
    unfold INT_MIN; omega
  have hun := sleep_unblock_mode_eq s.lowest_energy_mode I2C_EM_BLOCK hmin hmax
  rw [count_at_set_same _ _ _ hlen, if_pos (by omega)] at hun
  unfold i2c_msstop_sm
  simp only [hst, hun, set_sm_event_scheduled, set_lowest_energy_mode_event_scheduled]

theorem table_block_unblock (t : EnergyTable) (d : Nat) (hd : d < t.length) :
    (t.set d (count_at t d + 1)).set d
        (count_at (t.set d (count_at t d + 1)) d - 1) = t := by
  rw [count_at_set_same t d _ hd]
  apply List.ext_getElem
  · simp
  · intro i h1 h2
    by_cases hi : d = i
    · subst hi
      simp [count_at, List.getD_eq_getElem?_getD, hd]
    · simp [List.getElem_set, hi]

theorem started_system_sm (s : System) (i2c : I2C_TypeDef) (b : Bus)
    (device_add register_add read_write callback data n : Nat) :
    (started_system s i2c b device_add register_add read_write callback data n).sm b
      = started_sm i2c device_add register_add read_write callback data n := by
  simp [started_system]

theorem started_system_sm_other (s : System) (i2c : I2C_TypeDef) (b : Bus)
    (device_add register_add read_write callback data n : Nat) :
    (started_system s i2c b device_add register_add read_write callback data n).sm b.other
      = s.sm b.other := by
  cases b <;> rfl

theorem started_system_table (s : System) (i2c : I2C_TypeDef) (b : Bus)
    (device_add register_add read_write callback data n : Nat) :
    (started_system s i2c b device_add register_add read_write callback data n).lowest_energy_mode
      = s.lowest_energy_mode.set I2C_EM_BLOCK (count_at s.lowest_energy_mode I2C_EM_BLOCK + 1) := by
  simp [started_system]

theorem started_system_event (s : System) (i2c : I2C_TypeDef) (b : Bus)
    (device_add register_add read_write callback data n : Nat) :
    (started_system s i2c b device_add register_add read_write callback data n).event_scheduled
      = s.event_scheduled := by
  simp [started_system]

theorem started_system_mem (s : System) (i2c : I2C_TypeDef) (b : Bus)
    (device_add register_add read_write callback data n : Nat) :
    (started_system s i2c b device_add register_add read_write callback data n).mem = s.mem := by
  simp [started_system]

theorem started_system_hw (s : System) (i2c : I2C_TypeDef) (b : Bus)
    (device_add register_add read_write callback data n : Nat) :
    (started_system s i2c b device_add register_add read_write callback data n).hw
      = s.hw ++ [.CMD i2c .START,
          .TXDATA i2c (((device_add <<< 1) ||| WRITE_OP) % UINT32_MOD)] := by
  simp [started_system]

theorem stop_after_start (b : Bus) (s s2 : System)
    (hst : (s2.sm b).curr_state = .stop_data) (hwf : s.lowest_energy_mode.wf)
    (h0 : 0 ≤ count_at s.lowest_energy_mode I2C_EM_BLOCK)
    (hceil : count_at s.lowest_energy_mode I2C_EM_BLOCK + 1 < 5)
    (htab : s2.lowest_energy_mode
      = s.lowest_energy_mode.set I2C_EM_BLOCK (count_at s.lowest_energy_mode I2C_EM_BLOCK + 1)) :
    ∃ s3, i2c_msstop_sm s2 b = .ret s3
      ∧ s3.lowest_energy_mode = s.lowest_energy_mode
      ∧ s3.event_scheduled = add_scheduled_event s2.event_scheduled (s2.sm b).callback_i2c
      ∧ s3.sm b = { s2.sm b with not_available := false }
      ∧ s3.sm b.other = s2.sm b.other ∧ s3.hw = s2.hw ∧ s3.mem = s2.mem
      ∧ s3.left_shift_val = s2.left_shift_val := by
  have hlen : I2C_EM_BLOCK < s.lowest_energy_mode.length := by
    rw [hwf]; decide
  have hc : count_at s2.lowest_energy_mode I2C_EM_BLOCK
      = count_at s.lowest_energy_mode I2C_EM_BLOCK + 1 := by
    rw [htab]; exact count_at_set_same _ _ _ hlen
  have hwf2 : s2.lowest_energy_mode.wf := by
    rw [htab]
    unfold EnergyTable.wf at *
    simpa using hwf
  refine ⟨_, i2c_msstop_sm_stop b s2 hst hwf2 (by rw [hc]; omega)
    (by rw [hc]; unfold INT_MAX; omega), ?_, by simp, by simp, by simp, by simp, by simp,
    by simp⟩
  simp only [set_event_scheduled_lowest_energy_mode, set_sm_lowest_energy_mode,
    set_lowest_energy_mode_lowest_energy_mode]
  rw [htab]
  exact table_block_unblock s.lowest_energy_mode I2C_EM_BLOCK hlen

theorem signal_frame (b : Bus) (s : System) (x : I2C_Signal) (hx : x ≠ .MSTOP) :
    (i2c_signal s b x).state.event_scheduled = s.event_scheduled
      ∧ (i2c_signal s b x).state.lowest_energy_mode = s.lowest_energy_mode
      ∧ ((i2c_signal s b x).state.sm b).not_available = (s.sm b).not_available := by
  cases x with
  | ACK =>
    obtain ⟨s1, h, e1, e2, _, e4, _⟩ := i2c_ack_sm_frame b s
    simp only [i2c_signal, h, Outcome.state]
    exact ⟨e1, e2, e4⟩
  | RXDATAV r =>
    obtain ⟨e1, e2, e3, _⟩ := i2c_receive_sm_frame b s r
    exact ⟨e1, e2, e3⟩
  | MSTOP => exact absurd rfl hx

theorem run_signals_frame (b : Bus) : ∀ (sigs : List I2C_Signal) (s : System),
    (∀ x ∈ sigs, x ≠ .MSTOP) →
    (run_signals s b sigs).state.event_scheduled = s.event_scheduled
      ∧ (run_signals s b sigs).state.lowest_energy_mode = s.lowest_energy_mode
      ∧ ((run_signals s b sigs).state.sm b).not_available = (s.sm b).not_available := by
  intro sigs
  induction sigs with
  | nil => intro s _; exact ⟨rfl, rfl, rfl⟩
  | cons x xs ih =>
    intro s h
    have hx := signal_frame b s x (h x (List.mem_cons_self _ _))
    simp only [run_signals]
    cases hs : i2c_signal s b x with
    | ret s1 =>
      rw [hs] at hx
      simp only [Outcome.state] at hx
      have h1 := ih s1 (fun y hy => h y (List.mem_cons_of_mem _ hy))
      simp only
      rw [h1.1, h1.2.1, h1.2.2]
      exact hx
    | assert_failed s1 =>
      rw [hs] at hx
      exact hx
    | out_of_fuel s1 =>
      rw [hs] at hx
      exact hx

theorem signal_after_handshake (b : Bus) (s : System) (x : I2C_Signal)
    (h : (s.sm b).curr_state = .read_data ∨ (s.sm b).curr_state = .stop_data) :
    tx_writes (i2c_signal s b x).state.hw = tx_writes s.hw
      ∧ ∀ s1, i2c_signal s b x = .ret s1 →
          (s1.sm b).curr_state = .read_data ∨ (s1.sm b).curr_state = .stop_data := by
  cases x with
  | ACK =>
    have hack : i2c_ack_sm s b = .ret s := by
      unfold i2c_ack_sm
      rcases h with h | h <;> simp only [h]
    rw [i2c_signal, hack]
    refine ⟨rfl, ?_⟩
    intro s1 hs1
    cases hs1
    exact h
  | RXDATAV r =>
    simp only [i2c_signal]
    rcases h with h | h
    · by_cases hn : dec32 (s.sm b).number_bytes = 0
      · rw [i2c_receive_sm_last b s r h hn]
        refine ⟨by simp [Outcome.state, tx_writes_append, tx_writes], ?_⟩
        intro s1 hs1
        cases hs1
        right
        simp
      · rw [i2c_receive_sm_more b s r h hn]
        refine ⟨by simp [Outcome.state, tx_writes_append, tx_writes], ?_⟩
        intro s1 hs1
        cases hs1
        left
        simp
    · rw [i2c_receive_sm_wrong_phase b s r (by rw [h]; decide)]
      exact ⟨rfl, fun s1 hs1 => by cases hs1⟩
  | MSTOP =>
    simp only [i2c_signal]
    rcases h with h | h
    · rw [i2c_msstop_sm_wrong_phase b s (by rw [h]; decide)]
      exact ⟨rfl, fun s1 hs1 => by cases hs1⟩
    · unfold i2c_msstop_sm
      simp only [h]
      cases sleep_unblock_mode s.lowest_energy_mode I2C_EM_BLOCK with
      | ret t =>
        refine ⟨by simp [Outcome.state], ?_⟩
        intro s1 hs1
        cases hs1
        right
        simp [h]
      | assert_failed t => exact ⟨by simp [Outcome.state], fun s1 hs1 => by cases hs1⟩
      | out_of_fuel t => exact ⟨by simp [Outcome.state], fun s1 hs1 => by cases hs1⟩

theorem run_after_handshake (b : Bus) : ∀ (sigs : List I2C_Signal) (s : System),
    ((s.sm b).curr_state = .read_data ∨ (s.sm b).curr_state = .stop_data) →
    tx_writes (run_signals s b sigs).state.hw = tx_writes s.hw := by
  intro sigs
  induction sigs with
  | nil => intro s _; rfl
  | cons x xs ih =>
    intro s h
    have hx := signal_after_handshake b s x h
    simp only [run_signals]
    cases hs : i2c_signal s b x with
    | ret s1 =>
      rw [hs] at hx
      simp only
      rw [ih s1 (hx.2 s1 rfl)]
      exact hx.1
    | assert_failed s1 =>
      rw [hs] at hx
      exact hx.1
    | out_of_fuel s1 =>
      rw [hs] at hx
      exact hx.1

/-! ## Bytes of the receive buffer -/

theorem shl32_lt (x n : Nat) : shl32 x n < UINT32_MOD := Nat.mod_lt _ (by decide)

theorem shl32_testBit (x n p : Nat) :
    (shl32 x n).testBit p = (decide (p < 32) && (decide (n ≤ p) && x.testBit (p - n))) := by
  unfold shl32
  rw [uint32_mod_eq, Nat.testBit_mod_two_pow, Nat.testBit_shiftLeft]

theorem testBit_255 (q : Nat) : Nat.testBit 255 q = decide (q < 8) := by
  have : (255 : Nat) = 2 ^ 8 - 1 := by norm_num
  rw [this, Nat.testBit_two_pow_sub_one]

theorem testBit_byte_high (x q : Nat) (hx : x < 256) (hq : 8 ≤ q) : x.testBit q = false := by
  apply Nat.testBit_lt_two_pow
  calc x < 2 ^ 8 := by simpa using hx
    _ ≤ 2 ^ q := Nat.pow_le_pow_right (by decide) hq

theorem testBit_u32_high (v p : Nat) (hv : v < UINT32_MOD) (hp : 32 ≤ p) :
    v.testBit p = false := by
  rw [uint32_mod_eq] at hv
  apply Nat.testBit_lt_two_pow
  calc v < 2 ^ 32 := hv
    _ ≤ 2 ^ p := Nat.pow_le_pow_right (by decide) hp

theorem store_rx_byte_testBit (v j x p : Nat) (hv : v < UINT32_MOD) (hj : j ≤ 3)
    (hx : x < 256) :
    (store_rx_byte v j x).testBit p
      = if 8 * j ≤ p ∧ p < 8 * j + 8 then x.testBit (p - 8 * j) else v.testBit p := by
  have hs : (BIT_SHIFT_EIGHT * j) % UINT32_MOD = 8 * j := by
    unfold BIT_SHIFT_EIGHT UINT32_MOD
    omega
  unfold store_rx_byte
  rw [hs, Nat.testBit_or, Nat.testBit_and, bit_not32_testBit _ (shl32_lt _ _), shl32_testBit,
    shl32_testBit, testBit_255]
  by_cases h1 : 8 * j ≤ p
  · by_cases h2 : p < 8 * j + 8
    · have h3 : p < 32 := by omega
      have h4 : p - 8 * j < 8 := by omega
      simp [h1, h2, h3, h4]
    · have h4 : ¬ p - 8 * j < 8 := by omega
      have h5 : x.testBit (p - 8 * j) = false := testBit_byte_high x _ hx (by omega)
      by_cases h3 : p < 32
      · simp [h1, h2, h3, h4, h5]
      · simp [h1, h2, h3, h4, h5, testBit_u32_high v p hv (by omega)]
  · have h2 : ¬ (8 * j ≤ p ∧ p < 8 * j + 8) := fun h => h1 h.1
    have h3 : p < 32 := by omega
    simp [h1, h3]

theorem byte_slot_testBit (y k i : Nat) :
    (byte_slot y k).testBit i = (decide (i < 8) && y.testBit (8 * k + i)) := by
  unfold byte_slot
  have : (256 : Nat) = 2 ^ 8 := by norm_num
  rw [this, Nat.testBit_mod_two_pow, Nat.testBit_shiftRight]

theorem byte_slot_store_rx_byte (v j x k : Nat) (hv : v < UINT32_MOD) (hj : j ≤ 3)
    (hx : x < 256) :
    byte_slot (store_rx_byte v j x) k = if k = j then x else byte_slot v k := by
  apply Nat.eq_of_testBit_eq
  intro i
  rw [byte_slot_testBit, store_rx_byte_testBit v j x _ hv hj hx]
  by_cases hk : k = j
  · subst hk
    by_cases hi : i < 8
    · have : 8 * k ≤ 8 * k + i ∧ 8 * k + i < 8 * k + 8 := ⟨by omega, by omega⟩
      simp [hi, this]
    · simp [hi, testBit_byte_high x i hx (by omega)]
  · by_cases hi : i < 8
    · have : ¬ (8 * j ≤ 8 * k + i ∧ 8 * k + i < 8 * j + 8) := by omega
      simp [hk, hi, this, byte_slot_testBit]
    · simp [hk, hi, byte_slot_testBit]

theorem store_rx_byte_lt (v j x : Nat) (hv : v < UINT32_MOD) :
    store_rx_byte v j x < UINT32_MOD := by
  unfold store_rx_byte
  rw [uint32_mod_eq] at *
  apply Nat.or_lt_two_pow
  · exact lt_of_le_of_lt Nat.and_le_left hv
  · have := shl32_lt x ((BIT_SHIFT_EIGHT * j) % 2 ^ 32)
    rwa [uint32_mod_eq] at this

theorem u32_eq_bytes (y : Nat) (hy : y < UINT32_MOD) :
    y = byte_slot y 0 + 256 * byte_slot y 1 + 65536 * byte_slot y 2
      + 16777216 * byte_slot y 3 := by
  unfold byte_slot
  simp only [Nat.shiftRight_eq_div_pow]
  norm_num
  unfold UINT32_MOD at hy
  omega

theorem store_rx_bytes_lt : ∀ (bs : List Nat) (v n : Nat), v < UINT32_MOD →
    store_rx_bytes v n bs < UINT32_MOD := by
  intro bs
  induction bs with
  | nil => intro v n hv; exact hv
  | cons x rest ih =>
    intro v n hv
    simp only [store_rx_bytes]
    exact ih _ _ (store_rx_byte_lt v _ x hv)

theorem byte_slot_store_rx_bytes : ∀ (bs : List Nat) (v : Nat), bs.length ≤ 4 →
    v < UINT32_MOD → (∀ x ∈ bs, x < 256) →
    ∀ k, byte_slot (store_rx_bytes v bs.length bs) k
      = if k < bs.length then bs.getD (bs.length - 1 - k) 0 else byte_slot v k := by
  intro bs
  induction bs with
  | nil => intro v _ _ _ k; simp [store_rx_bytes]
  | cons x rest ih =>
    intro v hlen hv hb k
    simp only [List.length_cons] at hlen
    have hd : dec32 (rest.length + 1) = rest.length :=
      dec32_succ _ (by unfold UINT32_MOD; omega)
    have hx : x < 256 := hb x (List.mem_cons_self _ _)
    have hrest : ∀ y ∈ rest, y < 256 := fun y hy => hb y (List.mem_cons_of_mem _ hy)
    simp only [store_rx_bytes, List.length_cons, hd]
    rw [ih _ (by omega) (store_rx_byte_lt v _ x hv) hrest k,
      byte_slot_store_rx_byte v rest.length x k hv (by omega) hx]
    by_cases h1 : k < rest.length
    · have h2 : k < rest.length + 1 := by omega
      obtain ⟨m, hm⟩ : ∃ m, rest.length + 1 - 1 - k = m + 1 := ⟨rest.length - 1 - k, by omega⟩
      have h3 : rest.length - 1 - k = m := by omega
      simp only [h1, h2, if_true, hm, h3, List.getD_cons_succ]
    · by_cases h2 : k = rest.length
      · subst h2
        simp
      · have h3 : ¬ k < rest.length + 1 := by omega
        simp only [h1, h2, h3, if_false]

theorem big_endian_cons (x : Nat) (xs : List Nat) :
    big_endian (x :: xs) = x * 256 ^ xs.length + big_endian xs := by
  unfold big_endian
  have key : ∀ (ys : List Nat) (a : Nat),
      ys.foldl (fun acc y => acc * 256 + y) a
        = a * 256 ^ ys.length + ys.foldl (fun acc y => acc * 256 + y) 0 := by
    intro ys
    induction ys with
    | nil => intro a; simp
    | cons y ys ih =>
      intro a
      simp only [List.foldl_cons, List.length_cons]
      rw [ih (a * 256 + y), ih (0 * 256 + y)]
      ring
  simp only [List.foldl_cons]
  rw [key xs (0 * 256 + x)]
  simp

theorem byte_slot_zero (x : Nat) : byte_slot x 0 = x % 256 := by
  simp [byte_slot]

theorem byte_slot_one (x : Nat) : byte_slot x 1 = x / 256 % 256 := by
  simp [byte_slot, Nat.shiftRight_eq_div_pow]

theorem byte_slot_two (x : Nat) : byte_slot x 2 = x / 65536 % 256 := by
  simp [byte_slot, Nat.shiftRight_eq_div_pow]

theorem byte_slot_three (x : Nat) : byte_slot x 3 = x / 16777216 % 256 := by
  simp [byte_slot, Nat.shiftRight_eq_div_pow]

theorem store_rx_bytes_value (bs : List Nat) (v : Nat) (h1 : 1 ≤ bs.length)
    (h4 : bs.length ≤ 4) (hv : v < UINT32_MOD) (hb : ∀ x ∈ bs, x < 256) :
    store_rx_bytes v bs.length bs
      = v / 256 ^ bs.length * 256 ^ bs.length + big_endian bs := by
  have hR := store_rx_bytes_lt bs v bs.length hv
  have hs := byte_slot_store_rx_bytes bs v h4 hv hb
  have s0 := hs 0
  have s1 := hs 1
  have s2 := hs 2
  have s3 := hs 3
  rw [byte_slot_zero, byte_slot_zero] at s0
  rw [byte_slot_one, byte_slot_one] at s1
  rw [byte_slot_two, byte_slot_two] at s2
  rw [byte_slot_three, byte_slot_three] at s3
  generalize store_rx_bytes v bs.length bs = R at *
  unfold UINT32_MOD at hv hR
  match bs, h1, h4, hb with
  | [a], _, _, hb =>
    have ha : a < 256 := hb a (by simp)
    have e : big_endian [a] = a := by simp [big_endian]
    show R = v / 256 * 256 + big_endian [a]
    rw [e]
    simp at s0 s1 s2 s3
    omega
  | [a, c], _, _, hb =>
    have ha : a < 256 := hb a (by simp)
    have hc : c < 256 := hb c (by simp)
    have e : big_endian [a, c] = a * 256 + c := by simp [big_endian]
    have hp : (256 : Nat) ^ ([a, c] : List Nat).length = 65536 := by norm_num
    rw [e, hp]
    simp at s0 s1 s2 s3
    omega
  | [a, c, d], _, _, hb =>
    have ha : a < 256 := hb a (by simp)
    have hc : c < 256 := hb c (by simp)
    have hd : d < 256 := hb d (by simp)
    have e : big_endian [a, c, d] = (a * 256 + c) * 256 + d := by simp [big_endian]
    have hp : (256 : Nat) ^ ([a, c, d] : List Nat).length = 16777216 := by norm_num
    rw [e, hp]
    simp at s0 s1 s2 s3
    omega
  | [a, c, d, f], _, _, hb =>
    have ha : a < 256 := hb a (by simp)
    have hc : c < 256 := hb c (by simp)
    have hd : d < 256 := hb d (by simp)
    have hf : f < 256 := hb f (by simp)
    have e : big_endian [a, c, d, f] = ((a * 256 + c) * 256 + d) * 256 + f := by
      simp [big_endian]
    have hp : (256 : Nat) ^ ([a, c, d, f] : List Nat).length = 4294967296 := by norm_num
    rw [e, hp]
    simp at s0 s1 s2 s3
    omega

theorem read_complete_run (k : EmI2cConsts) (fuel : Nat) (s : System) (i2c : I2C_TypeDef)
    (b : Bus) (device_add register_add callback data : Nat) (bs : List Nat)
    (hsel : select_sm i2c = some b) (hidle : (s.sm b).not_available = false)
    (hk : (s.sm b).curr_state.toNat &&& k._I2C_STATE_STATE_MASK = k.I2C_STATE_STATE_IDLE)
    (hwf : s.lowest_energy_mode.wf)
    (h0 : 0 ≤ count_at s.lowest_energy_mode I2C_EM_BLOCK)
    (hceil : count_at s.lowest_energy_mode I2C_EM_BLOCK + 1 < 5)
    (h1 : 1 ≤ bs.length) (hlt : bs.length < UINT32_MOD) (hp : data < s.mem.length) :
    ∃ s0 s2 s3,
      i2c_start k fuel s i2c device_add register_add READ_OP callback data bs.length = .ret s0
      ∧ run_signals s0 b ([.ACK, .ACK, .ACK] ++ bs.map .RXDATAV) = .ret s2
      ∧ (s2.sm b).curr_state = .stop_data
      ∧ s2.event_scheduled = s.event_scheduled
      ∧ (s2.sm b).not_available = true
      ∧ count_at s2.lowest_energy_mode I2C_EM_BLOCK
          = count_at s.lowest_energy_mode I2C_EM_BLOCK + 1
      ∧ s2.mem_read data = store_rx_bytes (s.mem_read data) bs.length bs
      ∧ i2c_msstop_sm s2 b = .ret s3
      ∧ run_signals s0 b ([.ACK, .ACK, .ACK] ++ bs.map .RXDATAV ++ [.MSTOP]) = .ret s3
      ∧ s3.lowest_energy_mode = s.lowest_energy_mode
      ∧ s3.event_scheduled = add_scheduled_event s.event_scheduled callback
      ∧ (s3.sm b).not_available = false
      ∧ (s3.sm b).curr_state = .stop_data
      ∧ s3.mem_read data = s2.mem_read data
      ∧ s3.hw = s2.hw
      ∧ s3.sm b.other = s.sm b.other := by
  have hlen : I2C_EM_BLOCK < s.lowest_energy_mode.length := by
    rw [hwf]; decide
  have hstart := i2c_start_idle_eq k fuel s i2c b device_add register_add READ_OP callback data
    bs.length hsel hidle hk hwf (by unfold INT_MIN; omega) hceil
  generalize hs0 : started_system s i2c b device_add register_add READ_OP callback data
    bs.length = s0 at hstart
  have hsm0 : s0.sm b = started_sm i2c device_add register_add READ_OP callback data
      bs.length := by rw [← hs0]; exact started_system_sm _ _ _ _ _ _ _ _ _
  have htab0 : s0.lowest_energy_mode = s.lowest_energy_mode.set I2C_EM_BLOCK
      (count_at s.lowest_energy_mode I2C_EM_BLOCK + 1) := by
    rw [← hs0]; exact started_system_table _ _ _ _ _ _ _ _ _
  have hev0 : s0.event_scheduled = s.event_scheduled := by
    rw [← hs0]; exact started_system_event _ _ _ _ _ _ _ _ _
  have hmem0 : s0.mem = s.mem := by
    rw [← hs0]; exact started_system_mem _ _ _ _ _ _ _ _ _
  have hoth0 : s0.sm b.other = s.sm b.other := by
    rw [← hs0]; exact started_system_sm_other _ _ _ _ _ _ _ _ _
  obtain ⟨sA, sB, sC, _, _, _, _, _, _, hC, _, smC, othC, memC, evC, tabC, _⟩ :=
    read_handshake_run b s0 i2c device_add register_add READ_OP callback data bs.length hsm0
      (by decide)
  have hpC : (sC.sm b).num_data < sC.mem.length := by
    rw [smC, memC, hmem0]; exact hp
  obtain ⟨s2, hrun2, _, sm2, mem2, _, _, oth2, ev2, tab2, _⟩ := receive_full_run b bs sC
    (by rw [smC]) (by rw [smC]; rfl) h1 hlt hpC
  have hnd : (sC.sm b).num_data = data := by rw [smC]; rfl
  rw [hnd] at mem2
  have htab2 : s2.lowest_energy_mode = s.lowest_energy_mode.set I2C_EM_BLOCK
      (count_at s.lowest_energy_mode I2C_EM_BLOCK + 1) := by
    rw [tab2, tabC, htab0]
  obtain ⟨s3, hstop, tab3, ev3, sm3, oth3, hw3, mem3, _⟩ := stop_after_start b s s2
    (by rw [sm2]) hwf h0 hceil htab2
  have hrunAll : run_signals s0 b ([.ACK, .ACK, .ACK] ++ bs.map .RXDATAV) = .ret s2 := by
    rw [run_signals_append_ret b _ _ s0 sC hC]
    exact hrun2
  refine ⟨s0, s2, s3, hstart, hrunAll, by rw [sm2], by rw [ev2, evC, hev0], ?_, ?_, ?_, hstop,
    ?_, tab3, ?_, by rw [sm3], ?_, ?_, hw3, ?_⟩
  · rw [sm2, smC]; rfl
  · rw [htab2]; exact count_at_set_same _ _ _ hlen
  · rw [mem2]
    simp only [System.mem_read, memC, hmem0]
  · rw [run_signals_append_ret b _ _ s0 s2 hrunAll]
    simp only [run_signals, i2c_signal, hstop]
  · rw [ev3, ev2, evC, hev0, sm2, smC]; rfl
  · rw [sm3, sm2]
  · simp only [System.mem_read, mem3]
  · rw [oth3, oth2, othC, hoth0]

theorem write_complete_run (k : EmI2cConsts) (fuel : Nat) (s : System) (i2c : I2C_TypeDef)
    (b : Bus) (device_add register_add callback data n : Nat)
    (hsel : select_sm i2c = some b) (hidle : (s.sm b).not_available = false)
    (hk : (s.sm b).curr_state.toNat &&& k._I2C_STATE_STATE_MASK = k.I2C_STATE_STATE_IDLE)
    (hwf : s.lowest_energy_mode.wf)
    (h0 : 0 ≤ count_at s.lowest_energy_mode I2C_EM_BLOCK)
    (hceil : count_at s.lowest_energy_mode I2C_EM_BLOCK + 1 < 5)
    (h1 : 1 ≤ n) (hlt : n < UINT32_MOD) :
    ∃ s0 s2 s3,
      i2c_start k fuel s i2c device_add register_add WRITE_OP callback data n = .ret s0
      ∧ run_signals s0 b (List.replicate (n + 1) .ACK) = .ret s2
      ∧ (s2.sm b).curr_state = .stop_data
      ∧ s2.event_scheduled = s.event_scheduled
      ∧ (s2.sm b).not_available = true
      ∧ count_at s2.lowest_energy_mode I2C_EM_BLOCK
          = count_at s.lowest_energy_mode I2C_EM_BLOCK + 1
      ∧ i2c_msstop_sm s2 b = .ret s3
      ∧ run_signals s0 b (List.replicate (n + 1) .ACK ++ [.MSTOP]) = .ret s3
      ∧ s3.lowest_energy_mode = s.lowest_energy_mode
      ∧ s3.event_scheduled = add_scheduled_event s.event_scheduled callback
      ∧ (s3.sm b).not_available = false
      ∧ (s3.sm b).curr_state = .stop_data
      ∧ s3.mem = s.mem
      ∧ s3.hw = s2.hw
      ∧ s3.sm b.other = s.sm b.other := by
  have hlen : I2C_EM_BLOCK < s.lowest_energy_mode.length := by
    rw [hwf]; decide
  have hstart := i2c_start_idle_eq k fuel s i2c b device_add register_add WRITE_OP callback data
    n hsel hidle hk hwf (by unfold INT_MIN; omega) hceil
  generalize hs0 : started_system s i2c b device_add register_add WRITE_OP callback data
    n = s0 at hstart
  have hsm0 : s0.sm b = started_sm i2c device_add register_add WRITE_OP callback data
      n := by rw [← hs0]; exact started_system_sm _ _ _ _ _ _ _ _ _
  have htab0 : s0.lowest_energy_mode = s.lowest_energy_mode.set I2C_EM_BLOCK
      (count_at s.lowest_energy_mode I2C_EM_BLOCK + 1) := by
    rw [← hs0]; exact started_system_table _ _ _ _ _ _ _ _ _
  have hev0 : s0.event_scheduled = s.event_scheduled := by
    rw [← hs0]; exact started_system_event _ _ _ _ _ _ _ _ _
  have hmem0 : s0.mem = s.mem := by
    rw [← hs0]; exact started_system_mem _ _ _ _ _ _ _ _ _
  have hoth0 : s0.sm b.other = s.sm b.other := by
    rw [← hs0]; exact started_system_sm_other _ _ _ _ _ _ _ _ _
  obtain ⟨s1, s2, _, _, sm1, hrun2, hs2, oth1, mem1, ev1, tab1⟩ := write_transaction_run b s0 i2c
    device_add register_add callback data n hsm0 h1 hlt
  have sm2 : s2.sm b = { s1.sm b with curr_state := .stop_data } := by rw [hs2]; simp
  have htab2 : s2.lowest_energy_mode = s.lowest_energy_mode.set I2C_EM_BLOCK
      (count_at s.lowest_energy_mode I2C_EM_BLOCK + 1) := by
    rw [hs2]; simp [tab1, htab0]
  have ev2 : s2.event_scheduled = s.event_scheduled := by rw [hs2]; simp [ev1, hev0]
  have mem2 : s2.mem = s.mem := by rw [hs2]; simp [mem1, hmem0]
  have oth2 : s2.sm b.other = s.sm b.other := by rw [hs2]; simp [oth1, hoth0]
  obtain ⟨s3, hstop, tab3, ev3, sm3, oth3, hw3, mem3, _⟩ := stop_after_start b s s2
    (by rw [sm2]) hwf h0 hceil htab2
  refine ⟨s0, s2, s3, hstart, hrun2, by rw [sm2], ev2, ?_, ?_, hstop, ?_, tab3, ?_,
    by rw [sm3], by rw [sm3, sm2], by rw [mem3, mem2], hw3, by rw [oth3, oth2]⟩
  · rw [sm2, sm1]; rfl
  · rw [htab2]; exact count_at_set_same _ _ _ hlen
  · rw [run_signals_append_ret b _ _ s0 s2 hrun2]
    simp only [run_signals, i2c_signal, hstop]
  · rw [ev3, ev2, sm2, sm1]; rfl

/-! ## Write and read transactions -/

/-- C11: `i2c_start` on an idle bus (`I2C0` or `I2C1`, assertion on `curr_state`
passing, count of `I2C_EM_BLOCK` below the ceiling) returns; it adds one to the
count of `I2C_EM_BLOCK` and leaves the other counts, stores device address,
register address, direction, buffer, byte count and completion event in the
descriptor of that bus, sets `not_available` and the phase `init_process`,
and writes `START` and then `(device_add << 1) | 0` to `TXDATA`, whatever the
direction. -/
theorem i2c_start_idle_spec (k : EmI2cConsts) (fuel : Nat) (s : System) (i2c : I2C_TypeDef)
    (b : Bus) (device_add register_add read_write callback data number_bytes : Nat)
    (hsel : select_sm i2c = some b) (hidle : (s.sm b).not_available = false)
    (hk : (s.sm b).curr_state.toNat &&& k._I2C_STATE_STATE_MASK = k.I2C_STATE_STATE_IDLE)
    (hwf : s.lowest_energy_mode.wf)
    (hmin : INT_MIN ≤ count_at s.lowest_energy_mode I2C_EM_BLOCK)
    (hceil : count_at s.lowest_energy_mode I2C_EM_BLOCK + 1 < 5) :
    ∃ s0, i2c_start k fuel s i2c device_add register_add read_write callback data number_bytes
        = .ret s0
      ∧ count_at s0.lowest_energy_mode I2C_EM_BLOCK
          = count_at s.lowest_energy_mode I2C_EM_BLOCK + 1
      ∧ (∀ j, j ≠ I2C_EM_BLOCK →
          count_at s0.lowest_energy_mode j = count_at s.lowest_energy_mode j)
      ∧ (s0.sm b).dev_address = device_add
      ∧ (s0.sm b).register_address = register_add
      ∧ (s0.sm b).read_write_op = read_write
      ∧ (s0.sm b).num_data = data
      ∧ (s0.sm b).number_bytes = number_bytes
      ∧ (s0.sm b).callback_i2c = callback
      ∧ (s0.sm b).not_available = true
      ∧ (s0.sm b).curr_state = .init_process
      ∧ (s0.sm b).counter_var = 1
      ∧ s0.hw = s.hw ++ [.CMD i2c .START, .TXDATA i2c (((device_add <<< 1) ||| 0) % UINT32_MOD)]
      ∧ s0.sm b.other = s.sm b.other
      ∧ s0.event_scheduled = s.event_scheduled ∧ s0.mem = s.mem := by
  have hlen : I2C_EM_BLOCK < s.lowest_energy_mode.length := by
    rw [hwf]; decide
  refine ⟨_, i2c_start_idle_eq k fuel s i2c b device_add register_add read_write callback data
    number_bytes hsel hidle hk hwf hmin hceil, ?_, ?_, ?_⟩
  · simp only [started_system, hw_write_lowest_energy_mode, set_sm_lowest_energy_mode]
    exact count_at_set_same _ _ _ hlen
  · intro j hj
    simp only [started_system, hw_write_lowest_energy_mode, set_sm_lowest_energy_mode]
    exact count_at_set_other _ _ _ _ hj
  · cases b <;>
      simp [started_system, started_sm, WRITE_OP, System.sm, System.set_sm, System.hw_write,
        Bus.other]

/-- Witness for C11: a two-byte read started on `I2C1` in `idle_system`. -/
theorem i2c_start_idle_spec_witness :
    ∃ s0, i2c_start efr32_consts 0 idle_system .I2C1 85 19 READ_OP 8 0 2 = .ret s0
      ∧ (s0.sm .bus1).not_available = true
      ∧ s0.hw = idle_system.hw ++ [.CMD .I2C1 .START, .TXDATA .I2C1 170] := by
  obtain ⟨s0, h, _, _, _, _, _, _, _, _, hb, _, _, hhw, _⟩ :=
    i2c_start_idle_spec efr32_consts 0 idle_system .I2C1 .bus1 85 19 READ_OP 8 0 2
      (by decide) (by decide) (by decide) (by decide) (by decide) (by decide)
  exact ⟨s0, h, hb, hhw⟩

/-- C12: in a write transaction started with byte count `N`, `1 ≤ N < 2^32`,
and driven by acknowledge signals only, the first `N` acknowledges write the
register address and then exactly `N` payload values to `TXDATA` and leave the
phase `write_data`; acknowledge number `N + 1` writes one `STOP` command and
makes the phase `stop_data`; every further acknowledge changes nothing. -/
theorem write_transaction_payload_then_stop (k : EmI2cConsts) (fuel : Nat) (s s0 : System)
    (i2c : I2C_TypeDef) (b : Bus) (device_add register_add callback data N : Nat)
    (hsel : select_sm i2c = some b)
    (hstart : i2c_start k fuel s i2c device_add register_add WRITE_OP callback data N = .ret s0)
    (h1 : 1 ≤ N) (hlt : N < UINT32_MOD) :
    ∃ (payload : List Nat) (s1 s2 : System), payload.length = N
      ∧ run_signals s0 b (List.replicate N .ACK) = .ret s1
      ∧ s1.hw = s0.hw ++ [.TXDATA i2c register_add] ++ payload.map (HwWrite.TXDATA i2c)
      ∧ (s1.sm b).curr_state = .write_data
      ∧ run_signals s0 b (List.replicate (N + 1) .ACK) = .ret s2
      ∧ s2.hw = s1.hw ++ [.CMD i2c .STOP]
      ∧ (s2.sm b).curr_state = .stop_data
      ∧ ∀ m, run_signals s0 b (List.replicate (N + 1 + m) .ACK) = .ret s2 := by
  obtain ⟨b1, hsel1, _, hsm, _⟩ := i2c_start_ret k fuel s s0 i2c device_add register_add
    WRITE_OP callback data N hstart
  rw [hsel] at hsel1
  cases hsel1
  obtain ⟨s1, s2, hrun1, hhw1, hsm1, hrun2, hs2, _⟩ := write_transaction_run b s0 i2c
    device_add register_add callback data N hsm h1 hlt
  refine ⟨_, s1, s2, ?_, hrun1, hhw1, by rw [hsm1], hrun2, by rw [hs2]; simp,
    by rw [hs2]; simp, ?_⟩
  · simp only [List.length_cons, write_data_payload_length]
    omega
  · intro m
    rw [List.replicate_add, run_signals_append_ret b _ _ s0 s2 hrun2]
    exact ack_idle_phase_run b s2 (Or.inr (by rw [hs2]; simp)) m

/-- Witness for C12: a two-byte write on `I2C1`; the third acknowledge issues
`STOP`. -/
theorem write_transaction_payload_then_stop_witness :
    ∃ (payload : List Nat) (s1 s2 : System), payload.length = 2
      ∧ run_signals (started_system write_example_system .I2C1 .bus1 85 10 WRITE_OP 8 0 2)
          .bus1 (List.replicate 2 .ACK) = .ret s1
      ∧ s1.hw = (started_system write_example_system .I2C1 .bus1 85 10 WRITE_OP 8 0 2).hw
          ++ [.TXDATA .I2C1 10] ++ payload.map (HwWrite.TXDATA .I2C1)
      ∧ (s1.sm .bus1).curr_state = .write_data
      ∧ run_signals (started_system write_example_system .I2C1 .bus1 85 10 WRITE_OP 8 0 2)
          .bus1 (List.replicate (2 + 1) .ACK) = .ret s2
      ∧ s2.hw = s1.hw ++ [.CMD .I2C1 .STOP]
      ∧ (s2.sm .bus1).curr_state = .stop_data
      ∧ ∀ m, run_signals (started_system write_example_system .I2C1 .bus1 85 10 WRITE_OP 8 0 2)
          .bus1 (List.replicate (2 + 1 + m) .ACK) = .ret s2 :=
  write_transaction_payload_then_stop efr32_consts 0 write_example_system
    (started_system write_example_system .I2C1 .bus1 85 10 WRITE_OP 8 0 2) .I2C1 .bus1
    85 10 8 0 2 (by decide) (by decide) (by decide) (by decide)

/-- C13, the code at a two-byte write of the value `0x1234` (device `0x55`,
register `0x0A`, `left_shift_val = 0`): the values written to `TXDATA` are
`0xAA`, `0x0A`, `0x1234`, `0x1234`, so the register, which keeps the low eight
bits, transmits `0x34` twice and not `0x12` then `0x34`. -/
theorem write_two_bytes_repeats_low_byte :
    i2c_start efr32_consts 0 write_example_system .I2C1 85 10 WRITE_OP 8 0 2
        = .ret (started_system write_example_system .I2C1 .bus1 85 10 WRITE_OP 8 0 2)
      ∧ (run_signals (started_system write_example_system .I2C1 .bus1 85 10 WRITE_OP 8 0 2)
          .bus1 [.ACK, .ACK, .ACK]).returned = true
      ∧ tx_writes (run_signals (started_system write_example_system .I2C1 .bus1 85 10
          WRITE_OP 8 0 2) .bus1 [.ACK, .ACK, .ACK]).state.hw = [170, 10, 4660, 4660]
      ∧ (tx_writes (run_signals (started_system write_example_system .I2C1 .bus1 85 10
          WRITE_OP 8 0 2) .bus1 [.ACK, .ACK, .ACK]).state.hw).map (fun v => v % 256)
          = [170, 10, 52, 52]
      ∧ (tx_writes (run_signals (started_system write_example_system .I2C1 .bus1 85 10
          WRITE_OP 8 0 2) .bus1 [.ACK, .ACK, .ACK]).state.hw).map (fun v => v % 256)
          ≠ [170, 10, 18, 52]
      ∧ ((run_signals (started_system write_example_system .I2C1 .bus1 85 10 WRITE_OP 8 0 2)
          .bus1 [.ACK, .ACK, .ACK]).state.sm .bus1).curr_state = .stop_data := by
  refine ⟨?_, ?_, ?_, ?_, ?_, ?_⟩ <;> decide

/-- C14: in a read transaction the values written to `TXDATA` are
`(device_add << 1) | 0` by `i2c_start`, the register address on the first
acknowledge and `(device_add << 1) | 1` on the second, which first writes
`START` again; the phase is `init_process` until the third acknowledge makes it
`read_data`, and no later signal writes `TXDATA`. -/
theorem read_handshake_spec (k : EmI2cConsts) (fuel : Nat) (s s0 : System)
    (i2c : I2C_TypeDef) (b : Bus) (device_add register_add callback data N : Nat)
    (hsel : select_sm i2c = some b)
    (hstart : i2c_start k fuel s i2c device_add register_add READ_OP callback data N = .ret s0) :
    s0.hw = s.hw ++ [.CMD i2c .START, .TXDATA i2c (((device_add <<< 1) ||| WRITE_OP) % UINT32_MOD)]
      ∧ (s0.sm b).curr_state = .init_process
      ∧ ∃ sA sB sC, run_signals s0 b [.ACK] = .ret sA
        ∧ sA.hw = s0.hw ++ [.TXDATA i2c register_add]
        ∧ (sA.sm b).curr_state = .init_process
        ∧ run_signals s0 b [.ACK, .ACK] = .ret sB
        ∧ sB.hw = sA.hw ++ [.CMD i2c .START, .TXDATA i2c (shl32 device_add 1 ||| READ_OP)]
        ∧ (sB.sm b).curr_state = .init_process
        ∧ run_signals s0 b [.ACK, .ACK, .ACK] = .ret sC
        ∧ sC.hw = sB.hw
        ∧ (sC.sm b).curr_state = .read_data
        ∧ ∀ sigs, tx_writes (run_signals sC b sigs).state.hw
            = tx_writes s.hw ++ [((device_add <<< 1) ||| WRITE_OP) % UINT32_MOD, register_add,
                shl32 device_add 1 ||| READ_OP] := by
  obtain ⟨b1, hsel1, _, hsm, _, hhw, _⟩ := i2c_start_ret k fuel s s0 i2c device_add register_add
    READ_OP callback data N hstart
  rw [hsel] at hsel1
  cases hsel1
  obtain ⟨sA, sB, sC, hA, hwA, pA, hB, hwB, pB, hC, hwC, smC, _⟩ := read_handshake_run b s0 i2c
    device_add register_add READ_OP callback data N hsm (by decide)
  refine ⟨hhw, by rw [hsm]; rfl, sA, sB, sC, hA, hwA, pA, hB, hwB, pB, hC, hwC,
    by rw [smC], ?_⟩
  intro sigs
  rw [run_after_handshake b sigs sC (Or.inl (by rw [smC])), hwC, hwB, hwA, hhw]
  simp [tx_writes_append, tx_writes]

/-- Witness for C14: a one-byte read of register `0x11` of device `0x55` on
`I2C1`. -/
theorem read_handshake_spec_witness :
    tx_writes (run_signals read_started_system .bus1 [.ACK, .ACK, .ACK]).state.hw
      = [170, 17, 171] := by
  obtain ⟨_, _, sA, sB, sC, _, _, _, _, _, _, hC, _, _, htx⟩ :=
    read_handshake_spec efr32_consts 0 write_example_system read_started_system .I2C1 .bus1
      85 17 8 0 1 (by decide) (by decide)
  have h := htx []
  rw [hC]
  simpa [run_signals, Outcome.state] using h

/-- C15: in a read of `N` bytes, `1 ≤ N ≤ 4`, the `N` receive-data events
return; afterwards byte slot `N - i` of the buffer holds the `i`-th byte
received, and the byte slots at index `N` and above hold what they held
before. -/
theorem read_bytes_fill_slots (b : Bus) (s : System) (bs : List Nat)
    (hst : (s.sm b).curr_state = .read_data) (hN : (s.sm b).number_bytes = bs.length)
    (h1 : 1 ≤ bs.length) (h4 : bs.length ≤ 4) (hb : ∀ x ∈ bs, x < 256)
    (hp : (s.sm b).num_data < s.mem.length)
    (hv : s.mem_read (s.sm b).num_data < UINT32_MOD) :
    ∃ s1, run_signals s b (bs.map .RXDATAV) = .ret s1
      ∧ (∀ i, 1 ≤ i → i ≤ bs.length →
          byte_slot (s1.mem_read (s.sm b).num_data) (bs.length - i) = bs.getD (i - 1) 0)
      ∧ (∀ j, bs.length ≤ j →
          byte_slot (s1.mem_read (s.sm b).num_data) j
            = byte_slot (s.mem_read (s.sm b).num_data) j) := by
  obtain ⟨s1, hrun, _, _, hmem, _⟩ := receive_full_run b bs s hst hN h1
    (by unfold UINT32_MOD; omega) hp
  refine ⟨s1, hrun, ?_, ?_⟩
  · intro i hi1 hi2
    rw [hmem, byte_slot_store_rx_bytes bs _ h4 hv hb, if_pos (by omega)]
    congr 1
    omega
  · intro j hj
    rw [hmem, byte_slot_store_rx_bytes bs _ h4 hv hb, if_neg (by omega)]

/-- Witness for C15: three bytes `1, 2, 3` received into a buffer holding
`0xAABBCCDD`. -/
theorem read_bytes_fill_slots_witness :
    ∃ s1, run_signals
        (run_signals (started_system { idle_system with mem := [2864434397, 0] } .I2C1 .bus1
          85 17 READ_OP 8 0 3) .bus1 [.ACK, .ACK, .ACK]).state .bus1
        ([1, 2, 3].map .RXDATAV) = .ret s1
      ∧ byte_slot (s1.mem_read 0) 2 = 1 ∧ byte_slot (s1.mem_read 0) 0 = 3
      ∧ byte_slot (s1.mem_read 0) 3 = byte_slot 2864434397 3 := by
  obtain ⟨s1, h, hslots, hkeep⟩ := read_bytes_fill_slots .bus1
    (run_signals (started_system { idle_system with mem := [2864434397, 0] } .I2C1 .bus1
      85 17 READ_OP 8 0 3) .bus1 [.ACK, .ACK, .ACK]).state [1, 2, 3]
    (by decide) (by decide) (by decide) (by decide) (by decide) (by decide) (by decide)
  exact ⟨s1, h, hslots 1 (by decide) (by decide), hslots 3 (by decide) (by decide),
    hkeep 3 (by decide)⟩

/-- C16: in the phase `read_data` with `N ≥ 1` bytes remaining, the first `k`
receive-data events, `k < N`, write `ACK` once each and leave the phase
`read_data` with `N - k` bytes remaining; the `N`-th writes `NACK` and then
`STOP`, leaves the remaining count 0 and makes the phase `stop_data`. -/
theorem read_data_ack_then_nack_stop (b : Bus) (s : System) (bs : List Nat)
    (hst : (s.sm b).curr_state = .read_data) (hN : (s.sm b).number_bytes = bs.length)
    (h1 : 1 ≤ bs.length) (hlt : bs.length < UINT32_MOD)
    (hp : (s.sm b).num_data < s.mem.length) :
    (∀ k, k < bs.length → ∃ sk, run_signals s b ((bs.take k).map .RXDATAV) = .ret sk
        ∧ sk.hw = s.hw ++ List.replicate k (.CMD (s.sm b).i2c_state .ACK)
        ∧ (sk.sm b).curr_state = .read_data
        ∧ (sk.sm b).number_bytes = bs.length - k)
      ∧ ∃ s1, run_signals s b (bs.map .RXDATAV) = .ret s1
        ∧ s1.hw = s.hw ++ List.replicate (bs.length - 1) (.CMD (s.sm b).i2c_state .ACK)
            ++ [.CMD (s.sm b).i2c_state .NACK, .CMD (s.sm b).i2c_state .STOP]
        ∧ (s1.sm b).number_bytes = 0
        ∧ (s1.sm b).curr_state = .stop_data := by
  constructor
  · intro k hk
    have hlen : (bs.take k).length = k := by
      rw [List.length_take]; omega
    obtain ⟨sk, hrun, hhw, hsm, _⟩ := receive_prefix_run b (bs.take k) s hst
      (by rw [hlen, hN]; exact hk) (by rw [hN]; exact hlt) hp
    rw [hlen] at hhw hsm
    exact ⟨sk, hrun, hhw, by rw [hsm], by rw [hsm, hN]⟩
  · obtain ⟨s1, hrun, hhw, hsm, _⟩ := receive_full_run b bs s hst hN h1 hlt hp
    exact ⟨s1, hrun, hhw, by rw [hsm], by rw [hsm]⟩

/-- Witness for C16: the single receive-data event of a one-byte read writes
`NACK` and `STOP`. -/
theorem read_data_ack_then_nack_stop_witness :
    ∃ s1, run_signals (run_signals read_started_system .bus1 [.ACK, .ACK, .ACK]).state .bus1
        ([86].map .RXDATAV) = .ret s1
      ∧ (s1.sm .bus1).number_bytes = 0 ∧ (s1.sm .bus1).curr_state = .stop_data := by
  obtain ⟨_, s1, h, _, hn, hph⟩ := read_data_ack_then_nack_stop .bus1
    (run_signals read_started_system .bus1 [.ACK, .ACK, .ACK]).state [86]
    (by decide) (by decide) (by decide) (by decide) (by decide)
  exact ⟨s1, h, hn, hph⟩

/-- C17, counterexample: a one-byte read into a buffer that held `0x1234`
receives `0x56`; after the complete transaction the buffer holds `0x1256`, not
the received byte `0x56`. -/
theorem read_one_byte_keeps_upper_bytes :
    i2c_start efr32_consts 0 write_example_system .I2C1 85 17 READ_OP 8 0 1
        = .ret read_started_system
      ∧ (run_signals read_started_system .bus1
          [.ACK, .ACK, .ACK, .RXDATAV 86, .MSTOP]).returned = true
      ∧ (run_signals read_started_system .bus1
          [.ACK, .ACK, .ACK, .RXDATAV 86, .MSTOP]).state.mem_read 0 = 4694
      ∧ (run_signals read_started_system .bus1
          [.ACK, .ACK, .ACK, .RXDATAV 86, .MSTOP]).state.mem_read 0 ≠ big_endian [86] := by
  refine ⟨?_, ?_, ?_, ?_⟩ <;> decide

/-- C17, amended: after a complete read transaction of `N` bytes, `1 ≤ N ≤ 4`,
the low `N` bytes of the buffer are the big-endian integer formed by the `N`
received bytes and the bytes above them are those the buffer held before; the
buffer equals that integer when its bytes `N..3` were zero before the
transaction, which is always so for `N = 4`. -/
theorem read_transaction_buffer_value (k : EmI2cConsts) (fuel : Nat) (s : System)
    (i2c : I2C_TypeDef) (b : Bus) (device_add register_add callback data : Nat) (bs : List Nat)
    (hsel : select_sm i2c = some b) (hidle : (s.sm b).not_available = false)
    (hk : (s.sm b).curr_state.toNat &&& k._I2C_STATE_STATE_MASK = k.I2C_STATE_STATE_IDLE)
    (hwf : s.lowest_energy_mode.wf)
    (h0 : 0 ≤ count_at s.lowest_energy_mode I2C_EM_BLOCK)
    (hceil : count_at s.lowest_energy_mode I2C_EM_BLOCK + 1 < 5)
    (h1 : 1 ≤ bs.length) (h4 : bs.length ≤ 4) (hb : ∀ x ∈ bs, x < 256)
    (hp : data < s.mem.length) (hv : s.mem_read data < UINT32_MOD) :
    ∃ s0 s3,
      i2c_start k fuel s i2c device_add register_add READ_OP callback data bs.length = .ret s0
      ∧ run_signals s0 b ([.ACK, .ACK, .ACK] ++ bs.map .RXDATAV ++ [.MSTOP]) = .ret s3
      ∧ s3.mem_read data
          = s.mem_read data / 256 ^ bs.length * 256 ^ bs.length + big_endian bs
      ∧ (s.mem_read data < 256 ^ bs.length → s3.mem_read data = big_endian bs)
      ∧ (bs.length = 4 → s3.mem_read data = big_endian bs) := by
  obtain ⟨s0, s2, s3, hstart, _, _, _, _, _, hmem2, _, hrun, _, _, _, _, hmem3, _⟩ :=
    read_complete_run k fuel s i2c b device_add register_add callback data bs hsel hidle hk hwf
      h0 hceil h1 (by unfold UINT32_MOD; omega) hp
  have hval : s3.mem_read data
      = s.mem_read data / 256 ^ bs.length * 256 ^ bs.length + big_endian bs := by
    rw [hmem3, hmem2]
    exact store_rx_bytes_value bs _ h1 h4 hv hb
  refine ⟨s0, s3, hstart, hrun, hval, ?_, ?_⟩
  · intro hsmall
    rw [hval, Nat.div_eq_of_lt hsmall]
    simp
  · intro h4eq
    rw [hval, h4eq]
    have : s.mem_read data / 256 ^ 4 = 0 := by
      apply Nat.div_eq_of_lt
      unfold UINT32_MOD at hv
      norm_num
      exact hv
    rw [this]
    simp

/-- Witness for C17 as amended: a two-byte read of `0x12, 0x34` into a zeroed
buffer leaves `0x1234`. -/
theorem read_transaction_buffer_value_witness :
    ∃ s0 s3, i2c_start efr32_consts 0 idle_system .I2C1 85 19 READ_OP 8 0 2 = .ret s0
      ∧ run_signals s0 .bus1 ([.ACK, .ACK, .ACK] ++ [18, 52].map .RXDATAV ++ [.MSTOP])
          = .ret s3
      ∧ s3.mem_read 0 = big_endian [18, 52] := by
  obtain ⟨s0, s3, h1, h2, _, h4, _⟩ := read_transaction_buffer_value efr32_consts 0 idle_system
    .I2C1 .bus1 85 19 8 0 [18, 52] (by decide) (by decide) (by decide) (by decide) (by decide)
    (by decide) (by decide) (by decide) (by decide) (by decide) (by decide)
  exact ⟨s0, s3, h1, h2, h4 (by decide)⟩

/-- C18: a run of acknowledge and receive-data signals leaves the scheduler
mask, the energy-mode table and the busy flag as they were.  In a complete
write transaction (`n + 1` acknowledges, then master-stop) and in a complete
read transaction (three acknowledges, the receive-data events, then
master-stop) the mask before the stop step is the mask before `i2c_start`, the
busy flag is set and the count of `I2C_EM_BLOCK` is one higher; the stop step,
taken in the phase `stop_data`, ORs the completion event into the mask (the
mask after it is the bitwise OR of the mask before `i2c_start` and the event),
takes the count back down by one and clears the busy flag. -/
theorem completion_event_raised_by_stop_step (k : EmI2cConsts) (fuel : Nat) (s : System)
    (i2c : I2C_TypeDef) (b : Bus) (device_add register_add callback data n : Nat)
    (bs : List Nat)
    (hsel : select_sm i2c = some b) (hidle : (s.sm b).not_available = false)
    (hk : (s.sm b).curr_state.toNat &&& k._I2C_STATE_STATE_MASK = k.I2C_STATE_STATE_IDLE)
    (hwf : s.lowest_energy_mode.wf)
    (h0 : 0 ≤ count_at s.lowest_energy_mode I2C_EM_BLOCK)
    (hceil : count_at s.lowest_energy_mode I2C_EM_BLOCK + 1 < 5)
    (hn1 : 1 ≤ n) (hnlt : n < UINT32_MOD)
    (h1 : 1 ≤ bs.length) (hlt : bs.length < UINT32_MOD) (hp : data < s.mem.length)
    (hm : s.event_scheduled < UINT32_MOD) (hcb : callback < UINT32_MOD) :
    (∀ (s1 : System) (b1 : Bus) (sigs : List I2C_Signal), (∀ x ∈ sigs, x ≠ .MSTOP) →
        (run_signals s1 b1 sigs).state.event_scheduled = s1.event_scheduled
        ∧ (run_signals s1 b1 sigs).state.lowest_energy_mode = s1.lowest_energy_mode
        ∧ ((run_signals s1 b1 sigs).state.sm b1).not_available = (s1.sm b1).not_available)
      ∧ (∃ s0 s2 s3,
          i2c_start k fuel s i2c device_add register_add WRITE_OP callback data n = .ret s0
          ∧ run_signals s0 b (List.replicate (n + 1) .ACK) = .ret s2
          ∧ (s2.sm b).curr_state = .stop_data
          ∧ s2.event_scheduled = s.event_scheduled
          ∧ (s2.sm b).not_available = true
          ∧ count_at s2.lowest_energy_mode I2C_EM_BLOCK
              = count_at s.lowest_energy_mode I2C_EM_BLOCK + 1
          ∧ i2c_msstop_sm s2 b = .ret s3
          ∧ run_signals s0 b (List.replicate (n + 1) .ACK ++ [.MSTOP]) = .ret s3
          ∧ s3.event_scheduled = s.event_scheduled ||| callback
          ∧ count_at s3.lowest_energy_mode I2C_EM_BLOCK
              = count_at s2.lowest_energy_mode I2C_EM_BLOCK - 1
          ∧ (s3.sm b).not_available = false)
      ∧ (∃ s0 s2 s3,
          i2c_start k fuel s i2c device_add register_add READ_OP callback data bs.length
            = .ret s0
          ∧ run_signals s0 b ([.ACK, .ACK, .ACK] ++ bs.map .RXDATAV) = .ret s2
          ∧ (s2.sm b).curr_state = .stop_data
          ∧ s2.event_scheduled = s.event_scheduled
          ∧ (s2.sm b).not_available = true
          ∧ count_at s2.lowest_energy_mode I2C_EM_BLOCK
              = count_at s.lowest_energy_mode I2C_EM_BLOCK + 1
          ∧ i2c_msstop_sm s2 b = .ret s3
          ∧ run_signals s0 b ([.ACK, .ACK, .ACK] ++ bs.map .RXDATAV ++ [.MSTOP]) = .ret s3
          ∧ s3.event_scheduled = s.event_scheduled ||| callback
          ∧ count_at s3.lowest_energy_mode I2C_EM_BLOCK
              = count_at s2.lowest_energy_mode I2C_EM_BLOCK - 1
          ∧ (s3.sm b).not_available = false) := by
  have hor : add_scheduled_event s.event_scheduled callback = s.event_scheduled ||| callback := by
    unfold add_scheduled_event
    apply Nat.mod_eq_of_lt
    rw [uint32_mod_eq] at *
    exact Nat.or_lt_two_pow hm hcb
  refine ⟨fun s1 b1 sigs h => run_signals_frame b1 sigs s1 h, ?_, ?_⟩
  · obtain ⟨s0, s2, s3, a1, a2, a3, a4, a5, a6, a7, a8, a9, a10, a11, _⟩ :=
      write_complete_run k fuel s i2c b device_add register_add callback data n hsel hidle hk
        hwf h0 hceil hn1 hnlt
    exact ⟨s0, s2, s3, a1, a2, a3, a4, a5, a6, a7, a8,
      a10.trans hor, by rw [a9, a6]; omega, a11⟩
  · obtain ⟨s0, s2, s3, a1, a2, a3, a4, a5, a6, _, a7, a8, a9, a10, a11, _⟩ :=
      read_complete_run k fuel s i2c b device_add register_add callback data bs hsel hidle hk
        hwf h0 hceil h1 hlt hp
    exact ⟨s0, s2, s3, a1, a2, a3, a4, a5, a6, a7, a8,
      a10.trans hor, by rw [a9, a6]; omega, a11⟩

/-- Witness for C18: a one-byte write on `I2C1`, completion event `0x08`, from
`idle_system`: the mask is 0 before the stop step and 8 after it. -/
theorem completion_event_raised_by_stop_step_witness :
    ∃ s0 s2 s3, i2c_start efr32_consts 0 idle_system .I2C1 85 10 WRITE_OP 8 0 1 = .ret s0
      ∧ run_signals s0 .bus1 (List.replicate (1 + 1) .ACK) = .ret s2
      ∧ s2.event_scheduled = 0
      ∧ i2c_msstop_sm s2 .bus1 = .ret s3
      ∧ s3.event_scheduled = 8
      ∧ (run_signals (started_system idle_system .I2C1 .bus1 85 10 WRITE_OP 8 0 1) .bus1
          [.ACK, .ACK, .MSTOP]).state.event_scheduled = 8 := by
  obtain ⟨_, ⟨s0, s2, s3, a1, a2, _, a4, _, _, a7, _, a9, _⟩, _⟩ :=
    completion_event_raised_by_stop_step efr32_consts 0 idle_system .I2C1 .bus1 85 10 8 0 1 [86]
      (by decide) (by decide) (by decide) (by decide) (by decide) (by decide) (by decide)
      (by decide) (by decide) (by decide) (by decide) (by decide) (by decide)
  exact ⟨s0, s2, s3, a1, a2, a4, a7, a9, by decide⟩

/-- C19: a receive-data signal in a phase other than `read_data`, and a
master-stop signal in a phase other than `stop_data`, end in the failed
assertion with the whole state (descriptor, energy-mode table and scheduler
mask included) as it was. -/
theorem wrong_phase_receive_and_stop_assert (b : Bus) (s : System) (rxdata : Nat) :
    ((s.sm b).curr_state ≠ .read_data →
        i2c_receive_sm s b rxdata = .assert_failed s
        ∧ (i2c_receive_sm s b rxdata).asserted = true
        ∧ (i2c_receive_sm s b rxdata).state = s)
      ∧ ((s.sm b).curr_state ≠ .stop_data →
        i2c_msstop_sm s b = .assert_failed s
        ∧ (i2c_msstop_sm s b).asserted = true
        ∧ (i2c_msstop_sm s b).state = s) := by
  constructor
  · intro h
    rw [i2c_receive_sm_wrong_phase b s rxdata h]
    exact ⟨rfl, rfl, rfl⟩
  · intro h
    rw [i2c_msstop_sm_wrong_phase b s h]
    exact ⟨rfl, rfl, rfl⟩

/-- Witness for C19: with the read of `busy_system` still in its handshake
(phase `init_process`), a receive-data signal and a master-stop signal both
fail the assertion. -/
theorem wrong_phase_receive_and_stop_assert_witness :
    i2c_receive_sm busy_system .bus1 86 = .assert_failed busy_system
      ∧ i2c_msstop_sm busy_system .bus1 = .assert_failed busy_system :=
  ⟨((wrong_phase_receive_and_stop_assert .bus1 busy_system 86).1 (by decide)).1,
   ((wrong_phase_receive_and_stop_assert .bus1 busy_system 86).2 (by decide)).1⟩

/-- C20, counterexample: an acknowledge in the phases `read_data` and
`stop_data` (the one-byte read of `read_started_system`, after its handshake and
after its receive-data event) fails no assertion: `i2c_ack_sm` returns with the
state as it was. -/
theorem ack_in_read_or_stop_phase_returns :
    ((run_signals read_started_system .bus1 [.ACK, .ACK, .ACK]).state.sm .bus1).curr_state
        = .read_data
      ∧ i2c_ack_sm (run_signals read_started_system .bus1 [.ACK, .ACK, .ACK]).state .bus1
        = .ret (run_signals read_started_system .bus1 [.ACK, .ACK, .ACK]).state
      ∧ (stop_phase_system.sm .bus1).curr_state = .stop_data
      ∧ i2c_ack_sm stop_phase_system .bus1 = .ret stop_phase_system
      ∧ (i2c_ack_sm stop_phase_system .bus1).asserted = false := by
  refine ⟨?_, ?_, ?_, ?_, ?_⟩ <;> decide

theorem i2c_msstop_sm_other (b : Bus) (s : System) :
    (i2c_msstop_sm s b).state.sm b.other = s.sm b.other := by
  unfold i2c_msstop_sm
  cases hst : (s.sm b).curr_state with
  | stop_data =>
    simp only [hst]
    cases sleep_unblock_mode s.lowest_energy_mode I2C_EM_BLOCK <;> simp [Outcome.state]
  | init_process => simp [hst, Outcome.state]
  | read_data => simp [hst, Outcome.state]
  | write_data => simp [hst, Outcome.state]

theorem run_signals_other (b : Bus) : ∀ (sigs : List I2C_Signal) (s : System),
    (run_signals s b sigs).state.sm b.other = s.sm b.other := by
  intro sigs
  induction sigs with
  | nil => intro s; rfl
  | cons x xs ih =>
    intro s
    have hx : (i2c_signal s b x).state.sm b.other = s.sm b.other := by
      cases x with
      | ACK =>
        obtain ⟨s1, h, _, _, _, _, _, e⟩ := i2c_ack_sm_frame b s
        simp only [i2c_signal, h, Outcome.state]
        exact e
      | RXDATAV r => exact (i2c_receive_sm_frame b s r).2.2.2.2
      | MSTOP => exact i2c_msstop_sm_other b s
    simp only [run_signals]
    cases hs : i2c_signal s b x with
    | ret s1 =>
      rw [hs] at hx
      simp only
      rw [ih s1]
      exact hx
    | assert_failed s1 => rw [hs] at hx; exact hx
    | out_of_fuel s1 => rw [hs] at hx; exact hx

/-! ## Completion of a transaction -/

/-- C23: in a complete write transaction (`i2c_start` on an idle bus, `n + 1`
acknowledges, one master-stop) and in a complete read transaction (`i2c_start`,
three acknowledges, the receive-data events, one master-stop) every call
returns and the energy-mode table after the stop step equals the table before
`i2c_start`. -/
theorem table_restored_by_transaction (k : EmI2cConsts) (fuel : Nat) (s : System)
    (i2c : I2C_TypeDef) (b : Bus) (device_add register_add callback data n : Nat)
    (bs : List Nat)
    (hsel : select_sm i2c = some b) (hidle : (s.sm b).not_available = false)
    (hk : (s.sm b).curr_state.toNat &&& k._I2C_STATE_STATE_MASK = k.I2C_STATE_STATE_IDLE)
    (hwf : s.lowest_energy_mode.wf)
    (h0 : 0 ≤ count_at s.lowest_energy_mode I2C_EM_BLOCK)
    (hceil : count_at s.lowest_energy_mode I2C_EM_BLOCK + 1 < 5)
    (hn1 : 1 ≤ n) (hnlt : n < UINT32_MOD)
    (h1 : 1 ≤ bs.length) (hlt : bs.length < UINT32_MOD) (hp : data < s.mem.length) :
    (∃ s0 s3,
        i2c_start k fuel s i2c device_add register_add WRITE_OP callback data n = .ret s0
        ∧ count_at s0.lowest_energy_mode I2C_EM_BLOCK
            = count_at s.lowest_energy_mode I2C_EM_BLOCK + 1
        ∧ run_signals s0 b (List.replicate (n + 1) .ACK ++ [.MSTOP]) = .ret s3
        ∧ s3.lowest_energy_mode = s.lowest_energy_mode)
      ∧ (∃ s0 s3,
        i2c_start k fuel s i2c device_add register_add READ_OP callback data bs.length = .ret s0
        ∧ count_at s0.lowest_energy_mode I2C_EM_BLOCK
            = count_at s.lowest_energy_mode I2C_EM_BLOCK + 1
        ∧ run_signals s0 b ([.ACK, .ACK, .ACK] ++ bs.map .RXDATAV ++ [.MSTOP]) = .ret s3
        ∧ s3.lowest_energy_mode = s.lowest_energy_mode) := by
  have hlen : I2C_EM_BLOCK < s.lowest_energy_mode.length := by
    rw [hwf]; decide
  constructor
  · obtain ⟨s0, s2, s3, a1, _, _, _, _, _, _, a8, a9, _⟩ :=
      write_complete_run k fuel s i2c b device_add register_add callback data n hsel hidle hk
        hwf h0 hceil hn1 hnlt
    have hs0 := i2c_start_idle_eq k fuel s i2c b device_add register_add WRITE_OP callback data
      n hsel hidle hk hwf (by unfold INT_MIN; omega) hceil
    rw [a1] at hs0
    cases hs0
    exact ⟨_, s3, a1, by rw [started_system_table]; exact count_at_set_same _ _ _ hlen, a8, a9⟩
  · obtain ⟨s0, s2, s3, a1, _, _, _, _, _, _, _, a8, a9, _⟩ :=
      read_complete_run k fuel s i2c b device_add register_add callback data bs hsel hidle hk
        hwf h0 hceil h1 hlt hp
    have hs0 := i2c_start_idle_eq k fuel s i2c b device_add register_add READ_OP callback data
      bs.length hsel hidle hk hwf (by unfold INT_MIN; omega) hceil
    rw [a1] at hs0
    cases hs0
    exact ⟨_, s3, a1, by rw [started_system_table]; exact count_at_set_same _ _ _ hlen, a8, a9⟩

/-- Witness for C23: a one-byte write and a two-byte read on `I2C1` from
`idle_system`. -/
theorem table_restored_by_transaction_witness :
    ∃ s0 s3, i2c_start efr32_consts 0 idle_system .I2C1 85 19 READ_OP 8 0 2 = .ret s0
      ∧ run_signals s0 .bus1 ([.ACK, .ACK, .ACK] ++ [18, 52].map .RXDATAV ++ [.MSTOP])
          = .ret s3
      ∧ s3.lowest_energy_mode = idle_system.lowest_energy_mode := by
  obtain ⟨_, s0, s3, a1, _, a3, a4⟩ := table_restored_by_transaction efr32_consts 0 idle_system
    .I2C1 .bus1 85 19 8 0 1 [18, 52] (by decide) (by decide) (by decide) (by decide) (by decide)
    (by decide) (by decide) (by decide) (by decide) (by decide) (by decide)
  exact ⟨s0, s3, a1, a3, a4⟩

theorem is_busy_eq (s : System) : is_busy s = (s.sm .bus1).not_available := rfl

/-- C24, counterexample: after `i2c_start` on `I2C0` from `idle_system` the busy
flag of `I2C0` is set and `is_busy` answers false. -/
theorem is_busy_ignores_I2C0 :
    i2c_start efr32_consts 0 idle_system .I2C0 85 17 READ_OP 8 0 1
        = .ret (started_system idle_system .I2C0 .bus0 85 17 READ_OP 8 0 1)
      ∧ ((started_system idle_system .I2C0 .bus0 85 17 READ_OP 8 0 1).sm .bus0).not_available
          = true
      ∧ is_busy (started_system idle_system .I2C0 .bus0 85 17 READ_OP 8 0 1) = false := by
  refine ⟨?_, ?_, ?_⟩ <;> decide

/-- C24, amended: `is_busy` returns the busy flag of `I2C1` whichever bus is in
use.  For a transaction on `I2C1` it is true from the return of `i2c_start`
through every acknowledge and receive-data signal, and false after the stop
step; a transaction on `I2C0` (its start and all of its signals) leaves the
answer as it was. -/
theorem is_busy_reports_I2C1 (k : EmI2cConsts) (fuel : Nat) (s : System)
    (device_add register_add read_write callback data n : Nat)
    (hidle : (s.sm .bus1).not_available = false)
    (hk : (s.sm .bus1).curr_state.toNat &&& k._I2C_STATE_STATE_MASK = k.I2C_STATE_STATE_IDLE)
    (hwf : s.lowest_energy_mode.wf)
    (hmin : INT_MIN ≤ count_at s.lowest_energy_mode I2C_EM_BLOCK)
    (hceil : count_at s.lowest_energy_mode I2C_EM_BLOCK + 1 < 5) :
    is_busy s = s.i2c_state_machine_vals_I2C1.not_available
      ∧ (∃ s0, i2c_start k fuel s .I2C1 device_add register_add read_write callback data n
            = .ret s0
          ∧ is_busy s0 = true
          ∧ (∀ sigs : List I2C_Signal, (∀ x ∈ sigs, x ≠ .MSTOP) →
              is_busy (run_signals s0 .bus1 sigs).state = true)
          ∧ (∀ s2 : System, (s2.sm .bus1).curr_state = .stop_data →
              s2.lowest_energy_mode.wf →
              1 ≤ count_at s2.lowest_energy_mode I2C_EM_BLOCK →
              count_at s2.lowest_energy_mode I2C_EM_BLOCK ≤ INT_MAX →
              ∃ s3, i2c_msstop_sm s2 .bus1 = .ret s3 ∧ is_busy s3 = false))
      ∧ is_busy (started_system s .I2C0 .bus0 device_add register_add read_write callback
          data n) = is_busy s
      ∧ (∀ (t : System) (sigs : List I2C_Signal),
          is_busy (run_signals t .bus0 sigs).state = is_busy t) := by
  refine ⟨rfl, ?_, ?_, ?_⟩
  · refine ⟨_, i2c_start_idle_eq k fuel s .I2C1 .bus1 device_add register_add read_write
      callback data n rfl hidle hk hwf hmin hceil, ?_, ?_, ?_⟩
    · rw [is_busy_eq, started_system_sm]; rfl
    · intro sigs hs
      rw [is_busy_eq, (run_signals_frame .bus1 sigs _ hs).2.2, started_system_sm]
      rfl
    · intro s2 hst hwf2 h1 hmax
      refine ⟨_, i2c_msstop_sm_stop .bus1 s2 hst hwf2 h1 hmax, ?_⟩
      rw [is_busy_eq]
      simp
  · exact congrArg I2C_STATE_MACHINE.not_available
      (started_system_sm_other s .I2C0 .bus0 device_add register_add read_write callback data n)
  · intro t sigs
    exact congrArg I2C_STATE_MACHINE.not_available (run_signals_other .bus0 sigs t)

/-- Witness for C24 as amended: a one-byte read on `I2C1` from `idle_system`. -/
theorem is_busy_reports_I2C1_witness :
    ∃ s0, i2c_start efr32_consts 0 idle_system .I2C1 85 17 READ_OP 8 0 1 = .ret s0
      ∧ is_busy s0 = true
      ∧ is_busy (run_signals s0 .bus1 [.ACK, .ACK, .ACK, .RXDATAV 86]).state = true := by
  obtain ⟨_, ⟨s0, h0, hb, hrun, _⟩, _⟩ := is_busy_reports_I2C1 efr32_consts 0 idle_system
    85 17 READ_OP 8 0 1 (by decide) (by decide) (by decide) (by decide) (by decide)
  exact ⟨s0, h0, hb, hrun _ (by decide)⟩

/-! ## LEUART: strings and buffers -/

theorem store_chars_length : ∀ (cs dst : List Nat) (i : Nat),
    (store_chars dst i cs).length = dst.length := by
  intro cs
  induction cs with
  | nil => intro dst i; rfl
  | cons c cs ih =>
    intro dst i
    simp only [store_chars]
    rw [ih]
    simp

theorem store_chars_getElem? : ∀ (cs dst : List Nat) (i j : Nat),
    (store_chars dst i cs)[j]?
      = if i ≤ j ∧ j < i + cs.length ∧ j < dst.length then cs[j - i]? else dst[j]? := by
  intro cs
  induction cs with
  | nil =>
    intro dst i j
    have h : ¬ (i ≤ j ∧ j < i + ([] : List Nat).length ∧ j < dst.length) := by
      simp only [List.length_nil]; omega
    rw [if_neg h]
    rfl
  | cons c cs ih =>
    intro dst i j
    simp only [store_chars]
    rw [ih]
    simp only [List.length_set, List.length_cons]
    by_cases hij : j = i
    · subst hij
      rw [if_neg (by omega)]
      by_cases hl : j < dst.length
      · rw [if_pos ⟨le_refl _, by omega, hl⟩]
        simp [hl]
      · rw [if_neg (by omega)]
        have hn : dst[j]? = none := List.getElem?_eq_none (by omega)
        simp [List.getElem?_set, hl, hn]
    · by_cases hlt : j < i
      · rw [if_neg (by omega), if_neg (by omega)]
        simp [List.getElem?_set, hij]
        omega
      · by_cases hc : j < i + 1 + cs.length ∧ j < dst.length
        · rw [if_pos ⟨by omega, hc.1, hc.2⟩, if_pos ⟨by omega, by omega, hc.2⟩]
          have e : j - i = (j - (i + 1)) + 1 := by omega
          rw [e, List.getElem?_cons_succ]
        · rw [if_neg (by omega), if_neg (by omega)]
          simp [List.getElem?_set]
          omega

theorem store_chars_getD_in (cs dst : List Nat) (i k : Nat) (hk : k < cs.length)
    (hd : i + k < dst.length) : (store_chars dst i cs).getD (i + k) 0 = cs.getD k 0 := by
  rw [List.getD_eq_getElem?_getD, List.getD_eq_getElem?_getD, store_chars_getElem?,
    if_pos ⟨by omega, by omega, hd⟩]
  have e : i + k - i = k := by omega
  rw [e]

theorem store_chars_getD_out (cs dst : List Nat) (i j : Nat)
    (h : j < i ∨ i + cs.length ≤ j) : (store_chars dst i cs).getD j 0 = dst.getD j 0 := by
  rw [List.getD_eq_getElem?_getD, List.getD_eq_getElem?_getD, store_chars_getElem?,
    if_neg (by omega)]

theorem strcpy_length (dst src : List Nat) : (strcpy dst src).length = dst.length :=
  store_chars_length _ _ _

theorem strcpy_getD_char (dst src : List Nat) (i : Nat) (hi : i < strlen src)
    (hd : strlen src < dst.length) : (strcpy dst src).getD i 0 = (c_string src).getD i 0 := by
  unfold strlen at hi hd
  have h := store_chars_getD_in (c_string src ++ [0]) dst 0 i (by simp; omega) (by omega)
  rw [Nat.zero_add] at h
  unfold strcpy
  rw [h, List.getD_eq_getElem?_getD, List.getD_eq_getElem?_getD, List.getElem?_append_left hi]

theorem strcpy_getD_terminator (dst src : List Nat) (hd : strlen src < dst.length) :
    (strcpy dst src).getD (strlen src) 0 = 0 := by
  unfold strlen at hd
  have h := store_chars_getD_in (c_string src ++ [0]) dst 0 (c_string src).length (by simp)
    (by omega)
  rw [Nat.zero_add] at h
  unfold strcpy strlen
  rw [h, List.getD_eq_getElem?_getD]
  simp

theorem strcpy_getD_rest (dst src : List Nat) (j : Nat) (hj : strlen src < j) :
    (strcpy dst src).getD j 0 = dst.getD j 0 := by
  unfold strlen at hj
  unfold strcpy
  exact store_chars_getD_out _ _ _ _ (Or.inr (by simp; omega))

/-! ## LEUART: transmission -/

theorem run_leuart_append (fuel : Nat) (xs ys : List LEUART_Signal) :
    ∀ s, run_leuart fuel s (xs ++ ys)
      = match run_leuart fuel s xs with
        | .ret s1 => run_leuart fuel s1 ys
        | other => other := by
  induction xs with
  | nil => intro s; rfl
  | cons x xs ih =>
    intro s
    simp only [List.cons_append, run_leuart]
    cases leuart_signal fuel s x with
    | ret s1 => exact ih s1
    | assert_failed s1 => rfl
    | out_of_fuel s1 => rfl

theorem run_leuart_append_ret (fuel : Nat) (xs ys : List LEUART_Signal) (s s1 : LeuartSystem)
    (h : run_leuart fuel s xs = .ret s1) :
    run_leuart fuel s (xs ++ ys) = run_leuart fuel s1 ys := by
  rw [run_leuart_append, h]

theorem leuart_start_busy_eq (fuel : Nat) (s : LeuartSystem) (string : List Nat)
    (string_len : Nat) (hbusy : s.leuart0_state_machine_vals.not_available = true) :
    leuart_start fuel s .LEUART0 string string_len = .out_of_fuel s := by
  unfold leuart_start
  simp only [hbusy, wait_while_not_available_busy, if_true]

theorem leuart_start_idle_eq (fuel : Nat) (s : LeuartSystem) (string : List Nat)
    (string_len : Nat) (hidle : s.leuart0_state_machine_vals.not_available = false)
    (hwf : s.lowest_energy_mode.wf)
    (hmin : INT_MIN ≤ count_at s.lowest_energy_mode LEUART_TX_EM)
    (hceil : count_at s.lowest_energy_mode LEUART_TX_EM + 1 < 5) :
    leuart_start fuel s .LEUART0 string string_len
      = .ret (leuart_started_system s string string_len) := by
  have hlen : LEUART_TX_EM < s.lowest_energy_mode.length := by
    rw [hwf]; decide
  have hb := sleep_block_mode_eq s.lowest_energy_mode LEUART_TX_EM hmin
    (by unfold INT_MAX; omega)
  rw [count_at_set_same _ _ _ hlen, if_pos hceil] at hb
  unfold leuart_start
  simp only [hidle, wait_while_not_available_idle, hb]
  rfl

theorem leuart_txbel_send (s : LeuartSystem)
    (hst : s.leuart0_state_machine_vals.current_state = .TRANSMISSION_STATE)
    (hpos : 0 < s.leuart0_state_machine_vals.data_string_length)
    (hn : s.leuart0_state_machine_vals.data_string_length < UINT32_MOD)
    (hc : s.leuart0_state_machine_vals.count_char + 1 < UINT32_MOD) :
    leuart_txbel s = .ret (tx_sent_system s 1) := by
  have hi : inc32 s.leuart0_state_machine_vals.count_char
      = s.leuart0_state_machine_vals.count_char + 1 := by
    unfold inc32; exact Nat.mod_eq_of_lt hc
  have hd := dec32_of_pos _ hpos hn
  unfold leuart_txbel
  simp only [hst, gt_iff_lt, hpos, if_true, hi, hd]
  refine congrArg Outcome.ret ?_
  unfold tx_sent_system LeuartSystem.set_tx LeuartSystem.hw_write
  simp [hst, List.range_succ]

theorem tx_sent_system_succ (s : LeuartSystem) (k : Nat) :
    tx_sent_system (tx_sent_system s k) 1 = tx_sent_system s (k + 1) := by
  unfold tx_sent_system
  simp [List.range_succ, Nat.add_assoc, Nat.sub_sub]

theorem txbel_run (fuel : Nat) (s : LeuartSystem)
    (hst : s.leuart0_state_machine_vals.current_state = .TRANSMISSION_STATE)
    (hn : s.leuart0_state_machine_vals.data_string_length < UINT32_MOD)
    (hc : s.leuart0_state_machine_vals.count_char
      + s.leuart0_state_machine_vals.data_string_length < UINT32_MOD) :
    ∀ k, k ≤ s.leuart0_state_machine_vals.data_string_length →
      run_leuart fuel s (List.replicate k .TXBL) = .ret (tx_sent_system s k) := by
  intro k
  induction k with
  | zero =>
    intro _
    simp [run_leuart, tx_sent_system]
  | succ k ih =>
    intro hk
    rw [List.replicate_succ', run_leuart_append_ret fuel _ _ s _ (ih (by omega))]
    have hstep := leuart_txbel_send (tx_sent_system s k) (by simpa [tx_sent_system] using hst)
      (by simp [tx_sent_system]; omega) (by simp [tx_sent_system]; omega)
      (by simp [tx_sent_system]; omega)
    simp only [run_leuart, leuart_signal, hstep, tx_sent_system_succ]

theorem leuart_txbel_stop (s : LeuartSystem)
    (hst : s.leuart0_state_machine_vals.current_state = .TRANSMISSION_STATE)
    (hz : s.leuart0_state_machine_vals.data_string_length = 0) :
    leuart_txbel s = .ret (tx_stopping_system s) := by
  unfold leuart_txbel
  simp only [hst, hz, gt_iff_lt, lt_self_iff_false, if_false, NO_DATA, if_true]
  refine congrArg Outcome.ret ?_
  unfold tx_stopping_system
  cases hp : s.leuart0_state_machine_vals.leuart_state <;>
    simp [LeuartSystem.ien_write, LeuartSystem.set_tx, LEUART_IEN.update, hz, hst] <;>
    exact hp.symm

theorem leuart_txc_stop (s : LeuartSystem)
    (hst : s.leuart0_state_machine_vals.current_state = .STOP_STATE)
    (hwf : s.lowest_energy_mode.wf)
    (h1 : 1 ≤ count_at s.lowest_energy_mode LEUART_TX_EM)
    (hmax : count_at s.lowest_energy_mode LEUART_TX_EM ≤ INT_MAX) :
    leuart_txc s = .ret (tx_done_system s) := by
  have hlen : LEUART_TX_EM < s.lowest_energy_mode.length := by
    rw [hwf]; decide
  have hu := sleep_unblock_mode_eq s.lowest_energy_mode LEUART_TX_EM
    (by unfold INT_MIN; omega) hmax
  rw [count_at_set_same _ _ _ hlen, if_pos (by omega)] at hu
  unfold leuart_txc
  simp only [hst, hu]
  refine congrArg Outcome.ret ?_
  unfold tx_done_system
  cases hp : s.leuart0_state_machine_vals.leuart_state <;>
    simp [LeuartSystem.ien_write, LeuartSystem.set_tx, LeuartSystem.set_lowest_energy_mode,
      LeuartSystem.set_event_scheduled, hp] <;>
    exact hst.symm

theorem range_map_getD (l : List Nat) (k : Nat) (hk : k ≤ l.length) :
    (List.range k).map (fun i => l.getD i 0) = l.take k := by
  apply List.ext_getElem
  · simp; omega
  · intro i h1 h2
    simp only [List.length_map, List.length_range] at h1
    simp [List.getD_eq_getElem?_getD, List.getElem_take]
    rw [List.getElem?_eq_getElem (by omega)]
    rfl

theorem tx_started_system_eq :
    tx_started_system = leuart_started_system idle_leuart_system [72, 105, 0] 2 := by
  decide

/-- C25, counterexample: with the transmission of `tx_started_system` in flight,
a second `leuart_start` fails no assertion, whatever the number of loop
iterations it is given; it is still in its busy-wait loop. -/
theorem leuart_start_busy_no_assertion :
    tx_started_system.leuart0_state_machine_vals.not_available = true
      ∧ (leuart_start 1000 tx_started_system .LEUART0 [65, 0] 1).asserted = false
      ∧ leuart_start 1000 tx_started_system .LEUART0 [65, 0] 1 = .out_of_fuel tx_started_system
      ∧ ¬ ∃ fuel s1, leuart_start fuel tx_started_system .LEUART0 [65, 0] 1
          = .assert_failed s1 := by
  have hb : tx_started_system.leuart0_state_machine_vals.not_available = true := by decide
  have h : ∀ fuel, leuart_start fuel tx_started_system .LEUART0 [65, 0] 1
      = .out_of_fuel tx_started_system :=
    fun fuel => leuart_start_busy_eq fuel tx_started_system [65, 0] 1 hb
  refine ⟨hb, by rw [h]; rfl, h 1000, ?_⟩
  rintro ⟨fuel, s1, hs⟩
  rw [h fuel] at hs
  cases hs

/-- C25, amended: `leuart_start` called while the transmit descriptor is busy
fails no assertion.  It busy-waits on `not_available`: for every number of loop
iterations it is still in the loop, it has not returned, and the whole state,
the transmit descriptor and the energy-mode table included, is as before the
call. -/
theorem leuart_start_busy_waits (fuel : Nat) (s : LeuartSystem) (string : List Nat)
    (string_len : Nat) (hbusy : s.leuart0_state_machine_vals.not_available = true) :
    leuart_start fuel s .LEUART0 string string_len = .out_of_fuel s
      ∧ (leuart_start fuel s .LEUART0 string string_len).asserted = false
      ∧ (leuart_start fuel s .LEUART0 string string_len).returned = false
      ∧ (leuart_start fuel s .LEUART0 string string_len).state.leuart0_state_machine_vals
          = s.leuart0_state_machine_vals
      ∧ (leuart_start fuel s .LEUART0 string string_len).state.lowest_energy_mode
          = s.lowest_energy_mode := by
  rw [leuart_start_busy_eq fuel s string string_len hbusy]
  exact ⟨rfl, rfl, rfl, rfl, rfl⟩

/-- Witness for C25 as amended: a second start while `tx_started_system` is
transmitting. -/
theorem leuart_start_busy_waits_witness :
    leuart_start 7 tx_started_system .LEUART0 [79, 75, 0] 2 = .out_of_fuel tx_started_system :=
  (leuart_start_busy_waits 7 tx_started_system [79, 75, 0] 2 (by decide)).1

/-- C26: `leuart_start` on an idle transmitter (count of `LEUART_TX_EM` below
the ceiling, string of at most 49 characters) returns; it has incremented the
count of `LEUART_TX_EM` and no other, set the busy flag, stored the characters
of the string and the terminator in `data_string`, set the remaining length to
`string_len`, the index to 0 and the phase to `TRANSMISSION_STATE`, cleared the
bit TXC and set the bit TXBL of `IEN`. -/
theorem leuart_start_idle_spec (fuel : Nat) (s : LeuartSystem) (string : List Nat)
    (string_len : Nat) (hidle : s.leuart0_state_machine_vals.not_available = false)
    (hwf : s.lowest_energy_mode.wf)
    (hmin : INT_MIN ≤ count_at s.lowest_energy_mode LEUART_TX_EM)
    (hceil : count_at s.lowest_energy_mode LEUART_TX_EM + 1 < 5)
    (hbuf : s.leuart0_state_machine_vals.data_string.length = LEUART_BUFFER_SIZE)
    (hstr : strlen string ≤ 49) :
    ∃ s1, leuart_start fuel s .LEUART0 string string_len = .ret s1
      ∧ count_at s1.lowest_energy_mode LEUART_TX_EM
          = count_at s.lowest_energy_mode LEUART_TX_EM + 1
      ∧ (∀ d, d ≠ LEUART_TX_EM →
          count_at s1.lowest_energy_mode d = count_at s.lowest_energy_mode d)
      ∧ s1.leuart0_state_machine_vals.not_available = true
      ∧ leuart_tx_busy s1 = true
      ∧ (∀ i, i < strlen string →
          s1.leuart0_state_machine_vals.data_string.getD i 0 = (c_string string).getD i 0)
      ∧ s1.leuart0_state_machine_vals.data_string.getD (strlen string) 0 = 0
      ∧ s1.leuart0_state_machine_vals.data_string.length = LEUART_BUFFER_SIZE
      ∧ s1.leuart0_state_machine_vals.data_string_length = string_len
      ∧ s1.leuart0_state_machine_vals.count_char = 0
      ∧ s1.leuart0_state_machine_vals.current_state = .TRANSMISSION_STATE
      ∧ s1.ien.TXC = false
      ∧ s1.ien.TXBL = true
      ∧ s1.event_scheduled = s.event_scheduled
      ∧ s1.hw = s.hw
      ∧ s1.leuart0_read_vals = s.leuart0_read_vals := by
  have hlen : LEUART_TX_EM < s.lowest_energy_mode.length := by
    rw [hwf]; decide
  have hd : strlen string < s.leuart0_state_machine_vals.data_string.length := by
    rw [hbuf]; unfold LEUART_BUFFER_SIZE; omega
  refine ⟨_, leuart_start_idle_eq fuel s string string_len hidle hwf hmin hceil,
    count_at_set_same _ _ _ hlen, fun d hne => count_at_set_other _ _ _ _ hne, rfl, rfl,
    fun i hi => strcpy_getD_char _ _ i hi hd, strcpy_getD_terminator _ _ hd, ?_, rfl, rfl, rfl,
    rfl, rfl, rfl, rfl, rfl⟩
  exact (strcpy_length _ _).trans hbuf

/-- Witness for C26: `leuart_start(LEUART0, "Hi", 2)` from `idle_leuart_system`. -/
theorem leuart_start_idle_spec_witness :
    ∃ s1, leuart_start 0 idle_leuart_system .LEUART0 [72, 105, 0] 2 = .ret s1
      ∧ count_at s1.lowest_energy_mode LEUART_TX_EM = 1
      ∧ s1.leuart0_state_machine_vals.data_string.getD 0 0 = 72
      ∧ s1.leuart0_state_machine_vals.data_string.getD 1 0 = 105
      ∧ s1.leuart0_state_machine_vals.data_string.getD 2 0 = 0 := by
  obtain ⟨s1, h, hc, _, _, _, hch, ht, _⟩ := leuart_start_idle_spec 0 idle_leuart_system
    [72, 105, 0] 2 (by decide) (by decide) (by decide) (by decide) (by decide) (by decide)
  exact ⟨s1, h, hc, hch 0 (by decide), hch 1 (by decide), ht⟩

theorem started_sent_hw (s : LeuartSystem) (string : List Nat) (n k : Nat)
    (hk : k ≤ strlen string)
    (hd : strlen string < s.leuart0_state_machine_vals.data_string.length) :
    (tx_sent_system (leuart_started_system s string n) k).hw
      = s.hw ++ ((c_string string).take k).map (LeuartWrite.TXDATA .LEUART0) := by
  have e : (List.range k).map (fun i =>
      LeuartWrite.TXDATA .LEUART0
        ((strcpy s.leuart0_state_machine_vals.data_string string).getD (0 + i) 0))
      = ((List.range k).map (fun i => (c_string string).getD i 0)).map
          (LeuartWrite.TXDATA .LEUART0) := by
    rw [List.map_map]
    apply List.map_congr_left
    intro i hi
    rw [List.mem_range] at hi
    simp only [Function.comp, Nat.zero_add]
    rw [strcpy_getD_char _ _ i (by omega) hd]
  rw [range_map_getD _ _ hk] at e
  show s.hw ++ _ = _
  exact congrArg (fun l => s.hw ++ l) e

/-- C27: after `leuart_start(LEUART0, string, N)` with `N ≤ strlen(string) ≤ 49`
on an idle transmitter, for every `k ≤ N` the first `k` buffer-level interrupts
return and have written the first `k` characters of the string to `TXDATA`, in
order, with the remaining length `N - k`, the index `k` and the phase
`TRANSMISSION_STATE`; the interrupt after the `N`-th writes nothing, clears the
bit TXBL and sets the bit TXC of `IEN`, and sets the phase `STOP_STATE`. -/
theorem txbel_sends_string (fuel : Nat) (s : LeuartSystem) (string : List Nat) (N : Nat)
    (hidle : s.leuart0_state_machine_vals.not_available = false)
    (hwf : s.lowest_energy_mode.wf)
    (hmin : INT_MIN ≤ count_at s.lowest_energy_mode LEUART_TX_EM)
    (hceil : count_at s.lowest_energy_mode LEUART_TX_EM + 1 < 5)
    (hbuf : s.leuart0_state_machine_vals.data_string.length = LEUART_BUFFER_SIZE)
    (hN : N ≤ strlen string) (hstr : strlen string ≤ 49) :
    ∃ s1, leuart_start fuel s .LEUART0 string N = .ret s1
      ∧ (∀ k, k ≤ N → ∃ sk, run_leuart fuel s1 (List.replicate k .TXBL) = .ret sk
          ∧ sk.hw = s1.hw ++ ((c_string string).take k).map (LeuartWrite.TXDATA .LEUART0)
          ∧ sk.leuart0_state_machine_vals.data_string_length = N - k
          ∧ sk.leuart0_state_machine_vals.count_char = k
          ∧ sk.leuart0_state_machine_vals.current_state = .TRANSMISSION_STATE)
      ∧ ∃ sN s2, run_leuart fuel s1 (List.replicate N .TXBL) = .ret sN
          ∧ leuart_txbel sN = .ret s2
          ∧ run_leuart fuel s1 (List.replicate (N + 1) .TXBL) = .ret s2
          ∧ s2.hw = sN.hw
          ∧ s2.ien.TXBL = false
          ∧ s2.ien.TXC = true
          ∧ s2.leuart0_state_machine_vals.current_state = .STOP_STATE
          ∧ s2.lowest_energy_mode = s1.lowest_energy_mode
          ∧ s2.event_scheduled = s1.event_scheduled := by
  have hd : strlen string < s.leuart0_state_machine_vals.data_string.length := by
    rw [hbuf]; unfold LEUART_BUFFER_SIZE; omega
  have hNlt : N < UINT32_MOD := by unfold UINT32_MOD; omega
  have hrun := txbel_run fuel (leuart_started_system s string N) rfl hNlt
    (by show 0 + N < UINT32_MOD; omega)
  refine ⟨_, leuart_start_idle_eq fuel s string N hidle hwf hmin hceil, ?_, ?_⟩
  · intro k hk
    refine ⟨_, hrun k hk, started_sent_hw s string N k (by omega) hd, rfl, ?_, rfl⟩
    show 0 + k = k
    omega
  · have hstop := leuart_txbel_stop (tx_sent_system (leuart_started_system s string N) N) rfl
      (by show N - N = 0; omega)
    refine ⟨_, _, hrun N (le_refl _), hstop, ?_, rfl, rfl, rfl, rfl, rfl, rfl⟩
    rw [List.replicate_succ', run_leuart_append_ret fuel _ _ _ _ (hrun N (le_refl _))]
    simp only [run_leuart, leuart_signal, hstop]

/-- Witness for C27: `leuart_start(LEUART0, "Hi", 2)` from `idle_leuart_system`
and its three buffer-level interrupts. -/
theorem txbel_sends_string_witness :
    ∃ s1 s2, leuart_start 0 idle_leuart_system .LEUART0 [72, 105, 0] 2 = .ret s1
      ∧ run_leuart 0 s1 [.TXBL, .TXBL, .TXBL] = .ret s2
      ∧ s2.leuart0_state_machine_vals.current_state = .STOP_STATE := by
  obtain ⟨s1, h, _, _, s2, _, _, hr, _, _, _, hst, _⟩ := txbel_sends_string 0 idle_leuart_system
    [72, 105, 0] 2 (by decide) (by decide) (by decide) (by decide) (by decide) (by decide)
    (by decide)
  exact ⟨s1, s2, h, hr, hst⟩

theorem leuart_table_block_unblock (t : EnergyTable) (hwf : t.wf) :
    (t.set LEUART_TX_EM (count_at t LEUART_TX_EM + 1)).set LEUART_TX_EM
        (count_at (t.set LEUART_TX_EM (count_at t LEUART_TX_EM + 1)) LEUART_TX_EM - 1) = t :=
  table_block_unblock t LEUART_TX_EM (by rw [hwf]; decide)

/-- C28: a transmit-complete interrupt taken in `STOP_STATE` (descriptor of
`LEUART0`, count of `LEUART_TX_EM` at least 1) returns, having decremented the
count of `LEUART_TX_EM` and no other, cleared the busy flag, cleared the bit TXC
of `IEN` and ORed `LEUART_TX_CBB = 0x20` into the scheduler mask (the mask
after it is the bitwise OR of the mask before it and `0x20`).  Over a whole
transmission (`leuart_start` on an idle transmitter, `N + 1` buffer-level
interrupts, one transmit-complete interrupt) every call returns and the
energy-mode table is again the table before `leuart_start`. -/
theorem txc_completes_transmission (fuel : Nat) (s : LeuartSystem) (string : List Nat) (N : Nat)
    (hidle : s.leuart0_state_machine_vals.not_available = false)
    (hwf : s.lowest_energy_mode.wf)
    (h0 : 0 ≤ count_at s.lowest_energy_mode LEUART_TX_EM)
    (hceil : count_at s.lowest_energy_mode LEUART_TX_EM + 1 < 5)
    (hN : N < UINT32_MOD) (hm : s.event_scheduled < UINT32_MOD) :
    (∀ t : LeuartSystem, t.leuart0_state_machine_vals.current_state = .STOP_STATE →
        t.leuart0_state_machine_vals.leuart_state = .LEUART0 →
        t.lowest_energy_mode.wf →
        1 ≤ count_at t.lowest_energy_mode LEUART_TX_EM →
        count_at t.lowest_energy_mode LEUART_TX_EM ≤ INT_MAX →
        t.event_scheduled < UINT32_MOD →
        ∃ t1, leuart_txc t = .ret t1
          ∧ count_at t1.lowest_energy_mode LEUART_TX_EM
              = count_at t.lowest_energy_mode LEUART_TX_EM - 1
          ∧ (∀ d, d ≠ LEUART_TX_EM →
              count_at t1.lowest_energy_mode d = count_at t.lowest_energy_mode d)
          ∧ t1.leuart0_state_machine_vals.not_available = false
          ∧ leuart_tx_busy t1 = false
          ∧ t1.ien.TXC = false
          ∧ t1.event_scheduled = t.event_scheduled ||| 0x20)
      ∧ ∃ s1 s2 s3, leuart_start fuel s .LEUART0 string N = .ret s1
          ∧ run_leuart fuel s1 (List.replicate (N + 1) .TXBL) = .ret s2
          ∧ s2.leuart0_state_machine_vals.current_state = .STOP_STATE
          ∧ s2.leuart0_state_machine_vals.not_available = true
          ∧ s2.event_scheduled = s.event_scheduled
          ∧ count_at s2.lowest_energy_mode LEUART_TX_EM
              = count_at s.lowest_energy_mode LEUART_TX_EM + 1
          ∧ leuart_txc s2 = .ret s3
          ∧ run_leuart fuel s1 (List.replicate (N + 1) .TXBL ++ [.TXC]) = .ret s3
          ∧ s3.lowest_energy_mode = s.lowest_energy_mode
          ∧ s3.leuart0_state_machine_vals.not_available = false
          ∧ s3.event_scheduled = s.event_scheduled ||| 0x20 := by
  have hor : ∀ m : Nat, m < UINT32_MOD → add_scheduled_event m 0x20 = m ||| 0x20 := by
    intro m hlt
    unfold add_scheduled_event
    apply Nat.mod_eq_of_lt
    rw [uint32_mod_eq] at *
    exact Nat.or_lt_two_pow hlt (by decide)
  constructor
  · intro t hst hp hwft h1 hmax htm
    have hlen : LEUART_TX_EM < t.lowest_energy_mode.length := by
      rw [hwft]; decide
    refine ⟨_, leuart_txc_stop t hst hwft h1 hmax, count_at_set_same _ _ _ hlen,
      fun d hne => count_at_set_other _ _ _ _ hne, rfl, rfl, ?_,
      hor t.event_scheduled htm⟩
    simp [tx_done_system, LeuartSystem.ien_write, hp, LEUART_IEN.update]
  · have hlen : LEUART_TX_EM < s.lowest_energy_mode.length := by
      rw [hwf]; decide
    have hrun := txbel_run fuel (leuart_started_system s string N) rfl hN
      (by show 0 + N < UINT32_MOD; omega) N (le_refl _)
    have hstop := leuart_txbel_stop (tx_sent_system (leuart_started_system s string N) N) rfl
      (by show N - N = 0; omega)
    have hrun1 : run_leuart fuel (leuart_started_system s string N)
        (List.replicate (N + 1) .TXBL)
        = .ret (tx_stopping_system (tx_sent_system (leuart_started_system s string N) N)) := by
      rw [List.replicate_succ', run_leuart_append_ret fuel _ _ _ _ hrun]
      simp only [run_leuart, leuart_signal, hstop]
    have hc2 : count_at (tx_stopping_system (tx_sent_system (leuart_started_system s string N)
        N)).lowest_energy_mode LEUART_TX_EM = count_at s.lowest_energy_mode LEUART_TX_EM + 1 :=
      count_at_set_same _ _ _ hlen
    have hwf2 : (tx_stopping_system (tx_sent_system (leuart_started_system s string N)
        N)).lowest_energy_mode.wf := by
      show EnergyTable.wf (s.lowest_energy_mode.set _ _)
      unfold EnergyTable.wf at *
      simpa using hwf
    have htxc := leuart_txc_stop
      (tx_stopping_system (tx_sent_system (leuart_started_system s string N) N)) rfl hwf2
      (by rw [hc2]; omega) (by rw [hc2]; unfold INT_MAX; omega)
    refine ⟨_, _, _, leuart_start_idle_eq fuel s string N hidle hwf (by unfold INT_MIN; omega)
      hceil, hrun1, rfl, rfl, rfl, hc2, htxc, ?_, ?_, rfl,
      hor s.event_scheduled hm⟩
    · rw [run_leuart_append_ret fuel _ _ _ _ hrun1]
      simp only [run_leuart, leuart_signal, htxc]
    · exact leuart_table_block_unblock s.lowest_energy_mode hwf

/-- Witness for C28: the whole transmission of "Hi" from `idle_leuart_system`:
the table is restored, the busy flag is clear and the mask, 0 before, is `0x20`. -/
theorem txc_completes_transmission_witness :
    ∃ s1 s3, leuart_start 0 idle_leuart_system .LEUART0 [72, 105, 0] 2 = .ret s1
      ∧ run_leuart 0 s1 (List.replicate (2 + 1) .TXBL ++ [.TXC]) = .ret s3
      ∧ s3.lowest_energy_mode = idle_leuart_system.lowest_energy_mode
      ∧ s3.leuart0_state_machine_vals.not_available = false
      ∧ s3.event_scheduled = 32
      ∧ (run_leuart 0 tx_started_system [.TXBL, .TXBL, .TXBL, .TXC]).state.event_scheduled
          = 32 := by
  obtain ⟨_, s1, _, s3, h, _, _, _, _, _, _, hr, ht, hb, he⟩ := txc_completes_transmission 0
    idle_leuart_system [72, 105, 0] 2 (by decide) (by decide) (by decide) (by decide)
    (by decide) (by decide)
  exact ⟨s1, s3, h, hr, ht, hb, he, by decide⟩

/-- C29, counterexample: a transmit-complete interrupt in the phase
`TRANSMISSION_STATE` and a buffer-level interrupt in the phase `STOP_STATE`
return with the state as it was; no assertion fails. -/
theorem tx_wrong_phase_not_fatal :
    tx_started_system.leuart0_state_machine_vals.current_state = .TRANSMISSION_STATE
      ∧ leuart_txc tx_started_system = .ret tx_started_system
      ∧ (leuart_txc tx_started_system).asserted = false
      ∧ tx_stop_system.leuart0_state_machine_vals.current_state = .STOP_STATE
      ∧ leuart_txbel tx_stop_system = .ret tx_stop_system
      ∧ (leuart_txbel tx_stop_system).asserted = false := by
  refine ⟨?_, ?_, ?_, ?_, ?_, ?_⟩ <;> decide

/-- C29, amended: on the transmit state machine the fatal assertion is reached
only in the phase `INITIALIZATION_STATE`, by a transmit-complete and by a
buffer-level interrupt alike, with the state unchanged.  A transmit-complete
interrupt in `TRANSMISSION_STATE` and a buffer-level interrupt in `STOP_STATE`
are ignored: the function returns and changes nothing. -/
theorem tx_wrong_phase_spec (s : LeuartSystem) :
    (s.leuart0_state_machine_vals.current_state = .INITIALIZATION_STATE →
        leuart_txc s = .assert_failed s ∧ leuart_txbel s = .assert_failed s)
      ∧ (s.leuart0_state_machine_vals.current_state = .TRANSMISSION_STATE →
        leuart_txc s = .ret s)
      ∧ (s.leuart0_state_machine_vals.current_state = .STOP_STATE →
        leuart_txbel s = .ret s) := by
  refine ⟨fun h => ⟨?_, ?_⟩, fun h => ?_, fun h => ?_⟩
  · unfold leuart_txc; simp only [h]
  · unfold leuart_txbel; simp only [h]
  · unfold leuart_txc; simp only [h]
  · unfold leuart_txbel; simp only [h]

/-- Witness for C29 as amended: the three phases at `idle_leuart_system`,
`tx_started_system` and `tx_stop_system`. -/
theorem tx_wrong_phase_spec_witness :
    leuart_txc idle_leuart_system = .assert_failed idle_leuart_system
      ∧ leuart_txbel idle_leuart_system = .assert_failed idle_leuart_system
      ∧ leuart_txc tx_started_system = .ret tx_started_system
      ∧ leuart_txbel tx_stop_system = .ret tx_stop_system :=
  ⟨((tx_wrong_phase_spec idle_leuart_system).1 (by decide)).1,
    ((tx_wrong_phase_spec idle_leuart_system).1 (by decide)).2,
    (tx_wrong_phase_spec tx_started_system).2.1 (by decide),
    (tx_wrong_phase_spec tx_stop_system).2.2 (by decide)⟩

/-! ## LEUART: reception -/

theorem wait_syncbusy_of_le : ∀ (fuel n : Nat), n ≤ fuel → wait_syncbusy fuel n = true := by
  intro fuel
  induction fuel with
  | zero =>
    intro n hn
    have : n = 0 := by omega
    subst this
    rfl
  | succ f ih =>
    intro n hn
    cases n with
    | zero => rfl
    | succ m => exact ih m (by omega)

theorem leuart_rxdatav_receive (s : LeuartSystem) (rxdata : Nat)
    (hst : s.leuart0_read_vals.current_state_read = .RECEIVE_DATA)
    (hc : s.leuart0_read_vals.read_counter + 1 < UINT32_MOD) :
    leuart_rxdatav s rxdata = .ret (rx_received_system s [rxdata]) := by
  have hi : inc32 s.leuart0_read_vals.read_counter = s.leuart0_read_vals.read_counter + 1 := by
    unfold inc32; exact Nat.mod_eq_of_lt hc
  unfold leuart_rxdatav
  simp only [hst, hi]
  refine congrArg Outcome.ret ?_
  unfold rx_received_system LeuartSystem.set_rx
  simp [store_chars, hst]

theorem rx_received_system_cons (s : LeuartSystem) (b : Nat) (bs : List Nat) :
    rx_received_system (rx_received_system s [b]) bs = rx_received_system s (b :: bs) := by
  unfold rx_received_system LeuartSystem.set_rx
  simp [store_chars, Nat.add_assoc, Nat.add_comm 1]

theorem rxdatav_run (fuel : Nat) : ∀ (bs : List Nat) (s : LeuartSystem),
    s.leuart0_read_vals.current_state_read = .RECEIVE_DATA →
    s.leuart0_read_vals.read_counter + bs.length < UINT32_MOD →
    run_leuart fuel s (bs.map .RXDATAV) = .ret (rx_received_system s bs) := by
  intro bs
  induction bs with
  | nil =>
    intro s _ _
    simp [run_leuart, rx_received_system, store_chars, LeuartSystem.set_rx]
  | cons b bs ih =>
    intro s hst hc
    simp only [List.length_cons] at hc
    have hstep := leuart_rxdatav_receive s b hst (by omega)
    simp only [List.map_cons, run_leuart, leuart_signal, hstep]
    rw [ih (rx_received_system s [b]) hst
      (by simp only [rx_received_system, LeuartSystem.set_rx, List.length_singleton]; omega),
      rx_received_system_cons]

theorem leuart_startframe_init (s : LeuartSystem)
    (hst : s.leuart0_read_vals.current_state_read = .INIT_READ) :
    leuart_startframe s = .ret (rx_opened_system s) := by
  unfold leuart_startframe
  simp only [hst]
  rfl

theorem rx_opened_system_rx (s : LeuartSystem) :
    (rx_opened_system s).leuart0_read_vals
      = { s.leuart0_read_vals with current_state_read := .RECEIVE_DATA, read_counter := 0 } := by
  unfold rx_opened_system
  cases hp : s.leuart0_read_vals.leuart_state_read <;>
    simp [LeuartSystem.ien_write, LeuartSystem.set_rx, LeuartSystem.hw_write]

theorem rx_opened_system_frame (s : LeuartSystem) :
    (rx_opened_system s).event_scheduled = s.event_scheduled
      ∧ (rx_opened_system s).lowest_energy_mode = s.lowest_energy_mode
      ∧ (rx_opened_system s).leuart0_state_machine_vals = s.leuart0_state_machine_vals := by
  unfold rx_opened_system
  cases hp : s.leuart0_read_vals.leuart_state_read <;>
    simp [LeuartSystem.ien_write, LeuartSystem.set_rx, LeuartSystem.hw_write]

theorem leuart_sigframe_receive (fuel : Nat) (s : LeuartSystem) (syncbusy : Nat)
    (hst : s.leuart0_read_vals.current_state_read = .RECEIVE_DATA)
    (hfuel : syncbusy ≤ fuel)
    (hc : s.leuart0_read_vals.read_counter + 1 < UINT32_MOD) :
    leuart_sigframe fuel s syncbusy = .ret (rx_closed_system s) := by
  have hi : inc32 s.leuart0_read_vals.read_counter = s.leuart0_read_vals.read_counter + 1 := by
    unfold inc32; exact Nat.mod_eq_of_lt hc
  unfold leuart_sigframe
  simp only [hst, hi, wait_syncbusy_of_le fuel syncbusy hfuel]
  rfl

theorem map_mod_bytes (bs : List Nat) (hb : ∀ b ∈ bs, b < 256) :
    bs.map (fun b => b % 256) = bs := by
  induction bs with
  | nil => rfl
  | cons b bs ih =>
    simp only [List.map_cons]
    rw [ih (fun c hc => hb c (List.mem_cons_of_mem _ hc)),
      Nat.mod_eq_of_lt (hb b (List.mem_cons_self _ _))]

theorem getD_set_same (l : List Nat) (i v : Nat) (h : i < l.length) :
    (l.set i v).getD i 0 = v := by
  simp [List.getD_eq_getElem?_getD, List.getElem?_set, h]

theorem getD_set_other (l : List Nat) (i j v : Nat) (h : j ≠ i) :
    (l.set i v).getD j 0 = l.getD j 0 := by
  have h1 : i ≠ j := fun e => h e.symm
  simp [List.getD_eq_getElem?_getD, List.getElem?_set, h1]

theorem frame_run (fuel : Nat) (s : LeuartSystem) (bs : List Nat) (syncbusy : Nat)
    (hst : s.leuart0_read_vals.current_state_read = .INIT_READ)
    (hbuf : s.leuart0_read_vals.data_string_rx.length = LEUART_BUFFER_SIZE)
    (hn : bs.length ≤ 49) (hb : ∀ b ∈ bs, b < 256) (hfuel : syncbusy ≤ fuel) :
    ∃ s3, run_leuart fuel s (frame_signals bs syncbusy) = .ret s3
      ∧ s3.leuart0_read_vals.data_string_rx
          = (store_chars s.leuart0_read_vals.data_string_rx 0 bs).set bs.length 0
      ∧ s3.leuart0_read_vals.data_string_rx.length = LEUART_BUFFER_SIZE
      ∧ s3.leuart0_read_vals.read_counter = bs.length + 1
      ∧ s3.leuart0_read_vals.current_state_read = .INIT_READ
      ∧ s3.event_scheduled = add_scheduled_event s.event_scheduled 0x40 := by
  have hu : UINT32_MOD = 4294967296 := by decide
  have hopen := leuart_startframe_init s hst
  have rx1 := rx_opened_system_rx s
  obtain ⟨ev1, _, _⟩ := rx_opened_system_frame s
  have hc1 : (rx_opened_system s).leuart0_read_vals.read_counter = 0 := by rw [rx1]
  have hp1 : (rx_opened_system s).leuart0_read_vals.current_state_read = .RECEIVE_DATA := by
    rw [rx1]
  have hb1 : (rx_opened_system s).leuart0_read_vals.data_string_rx
      = s.leuart0_read_vals.data_string_rx := by rw [rx1]
  have hrun := rxdatav_run fuel bs (rx_opened_system s) hp1 (by rw [hc1, hu]; omega)
  have hclose := leuart_sigframe_receive fuel (rx_received_system (rx_opened_system s) bs)
    syncbusy hp1 hfuel
    (by
      show (rx_opened_system s).leuart0_read_vals.read_counter + bs.length + 1 < UINT32_MOD
      rw [hc1, hu]; omega)
  have hbuf3 : (rx_closed_system (rx_received_system (rx_opened_system s)
      bs)).leuart0_read_vals.data_string_rx
      = (store_chars s.leuart0_read_vals.data_string_rx 0 bs).set bs.length 0 := by
    show (store_chars (rx_opened_system s).leuart0_read_vals.data_string_rx
      (rx_opened_system s).leuart0_read_vals.read_counter (bs.map (fun b => b % 256))).set
        ((rx_opened_system s).leuart0_read_vals.read_counter + bs.length) 0 = _
    rw [hc1, hb1, map_mod_bytes bs hb, Nat.zero_add]
  refine ⟨_, ?_, hbuf3, ?_, ?_, rfl, ?_⟩
  · unfold frame_signals
    rw [List.append_assoc, List.singleton_append]
    simp only [run_leuart, leuart_signal, hopen]
    rw [run_leuart_append_ret fuel _ _ _ _ hrun]
    simp only [run_leuart, leuart_signal, hclose]
  · rw [hbuf3, List.length_set, store_chars_length, hbuf]
  · show (rx_opened_system s).leuart0_read_vals.read_counter + bs.length + 1 = bs.length + 1
    rw [hc1]; omega
  · show add_scheduled_event (rx_opened_system s).event_scheduled 0x40 = _
    rw [ev1]

theorem c_string_of_cells : ∀ (bs l : List Nat), bs.length < l.length →
    (∀ i, i < bs.length → l.getD i 0 = bs.getD i 0) → l.getD bs.length 0 = 0 →
    (∀ b ∈ bs, b ≠ 0) → c_string l = bs := by
  intro bs
  induction bs with
  | nil =>
    intro l hl _ h0 _
    cases l with
    | nil => rfl
    | cons x xs =>
      simp only [List.length_nil, List.getD_cons_zero] at h0
      simp [c_string, List.takeWhile, h0]
  | cons b bs ih =>
    intro l hl hch h0 hnz
    cases l with
    | nil => simp at hl
    | cons x xs =>
      have hx : x = b := by
        have := hch 0 (by simp)
        simpa using this
      have hb0 : b ≠ 0 := hnz b (List.mem_cons_self _ _)
      have hrest := ih xs (by simpa using hl)
        (fun i hi => by
          have := hch (i + 1) (by simp; omega)
          simpa using this)
        (by simpa using h0)
        (fun c hc => hnz c (List.mem_cons_of_mem _ hc))
      subst hx
      have hne : (x != 0) = true := by simpa using hb0
      unfold c_string at hrest ⊢
      simp only [List.takeWhile, hne, hrest]

theorem frame_buffer_c_string (buf bs : List Nat) (hbuf : buf.length = LEUART_BUFFER_SIZE)
    (hn : bs.length ≤ 49) (hnz : ∀ b ∈ bs, b ≠ 0) :
    c_string ((store_chars buf 0 bs).set bs.length 0) = bs := by
  have h50 : LEUART_BUFFER_SIZE = 50 := rfl
  apply c_string_of_cells
  · rw [List.length_set, store_chars_length, hbuf, h50]; omega
  · intro i hi
    rw [getD_set_other _ _ _ _ (by omega)]
    have h := store_chars_getD_in bs buf 0 i hi (by rw [hbuf, h50]; omega)
    rw [Nat.zero_add] at h
    exact h
  · exact getD_set_same _ _ _ (by rw [store_chars_length, hbuf, h50]; omega)
  · exact hnz

/-- C31: on the receive state machine a start-of-frame interrupt is accepted in
`INIT_READ` only, where it sets the read counter to 0 and the phase to
`RECEIVE_DATA`; a data-valid and an end-of-frame interrupt are accepted in
`RECEIVE_DATA` only.  Each of the three, in any other phase, halts in the
assertion with the whole state, the receive buffer, counter and phase included,
as it was. -/
theorem rx_wrong_phase_spec (fuel : Nat) (s : LeuartSystem) (rxdata syncbusy : Nat) :
    (s.leuart0_read_vals.current_state_read = .INIT_READ →
        ∃ s1, leuart_startframe s = .ret s1
          ∧ s1.leuart0_read_vals.read_counter = 0
          ∧ s1.leuart0_read_vals.current_state_read = .RECEIVE_DATA
          ∧ s1.leuart0_read_vals.data_string_rx = s.leuart0_read_vals.data_string_rx)
      ∧ (s.leuart0_read_vals.current_state_read ≠ .INIT_READ →
        leuart_startframe s = .assert_failed s)
      ∧ (s.leuart0_read_vals.current_state_read = .RECEIVE_DATA →
        (leuart_rxdatav s rxdata).returned = true
          ∧ (syncbusy ≤ fuel → (leuart_sigframe fuel s syncbusy).returned = true)
          ∧ (leuart_sigframe fuel s syncbusy).asserted = false)
      ∧ (s.leuart0_read_vals.current_state_read ≠ .RECEIVE_DATA →
        leuart_rxdatav s rxdata = .assert_failed s
          ∧ leuart_sigframe fuel s syncbusy = .assert_failed s) := by
  refine ⟨fun h => ?_, fun h => ?_, fun h => ?_, fun h => ?_⟩
  · have rx1 := rx_opened_system_rx s
    exact ⟨_, leuart_startframe_init s h, by rw [rx1], by rw [rx1], by rw [rx1]⟩
  · cases hp : s.leuart0_read_vals.current_state_read with
    | INIT_READ => exact absurd hp h
    | RECEIVE_DATA => unfold leuart_startframe; simp only [hp]
    | STOP_READ => unfold leuart_startframe; simp only [hp]
  · refine ⟨?_, ?_, ?_⟩
    · unfold leuart_rxdatav
      simp only [h]
      rfl
    · intro hf
      unfold leuart_sigframe
      simp only [h, wait_syncbusy_of_le fuel syncbusy hf]
      rfl
    · unfold leuart_sigframe
      simp only [h]
      split <;> rfl
  · constructor
    · cases hp : s.leuart0_read_vals.current_state_read with
      | RECEIVE_DATA => exact absurd hp h
      | INIT_READ => unfold leuart_rxdatav; simp only [hp]
      | STOP_READ => unfold leuart_rxdatav; simp only [hp]
    · cases hp : s.leuart0_read_vals.current_state_read with
      | RECEIVE_DATA => exact absurd hp h
      | INIT_READ => unfold leuart_sigframe; simp only [hp]
      | STOP_READ => unfold leuart_sigframe; simp only [hp]

/-- Witness for C31: `idle_leuart_system` is in `INIT_READ`: the start-of-frame
interrupt is accepted, the other two halt in the assertion. -/
theorem rx_wrong_phase_spec_witness :
    (∃ s1, leuart_startframe idle_leuart_system = .ret s1
        ∧ s1.leuart0_read_vals.current_state_read = .RECEIVE_DATA)
      ∧ leuart_rxdatav idle_leuart_system 97 = .assert_failed idle_leuart_system
      ∧ leuart_sigframe 0 idle_leuart_system 0 = .assert_failed idle_leuart_system := by
  have h := rx_wrong_phase_spec 0 idle_leuart_system 97 0
  obtain ⟨s1, h1, _, h3, _⟩ := h.1 (by decide)
  exact ⟨⟨s1, h1, h3⟩, (h.2.2.2 (by decide)).1, (h.2.2.2 (by decide)).2⟩

/-- C32: after two complete frames received one after the other, the second
with bytes `bs2` that are not 0 (each frame of at most 49 bytes), all interrupts
have returned and `return_read_val` copies out exactly `bs2` and a terminator:
the cells `0 .. n2 - 1` of the destination hold `bs2`, cell `n2` holds 0, and
the C string in the destination is `bs2`, whatever `bs1` was. -/
theorem return_read_val_after_two_frames (fuel : Nat) (s : LeuartSystem) (bs1 bs2 : List Nat)
    (sb1 sb2 : Nat) (dst : List Nat)
    (hst : s.leuart0_read_vals.current_state_read = .INIT_READ)
    (hbuf : s.leuart0_read_vals.data_string_rx.length = LEUART_BUFFER_SIZE)
    (h1 : bs1.length ≤ 49) (h2 : bs2.length ≤ 49)
    (hb1 : ∀ b ∈ bs1, b < 256) (hb2 : ∀ b ∈ bs2, b < 256)
    (hnz2 : ∀ b ∈ bs2, b ≠ 0)
    (hf1 : sb1 ≤ fuel) (hf2 : sb2 ≤ fuel) (hdst : bs2.length < dst.length) :
    ∃ s1 s2, run_leuart fuel s (frame_signals bs1 sb1) = .ret s1
      ∧ run_leuart fuel s1 (frame_signals bs2 sb2) = .ret s2
      ∧ run_leuart fuel s (frame_signals bs1 sb1 ++ frame_signals bs2 sb2) = .ret s2
      ∧ c_string s2.leuart0_read_vals.data_string_rx = bs2
      ∧ (∀ i, i < bs2.length → (return_read_val s2 dst).getD i 0 = bs2.getD i 0)
      ∧ (return_read_val s2 dst).getD bs2.length 0 = 0
      ∧ c_string (return_read_val s2 dst) = bs2
      ∧ (∀ j, bs2.length < j → (return_read_val s2 dst).getD j 0 = dst.getD j 0) := by
  obtain ⟨s1, r1, _, l1, _, p1, _⟩ := frame_run fuel s bs1 sb1 hst hbuf h1 hb1 hf1
  obtain ⟨s2, r2, b2, _, _, _, _⟩ := frame_run fuel s1 bs2 sb2 p1 l1 h2 hb2 hf2
  have hc : c_string s2.leuart0_read_vals.data_string_rx = bs2 := by
    rw [b2]; exact frame_buffer_c_string _ bs2 l1 h2 hnz2
  have hlen : strlen s2.leuart0_read_vals.data_string_rx = bs2.length := by
    unfold strlen; rw [hc]
  have hch : ∀ i, i < bs2.length → (return_read_val s2 dst).getD i 0 = bs2.getD i 0 := by
    intro i hi
    have h := strcpy_getD_char dst s2.leuart0_read_vals.data_string_rx i (by rw [hlen]; exact hi)
      (by rw [hlen]; exact hdst)
    rw [hc] at h
    exact h
  have ht : (return_read_val s2 dst).getD bs2.length 0 = 0 := by
    have h := strcpy_getD_terminator dst s2.leuart0_read_vals.data_string_rx
      (by rw [hlen]; exact hdst)
    rw [hlen] at h
    exact h
  refine ⟨s1, s2, r1, r2, by rw [run_leuart_append_ret fuel _ _ _ _ r1]; exact r2, hc, hch, ht,
    ?_, ?_⟩
  · exact c_string_of_cells bs2 _
      (by unfold return_read_val; rw [strcpy_length]; exact hdst) hch ht hnz2
  · intro j hj
    exact strcpy_getD_rest dst _ j (by rw [hlen]; exact hj)

/-- Witness for C32: the frames "abcd" and "xy" received in `idle_leuart_system`,
copied into an array of 50 cells holding 7. -/
theorem return_read_val_after_two_frames_witness :
    ∃ s2, run_leuart 0 idle_leuart_system
        (frame_signals [97, 98, 99, 100] 0 ++ frame_signals [120, 121] 0) = .ret s2
      ∧ c_string (return_read_val s2 (List.replicate 50 7)) = [120, 121] := by
  obtain ⟨_, s2, _, _, hr, _, _, _, hc, _⟩ := return_read_val_after_two_frames 0
    idle_leuart_system [97, 98, 99, 100] [120, 121] 0 0 (List.replicate 50 7) (by decide)
    (by decide) (by decide) (by decide) (by decide) (by decide) (by decide) (by decide)
    (by decide) (by decide)
  exact ⟨s2, hr, hc⟩

/-! ## Critical sections of the arbiter -/

theorem current_block_energy_mode_traced_loop_spec (t : EnergyTable) :
    ∀ r i, (current_block_energy_mode_traced_loop t r i).1 = current_block_energy_mode_loop t r i
      ∧ (current_block_energy_mode_traced_loop t r i).2.all CoreEvent.isRead = true := by
  intro r
  induction r with
  | zero => intro i; exact ⟨rfl, rfl⟩
  | succ r ih =>
    intro i
    by_cases h : count_at t i ≠ 0
    · simp only [current_block_energy_mode_traced_loop, current_block_energy_mode_loop]
      rw [if_pos h, if_pos h]
      exact ⟨rfl, rfl⟩
    · simp only [current_block_energy_mode_traced_loop, current_block_energy_mode_loop]
      rw [if_neg h, if_neg h]
      refine ⟨(ih (i + 1)).1, ?_⟩
      simp only [List.all_cons, CoreEvent.isRead, Bool.true_and]
      exact (ih (i + 1)).2

/-- C33, counterexample: `current_block_energy_mode` reads the table with no
critical section entered, and `sleep_block_mode` reads the entry for its
assertion after it has left the critical section. -/
theorem table_read_outside_critical_section :
    (current_block_energy_mode_traced [0, 0, 3, 0, 0]).2
        = [.TABLE_READ 0, .TABLE_READ 1, .TABLE_READ 2]
      ∧ accesses_guarded 0 (current_block_energy_mode_traced [0, 0, 3, 0, 0]).2 = false
      ∧ accesses_guarded 0 (sleep_block_mode_traced [0, 0, 3, 0, 0] 2).2 = false
      ∧ accesses_guarded 0 (sleep_unblock_mode_traced [0, 0, 3, 0, 0] 2).2 = false := by
  refine ⟨?_, ?_, ?_, ?_⟩ <;> decide

/-- C33, amended: `sleep_block_mode` and `sleep_unblock_mode` read and write the
table entry inside a critical section, leave it, and read the entry once more
for their assertion, outside it; at their end no critical section is entered.
`enter_sleep` reads the table only after it has entered the critical section.
`current_block_energy_mode` only reads the table and enters no critical
section.  The traced functions compute what the untraced ones do. -/
theorem critical_section_discipline (t : EnergyTable) (EM : Nat) :
    (sleep_block_mode_traced t EM).1 = sleep_block_mode t EM
      ∧ accesses_guarded 0 (sleep_block_mode_traced t EM).2.dropLast = true
      ∧ (sleep_block_mode_traced t EM).2.getLast? = some (.TABLE_READ EM)
      ∧ critical_depth 0 (sleep_block_mode_traced t EM).2 = 0
      ∧ (sleep_unblock_mode_traced t EM).1 = sleep_unblock_mode t EM
      ∧ accesses_guarded 0 (sleep_unblock_mode_traced t EM).2.dropLast = true
      ∧ (sleep_unblock_mode_traced t EM).2.getLast? = some (.TABLE_READ EM)
      ∧ critical_depth 0 (sleep_unblock_mode_traced t EM).2 = 0
      ∧ (enter_sleep_traced t).1 = enter_sleep t
      ∧ accesses_guarded 0 (enter_sleep_traced t).2 = true
      ∧ (current_block_energy_mode_traced t).1 = current_block_energy_mode t
      ∧ (current_block_energy_mode_traced t).2.all CoreEvent.isRead = true := by
  refine ⟨rfl, rfl, rfl, rfl, rfl, rfl, rfl, rfl, ?_, ?_,
    (current_block_energy_mode_traced_loop_spec t MAX_ENERGY_MODES 0).1,
    (current_block_energy_mode_traced_loop_spec t MAX_ENERGY_MODES 0).2⟩
  · unfold enter_sleep_traced enter_sleep
    split
    · rfl
    · split
      · rfl
      · split
        · rfl
        · split <;> rfl
  · unfold enter_sleep_traced
    split
    · rfl
    · split
      · rfl
      · split
        · rfl
        · split <;> rfl

/-! ## Write transactions that go wrong -/

/-- C34, the code at a write of 0 bytes (`i2c_start` with `WRITE_OP` and byte
count 0, buffer `0x1234`): the first acknowledge sends the register address and
a payload byte and takes the remaining count from 0 to `0xFFFFFFFF`; after five
acknowledges five payload values are out, no `STOP` was issued and the phase is
still `write_data`. -/
theorem write_zero_bytes_sends_payload :
    i2c_start efr32_consts 0 write_example_system .I2C1 85 10 WRITE_OP 8 0 0
        = .ret zero_byte_write_system
      ∧ tx_writes (run_signals zero_byte_write_system .bus1 [.ACK]).state.hw = [170, 10, 4660]
      ∧ ((run_signals zero_byte_write_system .bus1 [.ACK]).state.sm .bus1).number_bytes
          = 4294967295
      ∧ (run_signals zero_byte_write_system .bus1 [.ACK, .ACK, .ACK, .ACK, .ACK]).returned = true
      ∧ tx_writes (run_signals zero_byte_write_system .bus1
          [.ACK, .ACK, .ACK, .ACK, .ACK]).state.hw
          = [170, 10, 4660, 4660, 1192960, 305397760, 872415232]
      ∧ cmd_writes (run_signals zero_byte_write_system .bus1
          [.ACK, .ACK, .ACK, .ACK, .ACK]).state.hw = [.START]
      ∧ ((run_signals zero_byte_write_system .bus1
          [.ACK, .ACK, .ACK, .ACK, .ACK]).state.sm .bus1).curr_state = .write_data := by
  refine ⟨?_, ?_, ?_, ?_, ?_, ?_, ?_⟩ <;> decide

/-- C35, the code at two one-byte writes with equal arguments and equal buffer
content `0x1234`: the one started in `write_example_system` transmits
`0xAA, 0x0A, 0x1234` (low byte `0x34`); the one started after a complete
two-byte write, which left `left_shift_val = 1`, transmits
`0xAA, 0x0A, 0x123400` (low byte 0). -/
theorem write_depends_on_left_shift_val :
    (after_two_byte_write_system.sm .bus1).not_available = false
      ∧ after_two_byte_write_system.mem = write_example_system.mem
      ∧ after_two_byte_write_system.left_shift_val = 1
      ∧ i2c_start efr32_consts 0 after_two_byte_write_system .I2C1 85 10 WRITE_OP 8 0 1
          = .ret (started_system after_two_byte_write_system .I2C1 .bus1 85 10 WRITE_OP 8 0 1)
      ∧ tx_writes ((run_signals (started_system after_two_byte_write_system .I2C1 .bus1 85 10
          WRITE_OP 8 0 1) .bus1 [.ACK, .ACK, .MSTOP]).state.hw.drop
            after_two_byte_write_system.hw.length) = [170, 10, 1192960]
      ∧ tx_writes (run_signals (started_system write_example_system .I2C1 .bus1 85 10
          WRITE_OP 8 0 1) .bus1 [.ACK, .ACK, .MSTOP]).state.hw = [170, 10, 4660]
      ∧ (1192960 : Nat) % 256 = 0 ∧ (4660 : Nat) % 256 = 52 := by
  refine ⟨?_, ?_, ?_, ?_, ?_, ?_, ?_, ?_⟩ <;> decide

/-! ## The handshake counter -/

theorem i2c_ack_sm_counter (b : Bus) (s : System)
    (hinv : (s.sm b).counter_var = 1 ∨ (s.sm b).counter_var = 2 ∨ (s.sm b).counter_var = 3) :
    (((i2c_ack_sm s b).state.sm b).counter_var = 1
        ∨ ((i2c_ack_sm s b).state.sm b).counter_var = 2
        ∨ ((i2c_ack_sm s b).state.sm b).counter_var = 3)
      ∧ (s.sm b).counter_var ≤ ((i2c_ack_sm s b).state.sm b).counter_var := by
  have i1 : inc32 1 = 2 := by decide
  have i2 : inc32 2 = 3 := by decide
  unfold i2c_ack_sm
  cases hst : (s.sm b).curr_state with
  | init_process =>
    simp only [hst]
    rcases hinv with h | h | h
    · by_cases hw : (s.sm b).read_write_op = 0 <;> simp [h, hw, i1, Outcome.state]
    · simp [h, i2, Outcome.state]
    · simp [h, Outcome.state]
  | read_data => simp only [hst, Outcome.state]; exact ⟨hinv, le_refl _⟩
  | stop_data => simp only [hst, Outcome.state]; exact ⟨hinv, le_refl _⟩
  | write_data =>
    simp only [hst]
    by_cases hp : (s.sm b).number_bytes > 0
    · rw [if_pos hp]
      simp only [Outcome.state, sm_set_sm]
      exact ⟨hinv, le_refl _⟩
    · rw [if_neg hp]
      by_cases hz : (s.sm b).number_bytes = 0
      · rw [if_pos hz]
        simp only [Outcome.state, sm_set_sm]
        exact ⟨hinv, le_refl _⟩
      · rw [if_neg hz]
        exact ⟨hinv, le_refl _⟩

theorem i2c_receive_sm_counter (b : Bus) (s : System) (rxdata : Nat) :
    ((i2c_receive_sm s b rxdata).state.sm b).counter_var = (s.sm b).counter_var := by
  unfold i2c_receive_sm
  cases hst : (s.sm b).curr_state with
  | read_data =>
    simp only [hst]
    split <;> simp [Outcome.state]
  | init_process => simp [hst, Outcome.state]
  | stop_data => simp [hst, Outcome.state]
  | write_data => simp [hst, Outcome.state]

theorem i2c_msstop_sm_counter (b : Bus) (s : System) :
    ((i2c_msstop_sm s b).state.sm b).counter_var = (s.sm b).counter_var := by
  unfold i2c_msstop_sm
  cases hst : (s.sm b).curr_state with
  | stop_data =>
    simp only [hst]
    cases sleep_unblock_mode s.lowest_energy_mode I2C_EM_BLOCK <;> simp [Outcome.state]
  | init_process => simp [hst, Outcome.state]
  | read_data => simp [hst, Outcome.state]
  | write_data => simp [hst, Outcome.state]

theorem i2c_signal_counter (b : Bus) (s : System) (x : I2C_Signal)
    (hinv : (s.sm b).counter_var = 1 ∨ (s.sm b).counter_var = 2 ∨ (s.sm b).counter_var = 3) :
    (((i2c_signal s b x).state.sm b).counter_var = 1
        ∨ ((i2c_signal s b x).state.sm b).counter_var = 2
        ∨ ((i2c_signal s b x).state.sm b).counter_var = 3)
      ∧ (s.sm b).counter_var ≤ ((i2c_signal s b x).state.sm b).counter_var := by
  cases x with
  | ACK => exact i2c_ack_sm_counter b s hinv
  | RXDATAV r =>
    simp only [i2c_signal]
    rw [i2c_receive_sm_counter]
    exact ⟨hinv, le_refl _⟩
  | MSTOP =>
    simp only [i2c_signal]
    rw [i2c_msstop_sm_counter]
    exact ⟨hinv, le_refl _⟩

theorem run_signals_counter (b : Bus) : ∀ (sigs : List I2C_Signal) (s : System),
    ((s.sm b).counter_var = 1 ∨ (s.sm b).counter_var = 2 ∨ (s.sm b).counter_var = 3) →
    (((run_signals s b sigs).state.sm b).counter_var = 1
        ∨ ((run_signals s b sigs).state.sm b).counter_var = 2
        ∨ ((run_signals s b sigs).state.sm b).counter_var = 3)
      ∧ (s.sm b).counter_var ≤ ((run_signals s b sigs).state.sm b).counter_var := by
  intro sigs
  induction sigs with
  | nil => intro s h; exact ⟨h, le_refl _⟩
  | cons x xs ih =>
    intro s h
    have hx := i2c_signal_counter b s x h
    simp only [run_signals]
    cases hs : i2c_signal s b x with
    | ret s1 =>
      rw [hs] at hx
      simp only [Outcome.state] at hx
      have h1 := ih s1 hx.1
      exact ⟨h1.1, le_trans hx.2 h1.2⟩
    | assert_failed s1 => rw [hs] at hx; exact hx
    | out_of_fuel s1 => rw [hs] at hx; exact hx

/-- C36: after `i2c_start` has returned, whatever acknowledge, receive-data and
master-stop signals follow on that bus, the handshake counter of the descriptor
is 1, 2 or 3 (so never 0, and the branch of `i2c_ack_sm` for 0 is not taken),
and it never decreases: the counter after a longer run is at least the counter
after any of its prefixes. -/
theorem handshake_counter_invariant (k : EmI2cConsts) (fuel : Nat) (s s0 : System)
    (i2c : I2C_TypeDef) (device_add register_add read_write callback data number_bytes : Nat)
    (hstart : i2c_start k fuel s i2c device_add register_add read_write callback data
      number_bytes = .ret s0) :
    ∃ b, select_sm i2c = some b
      ∧ (s0.sm b).counter_var = 1
      ∧ ∀ sigs : List I2C_Signal,
          (((run_signals s0 b sigs).state.sm b).counter_var = 1
            ∨ ((run_signals s0 b sigs).state.sm b).counter_var = 2
            ∨ ((run_signals s0 b sigs).state.sm b).counter_var = 3)
          ∧ ((run_signals s0 b sigs).state.sm b).counter_var ≠ 0
          ∧ ∀ more : List I2C_Signal,
              ((run_signals s0 b sigs).state.sm b).counter_var
                ≤ ((run_signals s0 b (sigs ++ more)).state.sm b).counter_var := by
  obtain ⟨b, hsel, _, hsm, _⟩ := i2c_start_ret k fuel s s0 i2c device_add register_add
    read_write callback data number_bytes hstart
  have h1 : (s0.sm b).counter_var = 1 := by rw [hsm]; rfl
  refine ⟨b, hsel, h1, fun sigs => ?_⟩
  have hinv := run_signals_counter b sigs s0 (Or.inl h1)
  refine ⟨hinv.1, ?_, fun more => ?_⟩
  · rcases hinv.1 with h | h | h <;> omega
  · rw [run_signals_append]
    cases hr : run_signals s0 b sigs with
    | ret s1 =>
      rw [hr] at hinv
      exact (run_signals_counter b more s1 hinv.1).2
    | assert_failed s1 => exact le_refl _
    | out_of_fuel s1 => exact le_refl _

/-- Witness for C36: a one-byte read started on `I2C1` in `idle_system`, followed
by four acknowledges and a receive-data event. -/
theorem handshake_counter_invariant_witness :
    ((run_signals busy_system .bus1 [.ACK, .ACK, .ACK, .ACK, .RXDATAV 86]).state.sm
        .bus1).counter_var ≠ 0 := by
  obtain ⟨b, hsel, _, h⟩ := handshake_counter_invariant efr32_consts 0 idle_system busy_system
    .I2C1 85 17 READ_OP 8 0 1 (by decide)
  have hb : b = .bus1 := by
    have : select_sm .I2C1 = some Bus.bus1 := rfl
    rw [this] at hsel
    exact (Option.some.inj hsel).symm
  subst hb
  exact (h [.ACK, .ACK, .ACK, .ACK, .RXDATAV 86]).2.1

/-! ## `enter_sleep` against `current_block_energy_mode` -/

/-- C37: on a table whose entries are all `>= 0`, with `k` the depth
`current_block_energy_mode` returns, `enter_sleep` makes no EMU call when
`k <= 1` and enters exactly energy mode `k - 1` when `k >= 2`; on the all-zero
table `k` is the deepest depth, `MAX_ENERGY_MODES - 1`, and `enter_sleep`
enters EM3. -/
theorem enter_sleep_agrees_with_current_block (t : EnergyTable)
    (hnn : ∀ i, 0 ≤ count_at t i) :
    (current_block_energy_mode t ≤ 1 → enter_sleep t = none)
      ∧ (2 ≤ current_block_energy_mode t →
          ∃ c, enter_sleep t = some c ∧ c.mode = current_block_energy_mode t - 1)
      ∧ ((∀ i, count_at t i = 0) →
          current_block_energy_mode t = MAX_ENERGY_MODES - 1
            ∧ enter_sleep t = some (.EMU_EnterEM3 true)) := by
  have n0 := hnn 0
  have n1 := hnn 1
  have n2 := hnn 2
  have n3 := hnn 3
  unfold current_block_energy_mode enter_sleep
  simp only [MAX_ENERGY_MODES, current_block_energy_mode_loop, EM0, EM1, EM2, EM3]
  by_cases c0 : count_at t 0 = 0
  · by_cases c1 : count_at t 1 = 0
    · by_cases c2 : count_at t 2 = 0
      · by_cases c3 : count_at t 3 = 0
        · by_cases c4 : count_at t 4 = 0
          · simp [c0, c1, c2, c3, c4, EMU_call.mode, EM3]
          · refine ⟨?_, ?_, ?_⟩
            · simp [c0, c1, c2, c3, c4]
            · simp [c0, c1, c2, c3, c4, EMU_call.mode, EM3]
            · intro hz; exact absurd (hz 4) c4
        · have p3 : 0 < count_at t 3 := by omega
          refine ⟨?_, ?_, ?_⟩
          · simp [c0, c1, c2, c3]
          · simp [c0, c1, c2, c3, p3, EMU_call.mode, EM2]
          · intro hz; exact absurd (hz 3) c3
      · have p2 : 0 < count_at t 2 := by omega
        refine ⟨?_, ?_, ?_⟩
        · simp [c0, c1, c2]
        · simp [c0, c1, c2, p2, EMU_call.mode, EM1]
        · intro hz; exact absurd (hz 2) c2
    · have p1 : 0 < count_at t 1 := by omega
      refine ⟨?_, ?_, ?_⟩
      · simp [c0, c1, p1]
      · simp [c0, c1]
      · intro hz; exact absurd (hz 1) c1
  · have p0 : 0 < count_at t 0 := by omega
    refine ⟨?_, ?_, ?_⟩
    · simp [c0, p0]
    · simp [c0]
    · intro hz; exact absurd (hz 0) c0

/-- Witness for C37: with only depth 3 blocked the scan returns 3 and
`enter_sleep` enters EM2. -/
theorem enter_sleep_agrees_with_current_block_witness :
    current_block_energy_mode [0, 0, 0, 1, 0] = 3
      ∧ ∃ c, enter_sleep [0, 0, 0, 1, 0] = some c ∧ c.mode = 3 - 1 := by
  have h := (enter_sleep_agrees_with_current_block [0, 0, 0, 1, 0]
    (by
      intro i
      unfold count_at
      match i with
      | 0 => decide
      | 1 => decide
      | 2 => decide
      | 3 => decide
      | 4 => decide
      | n + 5 => simp)).2.1 (by decide)
  exact ⟨by decide, h⟩

/-! ## LEUART: index and remaining length -/

theorem leuart_start_ret (fuel : Nat) (s s1 : LeuartSystem) (leuart : LEUART_TypeDef)
    (string : List Nat) (N : Nat) (h : leuart_start fuel s leuart string N = .ret s1) :
    s1.leuart0_state_machine_vals.count_char = 0
      ∧ s1.leuart0_state_machine_vals.data_string_length = N
      ∧ s1.leuart0_state_machine_vals.current_state = .TRANSMISSION_STATE := by
  unfold leuart_start at h
  cases leuart with
  | other base => simp at h
  | LEUART0 =>
    simp only at h
    split at h
    · cases h
    · cases hb : sleep_block_mode s.lowest_energy_mode LEUART_TX_EM with
      | assert_failed t => rw [hb] at h; cases h
      | out_of_fuel t => rw [hb] at h; cases h
      | ret t =>
        rw [hb] at h
        simp only [Outcome.ret.injEq] at h
        subst h
        simp [LeuartSystem.ien_write, LeuartSystem.set_tx, LeuartSystem.set_lowest_energy_mode,
          NO_DATA]

theorem leuart_txbel_index_sum (s : LeuartSystem) (N : Nat) (hN : N < UINT32_MOD)
    (hinv : s.leuart0_state_machine_vals.count_char
      + s.leuart0_state_machine_vals.data_string_length = N) :
    (leuart_txbel s).state.leuart0_state_machine_vals.count_char
      + (leuart_txbel s).state.leuart0_state_machine_vals.data_string_length = N := by
  unfold leuart_txbel
  cases hst : s.leuart0_state_machine_vals.current_state with
  | INITIALIZATION_STATE => simp only [hst, Outcome.state]; exact hinv
  | STOP_STATE => simp only [hst, Outcome.state]; exact hinv
  | TRANSMISSION_STATE =>
    simp only [hst]
    by_cases hp : s.leuart0_state_machine_vals.data_string_length > 0
    · rw [if_pos hp]
      have hi : inc32 s.leuart0_state_machine_vals.count_char
          = s.leuart0_state_machine_vals.count_char + 1 := by
        unfold inc32; exact Nat.mod_eq_of_lt (by omega)
      have hd := dec32_of_pos _ hp (by omega)
      simp only [Outcome.state, LeuartSystem.set_tx, hi, hd]
      omega
    · rw [if_neg hp]
      by_cases hz : s.leuart0_state_machine_vals.data_string_length = NO_DATA
      · rw [if_pos hz]
        cases hptr : s.leuart0_state_machine_vals.leuart_state <;>
          simp [Outcome.state, LeuartSystem.ien_write, LeuartSystem.set_tx] <;> exact hinv
      · rw [if_neg hz]
        exact hinv

theorem leuart_txc_descriptor (s : LeuartSystem) :
    (leuart_txc s).state.leuart0_state_machine_vals.count_char
        = s.leuart0_state_machine_vals.count_char
      ∧ (leuart_txc s).state.leuart0_state_machine_vals.data_string_length
        = s.leuart0_state_machine_vals.data_string_length := by
  unfold leuart_txc
  cases hst : s.leuart0_state_machine_vals.current_state with
  | INITIALIZATION_STATE => simp only [hst, Outcome.state, and_self]
  | TRANSMISSION_STATE => simp only [hst, Outcome.state, and_self]
  | STOP_STATE =>
    simp only [hst]
    cases sleep_unblock_mode s.lowest_energy_mode LEUART_TX_EM with
    | assert_failed t => simp [Outcome.state, LeuartSystem.set_lowest_energy_mode]
    | out_of_fuel t => simp [Outcome.state, LeuartSystem.set_lowest_energy_mode]
    | ret t =>
      cases hptr : s.leuart0_state_machine_vals.leuart_state <;>
        simp [Outcome.state, LeuartSystem.ien_write, LeuartSystem.set_tx,
          LeuartSystem.set_lowest_energy_mode, LeuartSystem.set_event_scheduled]

theorem run_leuart_index_sum (fuel : Nat) (N : Nat) (hN : N < UINT32_MOD) :
    ∀ (sigs : List LEUART_Signal) (s : LeuartSystem),
      (∀ x ∈ sigs, x = .TXBL ∨ x = .TXC) →
      s.leuart0_state_machine_vals.count_char
        + s.leuart0_state_machine_vals.data_string_length = N →
      (run_leuart fuel s sigs).state.leuart0_state_machine_vals.count_char
        + (run_leuart fuel s sigs).state.leuart0_state_machine_vals.data_string_length = N := by
  intro sigs
  induction sigs with
  | nil => intro s _ h; exact h
  | cons x xs ih =>
    intro s hx hinv
    have hstep : (leuart_signal fuel s x).state.leuart0_state_machine_vals.count_char
        + (leuart_signal fuel s x).state.leuart0_state_machine_vals.data_string_length = N := by
      rcases hx x (List.mem_cons_self _ _) with h | h
      · rw [h]; exact leuart_txbel_index_sum s N hN hinv
      · rw [h]
        show (leuart_txc s).state.leuart0_state_machine_vals.count_char
          + (leuart_txc s).state.leuart0_state_machine_vals.data_string_length = N
        rw [(leuart_txc_descriptor s).1, (leuart_txc_descriptor s).2]
        exact hinv
    simp only [run_leuart]
    cases hs : leuart_signal fuel s x with
    | ret s1 =>
      rw [hs] at hstep
      exact ih s1 (fun y hy => hx y (List.mem_cons_of_mem _ hy)) hstep
    | assert_failed s1 => rw [hs] at hstep; exact hstep
    | out_of_fuel s1 => rw [hs] at hstep; exact hstep

/-- C38: after `leuart_start(LEUART0, string, N)` has returned, in the state
after any sequence of buffer-level and transmit-complete interrupts the
character index plus the remaining length is `N`; so the index is at most `N`,
and the index at which the next buffer-level interrupt reads `data_string`, when
it reads a character, is below `N`. -/
theorem tx_index_plus_length (fuel : Nat) (s s1 : LeuartSystem) (string : List Nat) (N : Nat)
    (sigs : List LEUART_Signal)
    (hstart : leuart_start fuel s .LEUART0 string N = .ret s1) (hN : N < UINT32_MOD)
    (hsigs : ∀ x ∈ sigs, x = .TXBL ∨ x = .TXC) :
    (run_leuart fuel s1 sigs).state.leuart0_state_machine_vals.count_char
        + (run_leuart fuel s1 sigs).state.leuart0_state_machine_vals.data_string_length = N
      ∧ (run_leuart fuel s1 sigs).state.leuart0_state_machine_vals.count_char ≤ N
      ∧ ∀ i, txbel_read_index (run_leuart fuel s1 sigs).state = some i → i < N := by
  obtain ⟨hc, hl, _⟩ := leuart_start_ret fuel s s1 .LEUART0 string N hstart
  have hsum := run_leuart_index_sum fuel N hN sigs s1 hsigs (by rw [hc, hl]; omega)
  refine ⟨hsum, by omega, ?_⟩
  intro i hi
  unfold txbel_read_index at hi
  cases hst : (run_leuart fuel s1 sigs).state.leuart0_state_machine_vals.current_state with
  | INITIALIZATION_STATE => simp [hst] at hi
  | STOP_STATE => simp [hst] at hi
  | TRANSMISSION_STATE =>
    simp only [hst] at hi
    split at hi
    · cases hi
      omega
    · cases hi

/-- Witness for C38: "Hi" started in `idle_leuart_system`, then two buffer-level
interrupts, a transmit-complete interrupt and a third buffer-level interrupt. -/
theorem tx_index_plus_length_witness :
    (run_leuart 0 tx_started_system
        [.TXBL, .TXBL, .TXC, .TXBL]).state.leuart0_state_machine_vals.count_char ≤ 2 :=
  (tx_index_plus_length 0 idle_leuart_system tx_started_system [72, 105, 0] 2
    [.TXBL, .TXBL, .TXC, .TXBL] (by decide) (by decide) (by decide)).2.1

/-! ## LEUART: indices written in the receive buffer -/

theorem rxdatav_indices (fuel : Nat) : ∀ (bs : List Nat) (s : LeuartSystem)
    (rest : List LEUART_Signal),
    s.leuart0_read_vals.current_state_read = .RECEIVE_DATA →
    s.leuart0_read_vals.read_counter + bs.length < UINT32_MOD →
    rx_write_indices fuel s (bs.map .RXDATAV ++ rest)
      = List.range' s.leuart0_read_vals.read_counter bs.length
        ++ rx_write_indices fuel (rx_received_system s bs) rest := by
  intro bs
  induction bs with
  | nil =>
    intro s rest _ _
    simp [rx_received_system, store_chars, LeuartSystem.set_rx]
  | cons b bs ih =>
    intro s rest hst hc
    simp only [List.length_cons] at hc
    have hstep := leuart_rxdatav_receive s b hst (by omega)
    rw [List.map_cons, List.cons_append]
    simp only [rx_write_indices, rx_write_index, hst, leuart_signal, hstep, Option.toList,
      List.singleton_append, List.length_cons]
    rw [ih (rx_received_system s [b]) rest hst
      (by simp only [rx_received_system, LeuartSystem.set_rx, List.length_singleton]; omega),
      rx_received_system_cons]
    simp [rx_received_system, LeuartSystem.set_rx, List.range'_succ]

/-- C39: in a frame (start-of-frame in `INIT_READ`, one data-valid interrupt per
byte, end-of-frame) the indices written in `data_string_rx` are `0, 1, ..., n`,
the last by the terminator of the end-of-frame interrupt.  With at most 49
data-valid interrupts every one of them is below the size 50 of the buffer; with
50 or more some index written is 50 or greater. -/
theorem frame_write_indices (fuel : Nat) (s : LeuartSystem) (bs : List Nat) (syncbusy : Nat)
    (hst : s.leuart0_read_vals.current_state_read = .INIT_READ)
    (hfuel : syncbusy ≤ fuel) (hlen : bs.length + 1 < UINT32_MOD) :
    rx_write_indices fuel s (frame_signals bs syncbusy) = List.range (bs.length + 1)
      ∧ (bs.length ≤ 49 →
          ∀ i ∈ rx_write_indices fuel s (frame_signals bs syncbusy), i < LEUART_BUFFER_SIZE)
      ∧ (50 ≤ bs.length →
          ∃ i ∈ rx_write_indices fuel s (frame_signals bs syncbusy), LEUART_BUFFER_SIZE ≤ i) := by
  have h50 : LEUART_BUFFER_SIZE = 50 := rfl
  have hopen := leuart_startframe_init s hst
  have rx1 := rx_opened_system_rx s
  have hc1 : (rx_opened_system s).leuart0_read_vals.read_counter = 0 := by rw [rx1]
  have hp1 : (rx_opened_system s).leuart0_read_vals.current_state_read = .RECEIVE_DATA := by
    rw [rx1]
  have hidx : rx_write_indices fuel s (frame_signals bs syncbusy)
      = List.range (bs.length + 1) := by
    unfold frame_signals
    rw [List.append_assoc, List.singleton_append]
    simp only [rx_write_indices, rx_write_index, leuart_signal, hopen, Option.toList,
      List.nil_append]
    rw [rxdatav_indices fuel bs (rx_opened_system s) [.SIGF syncbusy] hp1 (by rw [hc1]; omega)]
    have hclose := leuart_sigframe_receive fuel (rx_received_system (rx_opened_system s) bs)
      syncbusy hp1 hfuel
      (by
        show (rx_opened_system s).leuart0_read_vals.read_counter + bs.length + 1 < UINT32_MOD
        rw [hc1]; omega)
    have hph : (rx_received_system (rx_opened_system s) bs).leuart0_read_vals.current_state_read
        = .RECEIVE_DATA := hp1
    have hrc : (rx_received_system (rx_opened_system s) bs).leuart0_read_vals.read_counter
        = bs.length := by
      show (rx_opened_system s).leuart0_read_vals.read_counter + bs.length = bs.length
      rw [hc1]; omega
    simp only [rx_write_indices, rx_write_index, hph, wait_syncbusy_of_le fuel syncbusy hfuel,
      leuart_signal, hclose, hrc, hc1, Option.toList]
    rw [List.range_succ, List.range_eq_range']
    simp
  refine ⟨hidx, fun hn i hi => ?_, fun hn => ⟨50, ?_, by rw [h50]⟩⟩
  · rw [hidx, List.mem_range] at hi
    rw [h50]; omega
  · rw [hidx, List.mem_range]
    omega

/-- Witness for C39: a frame of three bytes in `idle_leuart_system` writes the
indices 0, 1, 2 and 3. -/
theorem frame_write_indices_witness :
    rx_write_indices 0 idle_leuart_system (frame_signals [97, 98, 99] 0) = [0, 1, 2, 3] :=
  (frame_write_indices 0 idle_leuart_system [97, 98, 99] 0 (by decide) (by decide)
    (by decide)).1

/-! ## The receive callback of the application -/

theorem to_uint32_natCast (n : Nat) (h : n < 4294967296) : to_uint32 (n : Int) = n := by
  unfold to_uint32
  omega

theorem to_uint32_neg_one : to_uint32 (-1) = 4294967295 := by decide

theorem wrap_int32_small (n : Nat) (h : n ≤ 999) : wrap_int32 (n : Int) = n := by
  unfold wrap_int32
  omega

theorem wrap_int32_negated (n : Nat) (h : n ≤ 999) :
    wrap_int32 (((n * 4294967295) % UINT32_MOD : Nat) : Int) = -(n : Int) := by
  unfold wrap_int32 UINT32_MOD
  omega

theorem rx_digits_value_digits (str : List Nat) (a b c : Nat) (h3 : str.getD 3 0 = 48 + a)
    (h4 : str.getD 4 0 = 48 + b) (h5 : str.getD 5 0 = 48 + c) :
    rx_digits_value str = ((100 * a + 10 * b + c : Nat) : Int) := by
  unfold rx_digits_value
  rw [h3, h4, h5]
  push_cast
  ring

theorem copied_cell (s : LeuartSystem) (s_string : List Nat) (i v : Nat)
    (hlen : strlen s.leuart0_read_vals.data_string_rx < s_string.length)
    (h : (c_string s.leuart0_read_vals.data_string_rx)[i]? = some v) :
    (return_read_val s s_string).getD i 0 = v := by
  have hi : i < (c_string s.leuart0_read_vals.data_string_rx).length := by
    by_contra hn
    rw [List.getElem?_eq_none (by omega)] at h
    cases h
  unfold return_read_val
  rw [strcpy_getD_char _ _ i hi hlen, List.getD_eq_getElem?_getD, h]
  rfl

theorem copied_cell_ne (s : LeuartSystem) (s_string : List Nat) (i v : Nat)
    (hlen : strlen s.leuart0_read_vals.data_string_rx < s_string.length)
    (hi : i ≤ (c_string s.leuart0_read_vals.data_string_rx).length)
    (hv : v ≠ 0)
    (h : (c_string s.leuart0_read_vals.data_string_rx)[i]? ≠ some v) :
    (return_read_val s s_string).getD i 0 ≠ v := by
  by_cases hlt : i < (c_string s.leuart0_read_vals.data_string_rx).length
  · have hsome := List.getElem?_eq_getElem hlt
    rw [copied_cell s s_string i _ hlen hsome]
    intro e
    rw [e] at hsome
    exact h hsome
  · have he : i = strlen s.leuart0_read_vals.data_string_rx := by
      unfold strlen; omega
    unfold return_read_val
    rw [he, strcpy_getD_terminator _ _ hlen]
    exact fun e => hv e.symm

/-- C40: with the received line the C string in `data_string_rx` (shorter than
the array `s_string`): when character 1 is `U` and characters 3, 4, 5 are the
decimal digits `a`, `b`, `c`, `scheduled_rx_cb` passes `100a + 10b + c` to
`compare_set` for character 2 `+` and `-(100a + 10b + c)` for character 2 `-`;
it passes 0 when character 1 is not `U` (the line holding at least its first
character) and when character 2 is neither `+` nor `-`. -/
theorem scheduled_rx_cb_change (s : LeuartSystem) (s_string : List Nat) (a b c : Nat)
    (hlen : strlen s.leuart0_read_vals.data_string_rx < s_string.length) :
    ((c_string s.leuart0_read_vals.data_string_rx)[1]? = some 85 →
        (c_string s.leuart0_read_vals.data_string_rx)[3]? = some (48 + a) →
        (c_string s.leuart0_read_vals.data_string_rx)[4]? = some (48 + b) →
        (c_string s.leuart0_read_vals.data_string_rx)[5]? = some (48 + c) →
        a ≤ 9 → b ≤ 9 → c ≤ 9 →
        ((c_string s.leuart0_read_vals.data_string_rx)[2]? = some 43 →
            scheduled_rx_cb s s_string = ((100 * a + 10 * b + c : Nat) : Int))
          ∧ ((c_string s.leuart0_read_vals.data_string_rx)[2]? = some 45 →
            scheduled_rx_cb s s_string = -((100 * a + 10 * b + c : Nat) : Int)))
      ∧ (1 ≤ (c_string s.leuart0_read_vals.data_string_rx).length →
          (c_string s.leuart0_read_vals.data_string_rx)[1]? ≠ some 85 →
          scheduled_rx_cb s s_string = 0)
      ∧ (2 ≤ (c_string s.leuart0_read_vals.data_string_rx).length →
          (c_string s.leuart0_read_vals.data_string_rx)[2]? ≠ some 43 →
          (c_string s.leuart0_read_vals.data_string_rx)[2]? ≠ some 45 →
          scheduled_rx_cb s s_string = 0) := by
  refine ⟨fun h1 h3 h4 h5 ha hb hc => ⟨fun h2 => ?_, fun h2 => ?_⟩, fun hl h1 => ?_,
    fun hl hp hm => ?_⟩
  · have e1 := copied_cell s s_string 1 85 hlen h1
    have e2 := copied_cell s s_string 2 43 hlen h2
    have ev := rx_digits_value_digits (return_read_val s s_string) a b c
      (copied_cell s s_string 3 _ hlen h3) (copied_cell s s_string 4 _ hlen h4)
      (copied_cell s s_string 5 _ hlen h5)
    unfold scheduled_rx_cb
    simp only [e1, e2, ev, if_true]
    rw [to_uint32_natCast _ (by omega)]
    exact wrap_int32_small _ (by omega)
  · have e1 := copied_cell s s_string 1 85 hlen h1
    have e2 := copied_cell s s_string 2 45 hlen h2
    have ev := rx_digits_value_digits (return_read_val s s_string) a b c
      (copied_cell s s_string 3 _ hlen h3) (copied_cell s s_string 4 _ hlen h4)
      (copied_cell s s_string 5 _ hlen h5)
    have hne : ¬ ((45 : Nat) = 43) := by decide
    unfold scheduled_rx_cb
    simp only [e1, e2, ev, if_true, hne, if_false]
    rw [to_uint32_natCast _ (by omega), to_uint32_neg_one]
    exact wrap_int32_negated _ (by omega)
  · have n1 := copied_cell_ne s s_string 1 85 hlen hl (by decide) h1
    unfold scheduled_rx_cb
    simp only [n1, if_false]
    rfl
  · have np := copied_cell_ne s s_string 2 43 hlen hl (by decide) hp
    have nm := copied_cell_ne s s_string 2 45 hlen hl (by decide) hm
    unfold scheduled_rx_cb
    simp only [np, nm, if_false]
    split <;> rfl

/-- Witness for C40: the line `#U-123!` received in `idle_leuart_system` makes
`scheduled_rx_cb` pass `-123`. -/
theorem scheduled_rx_cb_change_witness :
    scheduled_rx_cb (run_leuart 0 idle_leuart_system
        (frame_signals [35, 85, 45, 49, 50, 51, 33] 0)).state (List.replicate 50 7)
      = -((100 * 1 + 10 * 2 + 3 : Nat) : Int) :=
  ((scheduled_rx_cb_change (run_leuart 0 idle_leuart_system
      (frame_signals [35, 85, 45, 49, 50, 51, 33] 0)).state (List.replicate 50 7) 1 2 3
    (by decide)).1 (by decide) (by decide) (by decide) (by decide) (by decide) (by decide)
    (by decide)).2 (by decide)

/-! ## Acknowledges the handshake does not act on -/

/-- C20, amended: an acknowledge that arrives in the phase `read_data` or
`stop_data` is not fatal.  `i2c_ack_sm` takes the `break` of these two cases: it
returns, fails no assertion and leaves the whole state as it was, however many
such acknowledges arrive. -/
theorem ack_in_read_or_stop_phase_ignored (b : Bus) (s : System)
    (h : (s.sm b).curr_state = .read_data ∨ (s.sm b).curr_state = .stop_data) :
    i2c_ack_sm s b = .ret s
      ∧ (i2c_ack_sm s b).asserted = false
      ∧ (i2c_ack_sm s b).returned = true
      ∧ ∀ m, run_signals s b (List.replicate m .ACK) = .ret s := by
  have h1 : i2c_ack_sm s b = .ret s := by
    unfold i2c_ack_sm
    rcases h with h | h <;> simp only [h]
  rw [h1]
  exact ⟨rfl, rfl, rfl, ack_idle_phase_run b s h⟩

/-- Witness for C20 as amended: a one-byte write on `I2C1` is in `stop_data`
after two acknowledges, with three bytes written to `TXDATA`; the acknowledge
of the third byte arrives in that phase and is ignored. -/
theorem ack_in_read_or_stop_phase_ignored_witness :
    ((run_signals (started_system write_example_system .I2C1 .bus1 85 10 WRITE_OP 8 0 1)
        .bus1 [.ACK, .ACK]).state.sm .bus1).curr_state = .stop_data
      ∧ tx_writes (run_signals (started_system write_example_system .I2C1 .bus1 85 10
          WRITE_OP 8 0 1) .bus1 [.ACK, .ACK]).state.hw = [170, 10, 4660]
      ∧ i2c_ack_sm (run_signals (started_system write_example_system .I2C1 .bus1 85 10
          WRITE_OP 8 0 1) .bus1 [.ACK, .ACK]).state .bus1
        = .ret (run_signals (started_system write_example_system .I2C1 .bus1 85 10
          WRITE_OP 8 0 1) .bus1 [.ACK, .ACK]).state :=
  ⟨by decide, by decide,
    (ack_in_read_or_stop_phase_ignored .bus1 (run_signals (started_system write_example_system
      .I2C1 .bus1 85 10 WRITE_OP 8 0 1) .bus1 [.ACK, .ACK]).state (Or.inr (by decide))).1⟩

end BleFw
